import Mathlib

/-! # EMG / bio-impedance sensor node: embedding of the firmware

Shallow embedding of `SensorCode/EMG_Sensors_Base` (`main.c`, `AD5933.c`):
the I2C peripheral interrupt handler, the command dispatcher, the millisecond
tick handler and the AD5933 register driver.

Conventions
* `uint8_t`, `uint16_t` variables are natural numbers; every place where the C
  code stores into a narrower type carries an explicit `% 256` or `% 65536`.
* The firmware's global variables are the fields of `State`; the AD5933
  driver's globals (and the history of the sensor bus) are the fields of `AD`.
* The sensor bus (`io_write`, `io_read`) is an environment `Bus`: a function
  from the history of operations to the status and byte the next operation
  returns, so that every deterministic bus behaviour is covered.
* Hardware registers written by the interrupt handler (`DATA`, `CTRLB.CMD`,
  `CTRLB.ACKACT`, `INTFLAG`) are reported as a list of `HwAct`.
-/

namespace SensorNode

/-! ## Command codes (`main.c`, enum of lines 21-39) -/

/-- Command enum from the host. -/
inductive Cmd
  | EMG
  | IMP_1_REAL
  | IMP_1_IMG
  | IMP_2_REAL
  | IMP_2_IMG
  | IMP_ALL
  | TEMP
  | EMG_PERIOD
  | IMP_PERIOD
  | TEMP_PERIOD
  | REQ_READ
  | READ_RDY
  | STOP_IMP_PER
  | START_IMP_PER
  | SET_AD_RANGE
  | SET_AD_PGA
  | SET_REF_SW
  deriving DecidableEq, Repr

/-- Numeric value of an enumerator (`EMG = 0x0`, then consecutive). -/
def Cmd.code : Cmd → Nat
  | .EMG => 0
  | .IMP_1_REAL => 1
  | .IMP_1_IMG => 2
  | .IMP_2_REAL => 3
  | .IMP_2_IMG => 4
  | .IMP_ALL => 5
  | .TEMP => 6
  | .EMG_PERIOD => 7
  | .IMP_PERIOD => 8
  | .TEMP_PERIOD => 9
  | .REQ_READ => 10
  | .READ_RDY => 11
  | .STOP_IMP_PER => 12
  | .START_IMP_PER => 13
  | .SET_AD_RANGE => 14
  | .SET_AD_PGA => 15
  | .SET_REF_SW => 16

/-- The enumerator a byte denotes, when it denotes one: the `case` labels a
`switch (cmd_chr)` can reach; every other byte falls to `default`. -/
def Cmd.ofByte : Nat → Option Cmd
  | 0 => some .EMG
  | 1 => some .IMP_1_REAL
  | 2 => some .IMP_1_IMG
  | 3 => some .IMP_2_REAL
  | 4 => some .IMP_2_IMG
  | 5 => some .IMP_ALL
  | 6 => some .TEMP
  | 7 => some .EMG_PERIOD
  | 8 => some .IMP_PERIOD
  | 9 => some .TEMP_PERIOD
  | 10 => some .REQ_READ
  | 11 => some .READ_RDY
  | 12 => some .STOP_IMP_PER
  | 13 => some .START_IMP_PER
  | 14 => some .SET_AD_RANGE
  | 15 => some .SET_AD_PGA
  | 16 => some .SET_REF_SW
  | _ => none

/-- The commands the value switch of the interrupt handler has a case for
(`main.c` lines 417-451): a host write that follows them carries a value. -/
def Cmd.isSetter : Cmd → Bool
  | .EMG_PERIOD => true
  | .IMP_PERIOD => true
  | .TEMP_PERIOD => true
  | .SET_AD_RANGE => true
  | .SET_AD_PGA => true
  | .SET_REF_SW => true
  | _ => false

/-! ## Constants -/

/-- `EXT_SLAVE_ADDRESS` (`main.c` line 10). -/
def EXT_SLAVE_ADDRESS : Nat := 0x09

/-- `RX_BUFFER_LEN` (`main.c` line 84). -/
def RX_BUFFER_LEN : Nat := 2

/-- `TX_BUFFER_MAX_LEN` (`main.c` line 85). -/
def TX_BUFFER_MAX_LEN : Nat := 8

/-- Modelled from the spec: the status macro `I2C_OK` of the vendor HAL is not
in the repository; the spec's transport interface returns a status code that is
negative on failure, and the firmware itself compares `AD_scan()`, which
returns the literal `0` on success, against `I2C_OK`. -/
def I2C_OK : Int := 0

def CTRL_OUTPUT_RANGE_1 : Nat := 0b00000000
def CTRL_OUTPUT_RANGE_2 : Nat := 0b00000110
def CTRL_OUTPUT_RANGE_3 : Nat := 0b00000100
def CTRL_OUTPUT_RANGE_4 : Nat := 0b00000010
def CTRL_NO_OPERATION : Nat := 0b00000000
def CTRL_INIT_START_FREQ : Nat := 0b00010000
def CTRL_START_FREQ_SWEEP : Nat := 0b00100000
def CTRL_INCREMENT_FREQ : Nat := 0b00110000
def CTRL_REPEAT_FREQ : Nat := 0b01000000
def CTRL_TEMP_MEASURE : Nat := 0b10010000
def CTRL_POWER_DOWN_MODE : Nat := 0b10100000
def CTRL_STANDBY_MODE : Nat := 0b10110000
def CTRL_RESET : Nat := 0b00010000
def CTRL_CLOCK_EXTERNAL : Nat := 0b00001000
def CTRL_CLOCK_INTERNAL : Nat := 0b00000000
def CTRL_PGA_GAIN_X1 : Nat := 0b00000001
def CTRL_PGA_GAIN_X5 : Nat := 0b00000000
def POWER_STANDBY : Nat := CTRL_STANDBY_MODE
def POWER_DOWN : Nat := CTRL_POWER_DOWN_MODE
def POWER_ON : Nat := CTRL_NO_OPERATION
def STATUS_DATA_VALID : Nat := 0x02
def STATUS_SWEEP_DONE : Nat := 0x04

/-! ## AD5933 register descriptors (`AD5933.h` lines 44-80, `AD5933.c` lines 11-21) -/

/-- The struct `AD_i2c_reg_t`: address and byte length of a register. -/
structure AD_i2c_reg_t where
  addr : Nat
  size : Nat
  deriving DecidableEq, Repr

/-- The enum `AD_reg_t`, index into the descriptor table. -/
inductive AD_reg_t
  | AD5933_CTRL
  | AD5933_START_FREQ
  | AD5933_FREQ_INC
  | AD5933_N_INC
  | AD5933_N_CYC
  | AD5933_STAT
  | AD5933_TEMP
  | AD5933_REAL
  | AD5933_IMGY
  deriving DecidableEq, Repr

/-- The table `_AD_reg`. -/
def AD_reg : AD_reg_t → AD_i2c_reg_t
  | .AD5933_CTRL => ⟨0x80, 0x02⟩
  | .AD5933_START_FREQ => ⟨0x82, 0x03⟩
  | .AD5933_FREQ_INC => ⟨0x85, 0x03⟩
  | .AD5933_N_INC => ⟨0x88, 0x02⟩
  | .AD5933_N_CYC => ⟨0x8A, 0x02⟩
  | .AD5933_STAT => ⟨0x8F, 0x01⟩
  | .AD5933_TEMP => ⟨0x92, 0x02⟩
  | .AD5933_REAL => ⟨0x94, 0x02⟩
  | .AD5933_IMGY => ⟨0x96, 0x02⟩

/-! ## Sensor bus -/

/-- One operation of the firmware on the sensor bus: `io_write` of some bytes,
`io_read` of one byte, the selection of the addressed chip
(`i2c_m_sync_set_slaveaddr`), or a register transfer of the HAL
(`i2c_m_sync_cmd_read`, `i2c_m_sync_cmd_write`). -/
inductive BusOp
  | write (bytes : List Nat)
  | read
  | slaveaddr (addr : Nat)
  | cmd_read (reg : Nat) (n : Nat)
  | cmd_write (reg : Nat) (bytes : List Nat)
  deriving DecidableEq, Repr

/-- The sensor bus as the driver sees it. `io_write h bytes` is the `int32_t`
status of writing `bytes` after the operations `h`; `io_read h` is the status
of reading one byte after `h` together with the byte found in the destination
afterwards (on a failed transfer that byte is whatever the environment
chooses). -/
structure Bus where
  io_write : List BusOp → List Nat → Int
  io_read : List BusOp → Int × Nat

/-- The register transfers of the HAL, used for the temperature chip:
`cmd_read h reg n` is the status of reading `n` bytes of register `reg` after
the operations `h`, with the bytes delivered; `cmd_write h reg bytes` is the
status of writing `bytes` to register `reg`. -/
structure CmdBus where
  cmd_read : List BusOp → Nat → Nat → Int × List Nat
  cmd_write : List BusOp → Nat → List Nat → Int

/-- Conversion of an `int32_t` status to `uint8_t` (assignment to `ret`). -/
def toU8 (x : Int) : Nat := (x % 256).toNat

/-- Globals of `AD5933.c` together with the history of the sensor bus. -/
structure AD where
  log : List BusOp
  ret : Nat
  clock_ext : Bool
  point_addr_buf : Nat × Nat
  deriving DecidableEq, Repr

/-- Loop of `AD_get_bytes` (`AD5933.c` lines 53-58): `n` iterations left,
loop variable `i`. -/
def AD_get_bytes_loop (bus : Bus) (reg : AD_i2c_reg_t) :
    Nat → Nat → AD → List Nat → Nat × AD × List Nat
  | 0, _, ad, value => (toU8 I2C_OK, ad, value)
  | n + 1, i, ad, value =>
    let ad1 := { ad with point_addr_buf := (ad.point_addr_buf.1, (reg.addr + i) % 256) }
    let out := [ad1.point_addr_buf.1, ad1.point_addr_buf.2]
    let ad2 := { ad1 with log := ad1.log ++ [BusOp.write out],
                          ret := toU8 (bus.io_write ad1.log out) }
    if (ad2.ret : Int) < I2C_OK then (ad2.ret, ad2, value)
    else
      let r := bus.io_read ad2.log
      let ad3 := { ad2 with log := ad2.log ++ [BusOp.read], ret := toU8 r.1 }
      let value1 := value.set i (r.2 % 256)
      if (ad3.ret : Int) < I2C_OK then (ad3.ret, ad3, value1)
      else AD_get_bytes_loop bus reg n (i + 1) ad3 value1

/-- `AD_get_bytes` (`AD5933.c` lines 52-59). -/
def AD_get_bytes (bus : Bus) (reg : AD_i2c_reg_t) (ad : AD) (value : List Nat) :
    Nat × AD × List Nat :=
  AD_get_bytes_loop bus reg reg.size 0 ad value

/-- Loop of `AD_set_bytes` (`AD5933.c` lines 63-68). -/
def AD_set_bytes_loop (bus : Bus) (reg : AD_i2c_reg_t) (value : List Nat) :
    Nat → Nat → AD → Nat × AD
  | 0, _, ad => (toU8 I2C_OK, ad)
  | n + 1, i, ad =>
    let addr_d_buf := [(reg.addr + i) % 256, value.getD i 0]
    let ad1 := { ad with log := ad.log ++ [BusOp.write addr_d_buf],
                         ret := toU8 (bus.io_write ad.log addr_d_buf) }
    if (ad1.ret : Int) < I2C_OK then (ad1.ret, ad1)
    else AD_set_bytes_loop bus reg value n (i + 1) ad1

/-- `AD_set_bytes` (`AD5933.c` lines 61-69). -/
def AD_set_bytes (bus : Bus) (reg : AD_i2c_reg_t) (ad : AD) (value : List Nat) : Nat × AD :=
  AD_set_bytes_loop bus reg value reg.size 0 ad

/-- `AD_set_settling_cycles` (`AD5933.c` lines 104-120). -/
def AD_set_settling_cycles (bus : Bus) (ad : AD) (time : Nat) : Nat × AD :=
  let settleTime1 := time &&& 0xFF
  let settleTime0 := (time >>> 8) &&& 0xFF
  let cycles := settleTime1 ||| (settleTime0 &&& 0x1)
  let val := ((settleTime0 &&& 0x7) >>> 1) % 256
  if cycles > 0x1FF ∨ ¬ (val = 0 ∨ val = 1 ∨ val = 3) then (255, ad)
  else AD_set_bytes bus (AD_reg .AD5933_N_CYC) ad [settleTime0, settleTime1]

/-- `AD_set_PGA_gain` (`AD5933.c` lines 168-186). The local `val` is
uninitialised in C; both of its bytes are written by `AD_get_bytes` before
they are used. -/
def AD_set_PGA_gain (bus : Bus) (ad : AD) (gain : Nat) : Nat × AD :=
  let g := AD_get_bytes bus (AD_reg .AD5933_CTRL) ad [0, 0]
  let ad1 := { g.2.1 with ret := g.1 }
  if (ad1.ret : Int) ≠ I2C_OK then (ad1.ret, ad1)
  else
    let val0 := g.2.2.getD 0 0 &&& 0xFE
    let val1 := g.2.2.getD 1 0
    if gain = CTRL_PGA_GAIN_X1 then
      AD_set_bytes bus (AD_reg .AD5933_CTRL) ad1 [val0 ||| CTRL_PGA_GAIN_X1, val1]
    else if gain = CTRL_PGA_GAIN_X5 then
      AD_set_bytes bus (AD_reg .AD5933_CTRL) ad1 [val0 ||| CTRL_PGA_GAIN_X5, val1]
    else (255, ad1)

/-- `AD_set_range` (`AD5933.c` lines 188-209). -/
def AD_set_range (bus : Bus) (ad : AD) (range : Nat) : Nat × AD :=
  let g := AD_get_bytes bus (AD_reg .AD5933_CTRL) ad [0, 0]
  let ad1 := { g.2.1 with ret := g.1 }
  if (ad1.ret : Int) ≠ I2C_OK then (ad1.ret, ad1)
  else
    let val0 := g.2.2.getD 0 0 &&& 0xF9
    let val1 := g.2.2.getD 1 0
    if range = CTRL_OUTPUT_RANGE_1 then
      AD_set_bytes bus (AD_reg .AD5933_CTRL) ad1 [val0 ||| CTRL_OUTPUT_RANGE_1, val1]
    else if range = CTRL_OUTPUT_RANGE_2 then
      AD_set_bytes bus (AD_reg .AD5933_CTRL) ad1 [val0 ||| CTRL_OUTPUT_RANGE_2, val1]
    else if range = CTRL_OUTPUT_RANGE_3 then
      AD_set_bytes bus (AD_reg .AD5933_CTRL) ad1 [val0 ||| CTRL_OUTPUT_RANGE_3, val1]
    else
      AD_set_bytes bus (AD_reg .AD5933_CTRL) ad1 [val0 ||| CTRL_OUTPUT_RANGE_4, val1]

/-! ## AD5933 driver, continued (`AD5933.c`), and MAX30205 driver (`MAX30205.c`) -/

def AD5933_ADDR : Nat := 0x0D
def AD5933_PTR : Nat := 0xB0
def AD5933_BR : Nat := 0xA1
def MAX30205_ADDR : Nat := 0x48
def MAX30205_TEMP : Nat := 0x00
def MAX30205_CONF : Nat := 0x01
def MAX30205_HYST : Nat := 0x02
def MAX30205_TOS : Nat := 0x03
def MAX30205_REG_LEN : Nat := 0x02

/-- `AD5933_FREQUENCY_MAIN` (`main.c` line 12). -/
def AD5933_FREQUENCY_MAIN : Nat := 1000

/-- The HAL call `i2c_m_sync_set_slaveaddr`: the chip the following transfers
address. -/
def set_slaveaddr (ad : AD) (addr : Nat) : AD :=
  { ad with log := ad.log ++ [BusOp.slaveaddr addr] }

/-- `AD_scan` (`AD5933.c` lines 33-48). The buffer `block_read_buf` it fills is
never read and is left out; `reg_buf` is uninitialised in C and written by
`AD_get_bytes` before use. -/
def AD_scan (bus : Bus) (ad : AD) : Nat × AD :=
  let ad1 := { ad with point_addr_buf := (AD5933_PTR, ad.point_addr_buf.2) }
  let ad2 := set_slaveaddr ad1 AD5933_ADDR
  let g := AD_get_bytes bus (AD_reg .AD5933_CTRL) ad2 [0, 0]
  if (g.1 : Int) = I2C_OK then
    if ((g.2.2.getD 0 0 <<< 8) ||| g.2.2.getD 1 0) = 0xA000 then (0, g.2.1)
    else (1, g.2.1)
  else (1, g.2.1)

/-- `AD_reset` (`AD5933.c` lines 73-78). -/
def AD_reset (bus : Bus) (ad : AD) : Nat × AD :=
  let g := AD_get_bytes bus (AD_reg .AD5933_CTRL) ad [0, 0]
  let ad1 := { g.2.1 with ret := g.1 }
  if (ad1.ret : Int) ≠ I2C_OK then (ad1.ret, ad1)
  else
    AD_set_bytes bus (AD_reg .AD5933_CTRL) ad1
      [g.2.2.getD 0 0, g.2.2.getD 1 0 ||| CTRL_RESET]

/-- `AD_set_control_mode` (`AD5933.c` lines 80-86). -/
def AD_set_control_mode (bus : Bus) (ad : AD) (mode : Nat) : Nat × AD :=
  let g := AD_get_bytes bus (AD_reg .AD5933_CTRL) ad [0, 0]
  let ad1 := { g.2.1 with ret := g.1 }
  if (ad1.ret : Int) ≠ I2C_OK then (ad1.ret, ad1)
  else
    AD_set_bytes bus (AD_reg .AD5933_CTRL) ad1
      [(g.2.2.getD 0 0 &&& 0x0F) ||| mode, g.2.2.getD 1 0]

/-- `AD_set_clock_internal` (`AD5933.c` lines 88-94). -/
def AD_set_clock_internal (bus : Bus) (ad : AD) : Nat × AD :=
  let ad0 := { ad with clock_ext := false }
  let g := AD_get_bytes bus (AD_reg .AD5933_CTRL) ad0 [0, 0]
  let ad1 := { g.2.1 with ret := g.1 }
  if (ad1.ret : Int) ≠ I2C_OK then (ad1.ret, ad1)
  else AD_set_bytes bus (AD_reg .AD5933_CTRL) ad1 [g.2.2.getD 0 0, CTRL_CLOCK_INTERNAL]

/-- `AD_set_clock_external` (`AD5933.c` lines 96-102). -/
def AD_set_clock_external (bus : Bus) (ad : AD) : Nat × AD :=
  let ad0 := { ad with clock_ext := true }
  let g := AD_get_bytes bus (AD_reg .AD5933_CTRL) ad0 [0, 0]
  let ad1 := { g.2.1 with ret := g.1 }
  if (ad1.ret : Int) ≠ I2C_OK then (ad1.ret, ad1)
  else AD_set_bytes bus (AD_reg .AD5933_CTRL) ad1 [g.2.2.getD 0 0, CTRL_CLOCK_EXTERNAL]

/-- The value `freqHex` of `AD_set_start_freq` and `AD_set_increment_freq`
(`AD5933.c` lines 123-128, 142-147): the double-precision expression
`(f/(clock/4.0))*pow(2, 27)` converted to `uint32_t`, as a function of
`clock_ext` and the frequency. The floating-point computation is not embedded:
the driver functions take it as a parameter. -/
abbrev FreqCode := Bool → Nat → Nat

/-- The three bytes of a frequency code, most significant first
(`AD5933.c` lines 131-134). -/
def freq_bytes (freqHex : Nat) : List Nat :=
  [(freqHex >>> 16) &&& 0xFF, (freqHex >>> 8) &&& 0xFF, freqHex &&& 0xFF]

/-- `AD_set_start_freq` (`AD5933.c` lines 122-139). The third component is the
local `freq_buf` at the return: the bytes read back from the register. -/
def AD_set_start_freq (code : FreqCode) (bus : Bus) (ad : AD) (start : Nat) :
    Nat × AD × List Nat :=
  let freqHex := code ad.clock_ext start % 4294967296
  if freqHex > 0xFFFFFF then (255, ad, [])
  else
    let w := AD_set_bytes bus (AD_reg .AD5933_START_FREQ) ad (freq_bytes freqHex)
    AD_get_bytes bus (AD_reg .AD5933_START_FREQ) w.2 (freq_bytes freqHex)

/-- `AD_set_increment_freq` (`AD5933.c` lines 141-156). -/
def AD_set_increment_freq (code : FreqCode) (bus : Bus) (ad : AD) (increment : Nat) :
    Nat × AD :=
  let freqHex := code ad.clock_ext increment % 4294967296
  if freqHex > 0xFFFFFF then (255, ad)
  else AD_set_bytes bus (AD_reg .AD5933_FREQ_INC) ad (freq_bytes freqHex)

/-- `AD_set_n_increments` (`AD5933.c` lines 158-166). -/
def AD_set_n_increments (bus : Bus) (ad : AD) (n : Nat) : Nat × AD :=
  if n > 511 then (255, ad)
  else AD_set_bytes bus (AD_reg .AD5933_N_INC) ad [(n >>> 8) &&& 0xFF, n &&& 0xFF]

/-- `AD_set_power_mode` (`AD5933.c` lines 211-222). -/
def AD_set_power_mode (bus : Bus) (ad : AD) (level : Nat) : Nat × AD :=
  if level = POWER_ON then AD_set_control_mode bus ad CTRL_NO_OPERATION
  else if level = POWER_STANDBY then AD_set_control_mode bus ad CTRL_STANDBY_MODE
  else if level = POWER_DOWN then AD_set_control_mode bus ad CTRL_POWER_DOWN_MODE
  else (255, ad)

/-- The driver calls `AD_get_complex_data` makes. -/
structure Calls where
  power_mode : AD → Nat → Nat × AD
  control_mode : AD → Nat → Nat × AD
  get_bytes : AD_i2c_reg_t → AD → List Nat → Nat × AD × List Nat

/-- The driver calls of the repository, on a bus. -/
def driver (bus : Bus) : Calls :=
  { power_mode := AD_set_power_mode bus,
    control_mode := AD_set_control_mode bus,
    get_bytes := AD_get_bytes bus }

/-- Outcome of one of the two polling loops of `AD_get_complex_data`: the
function has returned a status from inside the loop, or the loop is left with
the status register value last read. -/
inductive Poll
  | returned (ret : Nat) (ad : AD)
  | left (ad : AD) (status_reg : Nat)
  deriving DecidableEq, Repr

/-- A polling loop of `AD_get_complex_data` (`AD5933.c` lines 236-238 and
249-251): `do { read status } while ((status_reg & mask) != mask)`, with at
most `fuel` iterations; `none` when the fuel runs out. -/
def poll (c : Calls) (mask : Nat) : Nat → AD → Nat → Option Poll
  | 0, _, _ => none
  | fuel + 1, ad, status_reg =>
    let g := c.get_bytes (AD_reg .AD5933_STAT) ad [status_reg]
    let ad1 := { g.2.1 with ret := g.1 }
    if (ad1.ret : Int) ≠ I2C_OK then some (.returned ad1.ret ad1)
    else if (g.2.2.getD 0 status_reg &&& mask) ≠ mask then
      poll c mask fuel ad1 (g.2.2.getD 0 status_reg)
    else some (.left ad1 (g.2.2.getD 0 status_reg))

/-- Lines 243-253 of `AD_get_complex_data`, after the first polling loop. -/
def complex_data_tail (c : Calls) (fuel : Nat) (ad : AD) (status_reg : Nat)
    (real img : List Nat) : Option (Nat × AD × List Nat × List Nat) :=
  let g1 := c.get_bytes (AD_reg .AD5933_REAL) ad real
  let ad1 := { g1.2.1 with ret := g1.1 }
  if (ad1.ret : Int) ≠ I2C_OK then some (ad1.ret, ad1, g1.2.2, img)
  else
    let g2 := c.get_bytes (AD_reg .AD5933_IMGY) ad1 img
    let ad2 := { g2.2.1 with ret := g2.1 }
    if (ad2.ret : Int) ≠ I2C_OK then some (ad2.ret, ad2, g1.2.2, g2.2.2)
    else
      let m := c.control_mode ad2 CTRL_INCREMENT_FREQ
      let ad3 := { m.2 with ret := m.1 }
      if (ad3.ret : Int) ≠ I2C_OK then some (ad3.ret, ad3, g1.2.2, g2.2.2)
      else
        match poll c STATUS_SWEEP_DONE fuel ad3 status_reg with
        | none => none
        | some (.returned r ad4) => some (r, ad4, g1.2.2, g2.2.2)
        | some (.left ad4 _) =>
          let f := c.power_mode ad4 POWER_STANDBY
          some (f.1, f.2, g1.2.2, g2.2.2)

/-- `AD_get_complex_data` (`AD5933.c` lines 227-254) over given driver calls,
each polling loop with at most `fuel` iterations. The result is the status, the
driver state and the two caller buffers `real`, `img` as the function leaves
them; `none` when a polling loop has not ended within the fuel. -/
def AD_get_complex_data_with (c : Calls) (fuel : Nat) (ad : AD) (real img : List Nat) :
    Option (Nat × AD × List Nat × List Nat) :=
  let p := c.power_mode ad POWER_STANDBY
  let ad1 := { p.2 with ret := p.1 }
  if (ad1.ret : Int) ≠ I2C_OK then some (ad1.ret, ad1, real, img)
  else
    let m1 := c.control_mode ad1 CTRL_INIT_START_FREQ
    let ad2 := { m1.2 with ret := m1.1 }
    if (ad2.ret : Int) ≠ I2C_OK then some (ad2.ret, ad2, real, img)
    else
      let m2 := c.control_mode ad2 CTRL_START_FREQ_SWEEP
      let ad3 := { m2.2 with ret := m2.1 }
      if (ad3.ret : Int) ≠ I2C_OK then some (ad3.ret, ad3, real, img)
      else
        match poll c STATUS_DATA_VALID fuel ad3 0 with
        | none => none
        | some (.returned r ad4) => some (r, ad4, real, img)
        | some (.left ad4 status_reg) => complex_data_tail c fuel ad4 status_reg real img

/-- `AD_get_complex_data` with the driver calls of the repository. -/
def AD_get_complex_data (bus : Bus) (fuel : Nat) (ad : AD) (real img : List Nat) :
    Option (Nat × AD × List Nat × List Nat) :=
  AD_get_complex_data_with (driver bus) fuel ad real img

/-- `MAX_scan` (`MAX30205.c` lines 3-13). -/
def MAX_scan (cbus : CmdBus) (ad : AD) : Nat × AD :=
  let ad1 := set_slaveaddr ad MAX30205_ADDR
  let r := cbus.cmd_read ad1.log MAX30205_HYST MAX30205_REG_LEN
  let ad2 := { ad1 with log := ad1.log ++ [BusOp.cmd_read MAX30205_HYST MAX30205_REG_LEN] }
  if toU8 r.1 = 0 then
    if (((r.2.getD 0 0 % 256) <<< 8) ||| (r.2.getD 1 0 % 256)) = 0x4B00 then (0, ad2)
    else (1, ad2)
  else (1, ad2)

/-- `MAX_begin` (`MAX30205.c` lines 15-19). -/
def MAX_begin (cbus : CmdBus) (ad : AD) : Nat × AD :=
  let ad1 := set_slaveaddr ad MAX30205_ADDR
  (toU8 (cbus.cmd_write ad1.log MAX30205_CONF [0x0, 0x0]),
   { ad1 with log := ad1.log ++ [BusOp.cmd_write MAX30205_CONF [0x0, 0x0]] })

/-- `MAX_get_temperature` (`MAX30205.c` lines 21-24): status, driver state and
the caller's buffer; a byte the transfer does not deliver stays as it was. -/
def MAX_get_temperature (cbus : CmdBus) (ad : AD) (buf : Nat × Nat) : Nat × AD × (Nat × Nat) :=
  let ad1 := set_slaveaddr ad MAX30205_ADDR
  let r := cbus.cmd_read ad1.log MAX30205_TEMP MAX30205_REG_LEN
  (toU8 r.1,
   { ad1 with log := ad1.log ++ [BusOp.cmd_read MAX30205_TEMP MAX30205_REG_LEN] },
   (r.2.getD 0 buf.1 % 256, r.2.getD 1 buf.2 % 256))

/-! ## Firmware state (`main.c` lines 41-100, 363) -/

/-- The statically allocated objects a transmit pointer can point into. -/
inductive Region
  | null
  | emg
  | imp
  | temp
  | temporary_buffer
  | read_rdy
  deriving DecidableEq, Repr

/-- A byte pointer: an object and an offset into it. -/
structure Ptr where
  region : Region
  off : Nat
  deriving DecidableEq, Repr

/-- Levels of the output pins the firmware drives (`atmel_start_pins.h`). -/
structure Pins where
  LED0 : Bool
  LED1 : Bool
  LED2 : Bool
  SW_1 : Bool
  SW_2 : Bool
  SW_REF : Bool
  SW_IMP : Bool
  deriving DecidableEq, Repr

/-- The global variables of `main.c`. Two-byte arrays are pairs; the union
`imp` is its struct view (four two-byte arrays), the view `imp_all` being
derived from it (`imp_all`). -/
structure State where
  emg : Nat × Nat
  imp_1_real : Nat × Nat
  imp_1_img : Nat × Nat
  imp_2_real : Nat × Nat
  imp_2_img : Nat × Nat
  temp : Nat × Nat
  emg_period_us : Nat
  imp_period_ms : Nat
  temp_period_ms : Nat
  led_0_counter : Nat
  led_1_counter : Nat
  led_2_counter : Nat
  emg_counter : Nat
  imp_counter : Nat
  temp_counter : Nat
  read_rdy : Nat
  req_read : Bool
  do_emg : Bool
  do_imp : Bool
  do_temp : Bool
  tx_buffer_len : Nat
  rx_buffer : Nat × Nat
  temporary_buffer : List Nat
  tx_buffer : Ptr
  cmd_chr : Nat
  ad5933_enabled : Bool
  max30205_enabled : Bool
  i2c_idx : Nat
  pins : Pins
  ad : AD

/-- The view `imp.imp_all` of the union: the four sub-results, in the order of
the struct members. -/
def imp_all (s : State) : List Nat :=
  [s.imp_1_real.1, s.imp_1_real.2, s.imp_1_img.1, s.imp_1_img.2,
   s.imp_2_real.1, s.imp_2_real.2, s.imp_2_img.1, s.imp_2_img.2]

/-- Bytes of an object in a state. Nothing is known about address 0. -/
def regionBytes (s : State) : Region → List Nat
  | .null => []
  | .emg => [s.emg.1, s.emg.2]
  | .imp => imp_all s
  | .temp => [s.temp.1, s.temp.2]
  | .temporary_buffer => s.temporary_buffer
  | .read_rdy => [s.read_rdy]

/-- The expression `p[i]`, when it stays inside the object `p` points into. -/
def deref (s : State) (p : Ptr) (i : Nat) : Option Nat :=
  (regionBytes s p.region)[p.off + i]?

/-- Values of the globals after static initialisation (`main.c` lines 42-100,
363; `AD5933.c` lines 28-30; zero where no initialiser is given). -/
def power_on : State :=
  { emg := (0, 0), imp_1_real := (0, 0), imp_1_img := (0, 0),
    imp_2_real := (0, 0), imp_2_img := (0, 0), temp := (0, 0),
    emg_period_us := 750, imp_period_ms := 10001, temp_period_ms := 10001,
    led_0_counter := 1, led_1_counter := 1, led_2_counter := 1,
    emg_counter := 1, imp_counter := 1, temp_counter := 1,
    read_rdy := 0, req_read := false,
    do_emg := false, do_imp := false, do_temp := false,
    tx_buffer_len := 2, rx_buffer := (0, 0),
    temporary_buffer := List.replicate TX_BUFFER_MAX_LEN 0,
    tx_buffer := ⟨.null, 0⟩, cmd_chr := 255,
    ad5933_enabled := false, max30205_enabled := false,
    i2c_idx := 0,
    pins := ⟨false, false, false, false, false, false, false⟩,
    ad := { log := [], ret := 0, clock_ext := false, point_addr_buf := (0, 0) } }

/-- The first statements of `main` that touch the globals (`main.c` lines
150-166): phase seeding of the two counters and the dummy impedance values. -/
def main_seed (s : State) : State :=
  let s1 :=
    if EXT_SLAVE_ADDRESS = 0x08 then { s with imp_counter := 1, temp_counter := 1 }
    else { s with imp_counter := 5000, temp_counter := 5000 }
  { s1 with imp_1_real := (100, 0), imp_1_img := (150, 0),
            imp_2_real := (200, 0), imp_2_img := (250, 0) }

/-! ## Tick handler (`main.c` lines 103-141) -/

/-- The macro `togglePin` applied to a level. -/
def togglePin (level : Bool) : Bool := !level

/-- Lines 104-115 of `SysTick_Handler`: the counters advance. -/
def tick_count (s : State) : State :=
  let a := { s with led_0_counter := (s.led_0_counter + 1) % 65536 }
  let b :=
    if a.ad5933_enabled then { a with imp_counter := (a.imp_counter + 1) % 65536 }
    else { a with led_1_counter := (a.led_1_counter + 1) % 65536 }
  if b.max30205_enabled then { b with temp_counter := (b.temp_counter + 1) % 65536 }
  else { b with led_2_counter := (b.led_2_counter + 1) % 65536 }

/-- Lines 117-120 of `SysTick_Handler`. -/
def tick_led0 (s : State) : State :=
  if s.led_0_counter % 1001 = 0 then
    { s with led_0_counter := 1, pins := { s.pins with LED0 := togglePin s.pins.LED0 } }
  else s

/-- Lines 122-125 of `SysTick_Handler`. -/
def tick_led1 (s : State) : State :=
  if s.led_1_counter % 1001 = 0 then
    { s with led_1_counter := 1, pins := { s.pins with LED1 := togglePin s.pins.LED1 } }
  else s

/-- Lines 127-130 of `SysTick_Handler`. -/
def tick_led2 (s : State) : State :=
  if s.led_2_counter % 1001 = 0 then
    { s with led_2_counter := 1, pins := { s.pins with LED2 := togglePin s.pins.LED2 } }
  else s

/-- Lines 132-135 of `SysTick_Handler`; `none` when `imp_period_ms` is zero,
the `%` being undefined then. -/
def tick_imp (s : State) : Option State :=
  if s.imp_period_ms = 0 then none
  else if s.imp_counter % s.imp_period_ms = 0 then
    some { s with imp_counter := 1, do_imp := true }
  else some s

/-- Lines 137-140 of `SysTick_Handler`; `none` when `temp_period_ms` is zero. -/
def tick_temp (s : State) : Option State :=
  if s.temp_period_ms = 0 then none
  else if s.temp_counter % s.temp_period_ms = 0 then
    some { s with temp_counter := 1, do_temp := true }
  else some s

/-- `SysTick_Handler`: its statements in order. The result is `none` when one
of the two `%` operations on a configurable period divides by zero, which C
leaves undefined. -/
def SysTick_Handler (s : State) : Option State :=
  (tick_imp (tick_led2 (tick_led1 (tick_led0 (tick_count s))))).bind tick_temp

/-- The state after `n` consecutive ticks. -/
def ticks : Nat → State → Option State
  | 0, s => some s
  | n + 1, s => (SysTick_Handler s).bind (ticks n)

/-! ## Command dispatcher (`main.c` lines 469-545) -/

/-- The library routine `utoa (value, buf, 10)`: the decimal digits of `value`
as ASCII codes, followed by the terminating NUL. -/
def utoa (value : Nat) : List Nat :=
  (Nat.toDigits 10 value).map Char.toNat ++ [0]

/-- Storing `bytes` at the start of a buffer, the rest of the buffer kept. -/
def storeBytes (buf bytes : List Nat) : List Nat :=
  bytes ++ buf.drop bytes.length

/-- `i2c_process_cmd_chr`. -/
def i2c_process_cmd_chr (s : State) : State :=
  match Cmd.ofByte s.cmd_chr with
  | some .EMG => { s with tx_buffer := ⟨.emg, 0⟩, tx_buffer_len := 2, do_emg := true }
  | some .IMP_1_REAL => { s with tx_buffer := ⟨.imp, 0⟩, tx_buffer_len := 2 }
  | some .IMP_1_IMG => { s with tx_buffer := ⟨.imp, 2⟩, tx_buffer_len := 2 }
  | some .IMP_2_REAL => { s with tx_buffer := ⟨.imp, 4⟩, tx_buffer_len := 2 }
  | some .IMP_2_IMG => { s with tx_buffer := ⟨.imp, 6⟩, tx_buffer_len := 2 }
  | some .IMP_ALL => { s with tx_buffer := ⟨.imp, 0⟩, tx_buffer_len := 8, read_rdy := 0 }
  | some .TEMP => { s with tx_buffer := ⟨.temp, 0⟩, tx_buffer_len := 2 }
  | some .EMG_PERIOD =>
    { s with temporary_buffer := storeBytes s.temporary_buffer (utoa s.emg_period_us),
             tx_buffer := ⟨.temporary_buffer, 0⟩, tx_buffer_len := 4 }
  | some .IMP_PERIOD =>
    { s with temporary_buffer := storeBytes s.temporary_buffer (utoa s.imp_period_ms),
             tx_buffer := ⟨.temporary_buffer, 0⟩, tx_buffer_len := 4 }
  | some .TEMP_PERIOD =>
    { s with temporary_buffer := storeBytes s.temporary_buffer (utoa s.temp_period_ms),
             tx_buffer := ⟨.temporary_buffer, 0⟩, tx_buffer_len := 4 }
  | some .REQ_READ => { s with read_rdy := 0, req_read := true }
  | some .READ_RDY => { s with tx_buffer := ⟨.read_rdy, 0⟩, tx_buffer_len := 1 }
  | some .STOP_IMP_PER =>
    { s with max30205_enabled := false, ad5933_enabled := false,
             imp_counter := 1, temp_counter := 1 }
  | some .START_IMP_PER =>
    let s := { s with max30205_enabled := true, ad5933_enabled := true }
    if EXT_SLAVE_ADDRESS = 0x08 then { s with imp_counter := 1, temp_counter := 1 }
    else { s with imp_counter := 5000, temp_counter := 5000 }
  | _ => s

/-! ## Bus-transaction interrupt (`main.c` lines 366-465) -/

/-- What the hardware shows the handler at one invocation: the three interrupt
flags, the direction bit `STATUS.DIR` (set when the host reads) and the value
of the receive side of `DATA`. -/
structure Irq where
  amatch : Bool
  drdy : Bool
  prec : Bool
  dir : Bool
  data : Nat
  deriving DecidableEq, Repr

/-- A register access of the handler: a write of `CTRLB.ACKACT`, of
`CTRLB.CMD`, of `DATA` (the byte is `none` when the transmit pointer is read
outside its object), the clearing of an interrupt flag, or a store into
`rx_buffer` at an index. -/
inductive HwAct
  | ackact (v : Nat)
  | cmd (v : Nat)
  | data (v : Option Nat)
  | clear_amatch
  | clear_drdy
  | clear_prec
  | rx_store (idx : Nat)
  deriving DecidableEq, Repr

/-- The store `rx_buffer[idx] = v`; a store outside the two-element array does
not change the array (what it overwrites instead is not part of the model). -/
def rx_write (rx : Nat × Nat) (idx v : Nat) : Nat × Nat :=
  if idx = 0 then (v % 256, rx.2) else if idx = 1 then (rx.1, v % 256) else rx

/-- The assignment `cmd_chr = v`. -/
def set_cmd_chr (s : State) (v : Nat) : State := { s with cmd_chr := v }

/-- The assignment `i2c_idx = v`. -/
def set_i2c_idx (s : State) (v : Nat) : State := { s with i2c_idx := v }

/-- The `DRDY` block (`main.c` lines 377-401). -/
def irq_drdy (s : State) (irq : Irq) : State × List HwAct :=
  if irq.dir then
    if (s.i2c_idx : Int) = (s.tx_buffer_len : Int) - 1 then
      ({ s with i2c_idx := (s.i2c_idx + 1) % 256 },
        [.data (deref s s.tx_buffer s.i2c_idx), .cmd 0x2, .clear_drdy])
    else
      ({ s with i2c_idx := (s.i2c_idx + 1) % 256 },
        [.data (deref s s.tx_buffer s.i2c_idx), .cmd 0x3, .clear_drdy])
  else
    if (s.i2c_idx : Int) = (RX_BUFFER_LEN : Int) - 1 then
      (s, [.ackact 0, .cmd 0x2, .clear_drdy])
    else
      ({ s with rx_buffer := rx_write s.rx_buffer s.i2c_idx irq.data,
                i2c_idx := (s.i2c_idx + 1) % 256 },
        [.rx_store s.i2c_idx, .ackact 0, .cmd 0x3, .clear_drdy])

/-- The value-change branch of the `PREC` block (`main.c` lines 413-456): a
command is pending and the host has written a value. -/
def irq_set_value (bus : Bus) (s : State) : State :=
  let v0 := ((s.rx_buffer.2 <<< 8) ||| s.rx_buffer.1) % 65536
  let v := if v0 > 9999 then 9999 else v0
  let s1 : State :=
    match Cmd.ofByte s.cmd_chr with
    | some .EMG_PERIOD => { s with emg_period_us := v }
    | some .IMP_PERIOD => { s with imp_period_ms := v }
    | some .TEMP_PERIOD => { s with temp_period_ms := v }
    | some .SET_AD_RANGE =>
      if v = 1 then { s with ad := (AD_set_range bus s.ad CTRL_OUTPUT_RANGE_1).2 }
      else if v = 2 then { s with ad := (AD_set_range bus s.ad CTRL_OUTPUT_RANGE_2).2 }
      else if v = 3 then { s with ad := (AD_set_range bus s.ad CTRL_OUTPUT_RANGE_3).2 }
      else if v = 4 then { s with ad := (AD_set_range bus s.ad CTRL_OUTPUT_RANGE_4).2 }
      else s
    | some .SET_AD_PGA =>
      if v = 1 then { s with ad := (AD_set_PGA_gain bus s.ad CTRL_PGA_GAIN_X1).2 }
      else if v = 5 then { s with ad := (AD_set_PGA_gain bus s.ad CTRL_PGA_GAIN_X5).2 }
      else s
    | some .SET_REF_SW =>
      if v = 0 then { s with pins := { s.pins with SW_REF := false } }
      else { s with pins := { s.pins with SW_REF := true } }
    | _ => s
  set_cmd_chr s1 255

/-- The `PREC` block (`main.c` lines 403-463). -/
def irq_prec (bus : Bus) (s : State) (irq : Irq) : State × List HwAct :=
  if ¬ irq.dir then
    let s1 := { s with rx_buffer := rx_write s.rx_buffer s.i2c_idx irq.data,
                       i2c_idx := (s.i2c_idx + 1) % 256 }
    let s2 :=
      if s1.cmd_chr = 255 then i2c_process_cmd_chr { s1 with cmd_chr := s1.rx_buffer.1 }
      else irq_set_value bus s1
    (set_i2c_idx s2 0, [.clear_prec, .rx_store s.i2c_idx])
  else
    (set_i2c_idx (set_cmd_chr s 255) 0, [.clear_prec])

/-- `I2C_SERCOM_IRQ_HANDLER`: the three blocks in order, each guarded by its
flag as read at entry. -/
def I2C_SERCOM_IRQ_HANDLER (bus : Bus) (s : State) (irq : Irq) : State × List HwAct :=
  let a1 : List HwAct := if irq.amatch then [.ackact 0, .cmd 0x3, .clear_amatch] else []
  let r2 := if irq.drdy then irq_drdy s irq else (s, [])
  let r3 := if irq.prec then irq_prec bus r2.1 irq else (r2.1, [])
  (r3.1, a1 ++ r2.2 ++ r3.2)

/-- The handler run over a sequence of invocations: final state and the
register accesses of each invocation. -/
def run (bus : Bus) : State → List Irq → State × List (List HwAct)
  | s, [] => (s, [])
  | s, e :: es =>
    let r := I2C_SERCOM_IRQ_HANDLER bus s e
    let rest := run bus r.1 es
    (rest.1, r.2 :: rest.2)

/-! ## Host transactions as sequences of handler invocations -/

/-- Address match at the start of a transaction. -/
def ev_amatch (dir : Bool) : Irq := ⟨true, false, false, dir, 0⟩

/-- A byte `b` has arrived from the host. -/
def ev_rx (b : Nat) : Irq := ⟨false, true, false, false, b⟩

/-- The host clocks out the next byte. -/
def ev_tx : Irq := ⟨false, true, false, true, 0⟩

/-- Stop condition; `data` is what `DATA` holds at that moment. -/
def ev_stop (dir : Bool) (data : Nat) : Irq := ⟨false, false, true, dir, data⟩

/-- A host-write transaction of the bytes `bytes`, closed by a stop at which
`DATA` holds `atStop`. For a two-byte write the handler leaves the second byte
unread in `DATA` until the stop, so `atStop` is that byte. -/
def hostWrite (bytes : List Nat) (atStop : Nat) : List Irq :=
  ev_amatch false :: (bytes.map ev_rx ++ [ev_stop false atStop])

/-- A host-read transaction of `n` bytes, closed by a stop. -/
def hostRead (n : Nat) : List Irq :=
  ev_amatch true :: (List.replicate n ev_tx ++ [ev_stop true 0])

/-! ## Start-up and main loop (`main.c` lines 143-336) -/

/-- The assignment `do_imp = false` by which the main loop acknowledges the
flag (`main.c` lines 286 and 328). -/
def clear_do_imp (s : State) : State := { s with do_imp := false }

/-- The configuration chain of `main` (`main.c` lines 213-220): the calls joined
by `||`, evaluated left to right until one returns non-zero; the value is 1
then, and 0 when all return 0. -/
def AD_configure (code : FreqCode) (bus : Bus) (ad : AD) : Nat × AD :=
  let r1 := AD_reset bus ad
  if r1.1 ≠ 0 then (1, r1.2)
  else
    let r2 := AD_set_clock_external bus r1.2
    if r2.1 ≠ 0 then (1, r2.2)
    else
      let r3 := AD_set_start_freq code bus r2.2 AD5933_FREQUENCY_MAIN
      if r3.1 ≠ 0 then (1, r3.2.1)
      else
        let r4 := AD_set_increment_freq code bus r3.2.1 0
        if r4.1 ≠ 0 then (1, r4.2)
        else
          let r5 := AD_set_n_increments bus r4.2 0
          if r5.1 ≠ 0 then (1, r5.2)
          else
            let r6 := AD_set_settling_cycles bus r5.2 500
            if r6.1 ≠ 0 then (1, r6.2)
            else
              let r7 := AD_set_range bus r6.2 CTRL_OUTPUT_RANGE_2
              if r7.1 ≠ 0 then (1, r7.2)
              else
                let r8 := AD_set_PGA_gain bus r7.2 CTRL_PGA_GAIN_X1
                if r8.1 ≠ 0 then (1, r8.2) else (0, r8.2)

/-- The assignment of the driver state and of `ad5933_enabled`. -/
def set_ad5933 (s : State) (ad : AD) (enabled : Bool) : State :=
  { s with ad := ad, ad5933_enabled := enabled }

/-- The assignment of the driver state and of `max30205_enabled`. -/
def set_max30205 (s : State) (ad : AD) (enabled : Bool) : State :=
  { s with ad := ad, max30205_enabled := enabled }

/-- Presence check and configuration of the impedance chip (`main.c` lines
210-229; `ALERT_AND_STOP` is 0, so the other branch of line 172 is dead). -/
def startup_ad (code : FreqCode) (bus : Bus) (s : State) : State :=
  let r := AD_scan bus s.ad
  if (r.1 : Int) = I2C_OK then
    let c := AD_configure code bus r.2
    if (c.1 : Int) ≠ I2C_OK then set_ad5933 s c.2 false
    else set_ad5933 s (AD_set_power_mode bus c.2 POWER_STANDBY).2 true
  else set_ad5933 s r.2 false

/-- Presence check of the temperature chip (`main.c` lines 231-237). -/
def startup_max (cbus : CmdBus) (s : State) : State :=
  let r := MAX_scan cbus s.ad
  if (r.1 : Int) = I2C_OK then set_max30205 s (MAX_begin cbus r.2).2 true
  else set_max30205 s r.2 false

/-- `main` up to the running loop (`main.c` lines 143-243): seeding, then the
two presence checks. The set-up of the peripherals themselves is outside the
model. -/
def main_startup (code : FreqCode) (bus : Bus) (cbus : CmdBus) (s : State) : State :=
  startup_max cbus (startup_ad code bus (main_seed s))

/-- The `do_emg` branch of the loop (`main.c` lines 247-253); `adc` is the
sample `adc_sync_read_channel` delivers. -/
def main_do_emg (adc : Nat × Nat) (s : State) : State :=
  if s.do_emg then { s with emg := (adc.1 % 256, adc.2 % 256), do_emg := false } else s

/-- The loop `while (!ad_res)` around `AD_get_complex_data` (`main.c` lines
263-266 and the three like it), with at most `tries` iterations. -/
def sweep (bus : Bus) (fuel : Nat) :
    Nat → AD → List Nat → List Nat → Option (AD × List Nat × List Nat)
  | 0, _, _, _ => none
  | tries + 1, ad, real, img =>
    match AD_get_complex_data bus fuel ad real img with
    | none => none
    | some (r, ad1, real1, img1) =>
      if (r : Int) = I2C_OK then some (ad1, real1, img1)
      else sweep bus fuel tries ad1 real1 img1

/-- Four `digitalWrite` calls, one on each electrode switch: the levels after
them. -/
def set_switches (s : State) (sw_1 sw_2 sw_ref sw_imp : Bool) : State :=
  { s with pins := { s.pins with SW_1 := sw_1, SW_2 := sw_2, SW_REF := sw_ref,
                                 SW_IMP := sw_imp } }

/-- Storing the result of a sweep into electrode pair 1 of `imp`. -/
def store_pair_1 (s : State) (r : AD × List Nat × List Nat) : State :=
  { s with ad := r.1,
           imp_1_real := (r.2.1.getD 0 s.imp_1_real.1, r.2.1.getD 1 s.imp_1_real.2),
           imp_1_img := (r.2.2.getD 0 s.imp_1_img.1, r.2.2.getD 1 s.imp_1_img.2) }

/-- Storing the result of a sweep into electrode pair 2 of `imp`. -/
def store_pair_2 (s : State) (r : AD × List Nat × List Nat) : State :=
  { s with ad := r.1,
           imp_2_real := (r.2.1.getD 0 s.imp_2_real.1, r.2.1.getD 1 s.imp_2_real.2),
           imp_2_img := (r.2.2.getD 0 s.imp_2_img.1, r.2.2.getD 1 s.imp_2_img.2) }

/-- The sensor bus is pointed at the impedance chip (`main.c` lines 255, 296). -/
def select_ad5933 (s : State) : State :=
  { s with ad := set_slaveaddr s.ad AD5933_ADDR }

/-- `do_imp` branch, first part (`main.c` lines 255-266): electrode pair 1 is
routed and swept into `imp_1_real`, `imp_1_img`. -/
def imp_pass_sweep1 (bus : Bus) (fuel tries : Nat) (s : State) : Option State :=
  let a := set_switches (select_ad5933 s) true false true true
  (sweep bus fuel tries a.ad [a.imp_1_real.1, a.imp_1_real.2]
    [a.imp_1_img.1, a.imp_1_img.2]).map (store_pair_1 a)

/-- `do_imp` branch, second part (`main.c` lines 268-279): electrode pair 2 is
routed and swept into `imp_2_real`, `imp_2_img`. -/
def imp_pass_sweep2 (bus : Bus) (fuel tries : Nat) (s : State) : Option State :=
  let a := set_switches s false true true false
  (sweep bus fuel tries a.ad [a.imp_2_real.1, a.imp_2_real.2]
    [a.imp_2_img.1, a.imp_2_img.2]).map (store_pair_2 a)

/-- `do_imp` branch, last part (`main.c` lines 281-286): the switches go back
to the EMG position and the flag is cleared. -/
def imp_pass_finish (s : State) : State :=
  clear_do_imp (set_switches s false false false false)

/-- The `do_imp` branch of the loop (`main.c` lines 254-287). -/
def main_do_imp (bus : Bus) (fuel tries : Nat) (s : State) : Option State :=
  if s.do_imp then
    ((imp_pass_sweep1 bus fuel tries s).bind (imp_pass_sweep2 bus fuel tries)).map
      imp_pass_finish
  else some s

/-- The `do_temp` branch of the loop (`main.c` lines 289-292). -/
def main_do_temp (cbus : CmdBus) (s : State) : State :=
  if s.do_temp then
    let r := MAX_get_temperature cbus s.ad s.temp
    { s with ad := r.2.1, temp := r.2.2, do_temp := false }
  else s

/-- `req_read` branch, first part (`main.c` lines 295-307). -/
def req_pass_sweep1 (bus : Bus) (fuel tries : Nat) (s : State) : Option State :=
  let a := set_switches (select_ad5933 { s with req_read := false }) true true true true
  (sweep bus fuel tries a.ad [a.imp_1_real.1, a.imp_1_real.2]
    [a.imp_1_img.1, a.imp_1_img.2]).map (store_pair_1 a)

/-- `req_read` branch, second part (`main.c` lines 309-319). -/
def req_pass_sweep2 (bus : Bus) (fuel tries : Nat) (s : State) : Option State :=
  let a := set_switches s true true true false
  (sweep bus fuel tries a.ad [a.imp_2_real.1, a.imp_2_real.2]
    [a.imp_2_img.1, a.imp_2_img.2]).map (store_pair_2 a)

/-- `req_read` branch, last part (`main.c` lines 321-333): the switches go back
to the EMG position, the temperature is read and readiness is set. -/
def req_pass_finish (cbus : CmdBus) (s : State) : State :=
  let a := clear_do_imp (set_switches s false false false false)
  let r := MAX_get_temperature cbus a.ad a.temp
  { a with ad := r.2.1, temp := r.2.2, do_temp := false, read_rdy := 1 }

/-- The `req_read` branch of the loop (`main.c` lines 294-334). -/
def main_req_read (bus : Bus) (cbus : CmdBus) (fuel tries : Nat) (s : State) : Option State :=
  if s.req_read then
    ((req_pass_sweep1 bus fuel tries s).bind (req_pass_sweep2 bus fuel tries)).map
      (req_pass_finish cbus)
  else some s

/-- One iteration of the running loop (`main.c` lines 246-335) without
interruption: the four flags in the order of the source. -/
def main_loop_pass (bus : Bus) (cbus : CmdBus) (fuel tries : Nat) (adc : Nat × Nat)
    (s : State) : Option State :=
  (main_do_imp bus fuel tries (main_do_emg adc s)).bind
    (fun s1 => main_req_read bus cbus fuel tries (main_do_temp cbus s1))

/-! ## Notions used in the statements -/

/-- The cycle count a settling-time word encodes: its bits 8..0. -/
def settling_count (time : Nat) : Nat := time % 512

/-- The multiplier field of a settling-time word: its bits 10..9. -/
def settling_mult_field (time : Nat) : Nat := time / 512 % 4

/-- The state the host reaches from start-up by starting the periodic mode
(`[0x0D]`, closed by a dummy write that clears the pending command) and
setting the impedance period to `p` (`[0x08]`, then `[p, 0]`). -/
def periodic_with (bus : Bus) (p : Nat) : State :=
  (run bus (main_seed power_on)
    (hostWrite [0x0D] 0 ++ hostWrite [0x00] 0 ++ hostWrite [0x08] 0 ++ hostWrite [p, 0] 0)).1

/-- The variables of the impedance schedule. -/
def imp_view (s : State) : Bool × Nat × Nat × Nat × Bool :=
  (s.ad5933_enabled, s.imp_counter, s.imp_period_ms, s.temp_period_ms, s.do_imp)

/-- Flag and counter of the impedance schedule. -/
def imp_phase (s : State) : Bool × Nat := (s.do_imp, s.imp_counter)

/-! ## The protocol table, as the command set is documented -/

/-- Transmit source and response length of each command that has a response:
two bytes for a single result, eight for the combined impedance view, one for
the readiness flag, four for a period (decimal text in the scratch buffer). -/
def response_source : Cmd → Option (Ptr × Nat)
  | .EMG => some (⟨.emg, 0⟩, 2)
  | .IMP_1_REAL => some (⟨.imp, 0⟩, 2)
  | .IMP_1_IMG => some (⟨.imp, 2⟩, 2)
  | .IMP_2_REAL => some (⟨.imp, 4⟩, 2)
  | .IMP_2_IMG => some (⟨.imp, 6⟩, 2)
  | .IMP_ALL => some (⟨.imp, 0⟩, 8)
  | .TEMP => some (⟨.temp, 0⟩, 2)
  | .EMG_PERIOD => some (⟨.temporary_buffer, 0⟩, 4)
  | .IMP_PERIOD => some (⟨.temporary_buffer, 0⟩, 4)
  | .TEMP_PERIOD => some (⟨.temporary_buffer, 0⟩, 4)
  | .READ_RDY => some (⟨.read_rdy, 0⟩, 1)
  | _ => none

/-- The bytes of the store a command with a response names: the sample buffer
of a result command (for IMP_ALL the four sub-results one after the other),
the readiness flag for READ_RDY; a period command names no store bytes. -/
def source_bytes (s : State) : Cmd → List Nat
  | .EMG => [s.emg.1, s.emg.2]
  | .IMP_1_REAL => [s.imp_1_real.1, s.imp_1_real.2]
  | .IMP_1_IMG => [s.imp_1_img.1, s.imp_1_img.2]
  | .IMP_2_REAL => [s.imp_2_real.1, s.imp_2_real.2]
  | .IMP_2_IMG => [s.imp_2_img.1, s.imp_2_img.2]
  | .IMP_ALL =>
    [s.imp_1_real.1, s.imp_1_real.2] ++ [s.imp_1_img.1, s.imp_1_img.2] ++
      [s.imp_2_real.1, s.imp_2_real.2] ++ [s.imp_2_img.1, s.imp_2_img.2]
  | .TEMP => [s.temp.1, s.temp.2]
  | .READ_RDY => [s.read_rdy]
  | _ => []

/-! ## A bus with a byte-addressed register file behind the impedance chip -/

/-- The chips as the transfers have left them: the address selected last, the
register pointer of the impedance chip and its registers. -/
structure ChipState where
  addr : Nat
  ptr : Nat
  mem : Nat → Nat

/-- Effect of one bus operation on the chips. While the impedance chip is
addressed, the two-byte write `[0xB0, a]` sets its register pointer to `a` and
every other two-byte write `[a, v]` stores `v` into register `a`; transfers to
another address leave it alone. -/
def chip_step (c : ChipState) : BusOp → ChipState
  | .slaveaddr a => { c with addr := a }
  | .write [a, v] =>
    if c.addr = AD5933_ADDR then
      if a = AD5933_PTR then { c with ptr := v }
      else { c with mem := fun x => if x = a then v else c.mem x }
    else c
  | _ => c

/-- The chips after a history of operations, from registers `mem0`. -/
def chip_state (mem0 : Nat → Nat) (h : List BusOp) : ChipState :=
  h.foldl chip_step ⟨0, 0, mem0⟩

/-- The register-file bus: every transfer succeeds (`io_write` returns the
number of bytes, `io_read` returns 1) and a read delivers the register the
pointer designates when the impedance chip is addressed, 0 otherwise. -/
def chip_bus (mem0 : Nat → Nat) : Bus :=
  { io_write := fun _ bytes => bytes.length,
    io_read := fun h =>
      (1, if (chip_state mem0 h).addr = AD5933_ADDR then
            (chip_state mem0 h).mem (chip_state mem0 h).ptr
          else 0) }

/-- Registers of an impedance chip after reset: control register `0xA000`,
status register with "data valid" and "sweep done" set, and a measurement
`0x1234`, `0x5678` in the result registers. -/
def reset_mem : Nat → Nat := fun a =>
  if a = 0x80 then 0xA0 else if a = 0x8F then 0x06
  else if a = 0x94 then 0x12 else if a = 0x95 then 0x34
  else if a = 0x96 then 0x56 else if a = 0x97 then 0x78 else 0

/-- A temperature chip that is present: its hysteresis register reads
`0x4B00`, its temperature register `0x1900`; every transfer succeeds. -/
def max_present : CmdBus :=
  { cmd_read := fun _ reg _ => if reg = MAX30205_HYST then (0, [0x4B, 0x00]) else (0, [0x19, 0x00]),
    cmd_write := fun _ _ _ => 0 }

/-- Modelled from the spec: the frequency code `(freq/(clockHz/4))·2^27` in
exact arithmetic, rounded down, with `clockHz` 1,000,000 for the external and
16,776,000 for the internal clock; it stands for the double-precision
computation of `AD5933.c` lines 125-127 where a concrete run needs a value. -/
def exact_code : FreqCode := fun ext f =>
  f * 2 ^ 29 / (if ext then 1000000 else 16776000)

/-- A bus on which every transfer fails with status -1. -/
def dead_bus : Bus := ⟨fun _ _ => -1, fun _ => (-1, 0)⟩

/-- The byte `io_read` leaves in the destination after the history `h`. -/
def rd_byte (bus : Bus) (h : List BusOp) : Nat := (bus.io_read h).2 % 256

/-- The two operations by which `AD_get_bytes` fetches the byte at address `a`:
the pointer write `[p0, a]` and the read. -/
def read_ops (p0 a : Nat) : List BusOp := [BusOp.write [p0, a], BusOp.read]

/-! ## The sweep protocol, as a history of bus operations -/

/-- The operations of one control-mode command after the history `h`: the two
bytes of the control register are fetched, then the first byte is written back
with its upper nibble replaced by `mode` and the second byte as fetched. -/
def mode_ops (bus : Bus) (p0 : Nat) (h : List BusOp) (mode : Nat) : List BusOp :=
  read_ops p0 0x80 ++ read_ops p0 0x81 ++
    [BusOp.write [0x80, (rd_byte bus (h ++ [BusOp.write [p0, 0x80]]) &&& 0x0F) ||| mode],
     BusOp.write [0x81, rd_byte bus (h ++ read_ops p0 0x80 ++ [BusOp.write [p0, 0x81]])]]

/-- The operations of `k` reads of the status register. -/
def status_polls (p0 : Nat) : Nat → List BusOp
  | 0 => []
  | k + 1 => read_ops p0 0x8F ++ status_polls p0 k

/-- The status byte delivered by the read number `k + 1` after the history `h`. -/
def status_at (bus : Bus) (p0 : Nat) (h : List BusOp) (k : Nat) : Nat :=
  rd_byte bus (h ++ status_polls p0 k ++ [BusOp.write [p0, 0x8F]])

/-- History once the sweep is started: standby, initialise with start
frequency, start frequency sweep. -/
def hist_started (bus : Bus) (p0 : Nat) (h0 : List BusOp) : List BusOp :=
  let h1 := h0 ++ mode_ops bus p0 h0 CTRL_STANDBY_MODE
  let h2 := h1 ++ mode_ops bus p0 h1 CTRL_INIT_START_FREQ
  h2 ++ mode_ops bus p0 h2 CTRL_START_FREQ_SWEEP

/-- History once the data-valid bit has been seen at the status read number
`n1 + 1`. -/
def hist_valid (bus : Bus) (p0 : Nat) (h0 : List BusOp) (n1 : Nat) : List BusOp :=
  hist_started bus p0 h0 ++ status_polls p0 (n1 + 1)

/-- History once the sample is read (real `0x94`, `0x95`, imaginary `0x96`,
`0x97`) and the increment command is issued. -/
def hist_sampled (bus : Bus) (p0 : Nat) (h0 : List BusOp) (n1 : Nat) : List BusOp :=
  let h5 := hist_valid bus p0 h0 n1 ++ read_ops p0 0x94 ++ read_ops p0 0x95 ++
    read_ops p0 0x96 ++ read_ops p0 0x97
  h5 ++ mode_ops bus p0 h5 CTRL_INCREMENT_FREQ

/-- History of the whole sequence: after the sweep-done bit has been seen at
the status read number `n2 + 1`, the final standby. -/
def hist_done (bus : Bus) (p0 : Nat) (h0 : List BusOp) (n1 n2 : Nat) : List BusOp :=
  let h7 := hist_sampled bus p0 h0 n1 ++ status_polls p0 (n2 + 1)
  h7 ++ mode_ops bus p0 h7 CTRL_STANDBY_MODE

/-- The control mode an operation writes: the upper nibble of a byte written
to address `0x80`. -/
def mode_of : BusOp → Option Nat
  | BusOp.write [0x80, v] => some (v &&& 0xF0)
  | _ => none

/-- The control modes a list of operations writes, in order. -/
def mode_writes (ops : List BusOp) : List Nat := ops.filterMap mode_of

/-- A sensor bus on which every transfer succeeds and every read delivers 0. -/
def quiet_bus : Bus := ⟨fun _ _ => 0, fun _ => (0, 0)⟩

/-! ## Scenarios and notions for the statements on the sensor bus and the periods -/

/-- The first byte a read of the impedance chip's control register delivers
once the sensor bus is pointed at the chip. -/
def read_control (bus : Bus) (ad : AD) : Nat :=
  (AD_get_bytes bus (AD_reg .AD5933_CTRL) (set_slaveaddr ad AD5933_ADDR) [0, 0]).2.2.getD 0 0

/-- Output-range field of a control byte: its bits 2..1. -/
def range_bits (b : Nat) : Nat := (b >>> 1) % 4

/-- Start-up with both chips present. -/
def range_run_start : State :=
  main_startup exact_code (chip_bus reset_mem) max_present power_on

/-- After start-up the host sets the impedance period to 3 ms and one tick
raises `do_imp`. -/
def range_run_due : Option State :=
  ticks 1 (run (chip_bus reset_mem) range_run_start
    (hostWrite [0x08] 0 ++ hostWrite [3, 0] 0)).1

/-- Then the main loop runs the impedance pass. -/
def range_run_measured : Option State :=
  range_run_due.bind (main_loop_pass (chip_bus reset_mem) max_present 2 1 (0, 0))

/-- Then the host selects output range 1 (`[0x0E]`, `[1, 0]`) and requests a
read (`[0x0A]`). -/
def range_run_requested : Option State :=
  range_run_measured.map (fun s =>
    (run (chip_bus reset_mem) s
      (hostWrite [0x0E] 0 ++ hostWrite [1, 0] 0 ++ hostWrite [0x0A] 0)).1)

/-- Then the main loop serves the request and the host closes the pending
REQ_READ with a dummy byte. -/
def range_run_idle : Option State :=
  (range_run_requested.bind (main_loop_pass (chip_bus reset_mem) max_present 2 1 (0, 0))).map
    (fun s => (run (chip_bus reset_mem) s (hostWrite [0] 0)).1)

/-- The host selects output range 2 (`[0x0E]`, `[2, 0]`). -/
def range_run_set (s : State) : State :=
  (run (chip_bus reset_mem) s (hostWrite [0x0E] 0 ++ hostWrite [0x02, 0x00] 0)).1

/-- The bytes the handler has put into `DATA` during a run, in order (`none`
for a byte read outside the transmit object). -/
def data_bytes (tr : List (List HwAct)) : List (Option Nat) :=
  tr.flatten.filterMap (fun a => match a with
    | .data v => some v
    | _ => none)

/-- Reading a response as decimal text: the digits up to the first NUL. -/
def parse_response (bytes : List Nat) : Nat :=
  (bytes.takeWhile (fun b => b ≠ 0)).foldl (fun acc b => 10 * acc + (b - 48)) 0

/-- The three configurable periods. -/
def periods (s : State) : Nat × Nat × Nat :=
  (s.emg_period_us, s.imp_period_ms, s.temp_period_ms)

/-- The bound the periods keep: the EMG period is at most 9999, and each of
the other two is at most 9999 or still holds its power-on value 10001. -/
def periods_ok (s : State) : Prop :=
  s.emg_period_us ≤ 9999 ∧ (s.imp_period_ms ≤ 9999 ∨ s.imp_period_ms = 10001) ∧
    (s.temp_period_ms ≤ 9999 ∨ s.temp_period_ms = 10001)

/-- States the firmware can be in: the power-on state, closed under the parts
of start-up, the tick handler, the bus-transaction handler on any flags and any
sensor bus, and the parts of the main loop, in any order. -/
inductive Reachable : State → Prop
  | init : Reachable power_on
  | seed (s : State) : Reachable s → Reachable (main_seed s)
  | start_ad (code : FreqCode) (bus : Bus) (s : State) :
    Reachable s → Reachable (startup_ad code bus s)
  | start_max (cbus : CmdBus) (s : State) : Reachable s → Reachable (startup_max cbus s)
  | tick (s t : State) : Reachable s → SysTick_Handler s = some t → Reachable t
  | irq (bus : Bus) (s : State) (e : Irq) :
    Reachable s → Reachable (I2C_SERCOM_IRQ_HANDLER bus s e).1
  | do_emg (adc : Nat × Nat) (s : State) : Reachable s → Reachable (main_do_emg adc s)
  | imp_sweep1 (bus : Bus) (fuel tries : Nat) (s t : State) :
    Reachable s → imp_pass_sweep1 bus fuel tries s = some t → Reachable t
  | imp_sweep2 (bus : Bus) (fuel tries : Nat) (s t : State) :
    Reachable s → imp_pass_sweep2 bus fuel tries s = some t → Reachable t
  | imp_finish (s : State) : Reachable s → Reachable (imp_pass_finish s)
  | do_temp (cbus : CmdBus) (s : State) : Reachable s → Reachable (main_do_temp cbus s)
  | req_sweep1 (bus : Bus) (fuel tries : Nat) (s t : State) :
    Reachable s → req_pass_sweep1 bus fuel tries s = some t → Reachable t
  | req_sweep2 (bus : Bus) (fuel tries : Nat) (s t : State) :
    Reachable s → req_pass_sweep2 bus fuel tries s = some t → Reachable t
  | req_finish (cbus : CmdBus) (s : State) : Reachable s → Reachable (req_pass_finish cbus s)

/-- The variables of the two periodic schedules. -/
def sched_view (s : State) : Bool × Bool × Nat × Nat × Nat × Nat × Bool × Bool :=
  (s.ad5933_enabled, s.max30205_enabled, s.imp_counter, s.temp_counter,
   s.imp_period_ms, s.temp_period_ms, s.do_imp, s.do_temp)

/-- The host reads the combined impedance view: `[0x05]`, then eight bytes. -/
def imp_all_read : List Irq := hostWrite [0x05] 0 ++ hostRead 8

/-- The state in which the impedance pass of the run starts (power-on state
if the run did not get there). -/
def mix_before : State := range_run_due.getD power_on

/-- The state between the two sweeps of that pass. -/
def mix_between : State :=
  (imp_pass_sweep1 (chip_bus reset_mem) 2 1 mix_before).getD power_on

/-- The state after the second sweep of that pass. -/
def mix_after : State :=
  (imp_pass_sweep2 (chip_bus reset_mem) 2 1 mix_between).getD power_on

/-- The period a period command reports (0 for any other command). -/
def period_of (s : State) : Cmd → Nat
  | .EMG_PERIOD => s.emg_period_us
  | .IMP_PERIOD => s.imp_period_ms
  | .TEMP_PERIOD => s.temp_period_ms
  | _ => 0

/-! ## Notions for the statements on the receive index, the presence scan and the control register -/

/-- A transaction in one direction: bus events none of which but the last is
a stop, all with the direction bit of the last one. -/
def is_transaction (es : List Irq) : Bool :=
  match es.getLast? with
  | none => false
  | some l => l.prec && es.dropLast.all (fun e => !e.prec && (e.dir == l.dir))

/-- The index of a store into `rx_buffer`, for a register access that is
one. -/
def store_index : HwAct → Option Nat
  | .rx_store i => some i
  | _ => none

/-- The indices at which the handler has stored into `rx_buffer` during a
run, in order. -/
def rx_stores (tr : List (List HwAct)) : List Nat :=
  tr.flatten.filterMap store_index

/-- The part of the control register the control modes leave alone: the low
nibble of the first byte (bit 3, the output range in bits 2..1, the gain in
bit 0) and the second byte. -/
def ctrl_kept (c : ChipState) : Nat × Nat := (c.mem 0x80 &&& 0x0F, c.mem 0x81 % 256)

/-- The driver is set up for the impedance chip on the register-file bus (the
chip is addressed and the pointer command is in the driver's buffer) and the
kept part of the control register is `k`. -/
def on_chip_with (mem0 : Nat → Nat) (k : Nat × Nat) (ad : AD) : Prop :=
  ad.point_addr_buf.1 = AD5933_PTR ∧ (chip_state mem0 ad.log).addr = AD5933_ADDR ∧
    ctrl_kept (chip_state mem0 ad.log) = k

/-- The two bytes `AD_scan` finds in `reg_buf` after its reads of the control
register, first byte most significant. -/
def scan_word (bus : Bus) (ad : AD) : Nat :=
  (rd_byte bus (ad.log ++ [BusOp.slaveaddr AD5933_ADDR] ++
      [BusOp.write [AD5933_PTR, 0x80]]) <<< 8) |||
    rd_byte bus (ad.log ++ [BusOp.slaveaddr AD5933_ADDR] ++ read_ops AD5933_PTR 0x80 ++
      [BusOp.write [AD5933_PTR, 0x81]])

/-- A sensor bus without a chip: every transfer fails with status -1. The
destination of a failed read keeps what it held; here the byte read for
register `0x80` holds `0xA0` and every other one 0. -/
def stale_bus : Bus :=
  ⟨fun _ _ => -1,
   fun h => (-1, if h.getLast? = some (BusOp.write [AD5933_PTR, 0x80]) then 0xA0 else 0)⟩

/-- A temperature chip that is absent: every register transfer fails with
status -1 and delivers nothing. -/
def max_absent : CmdBus := ⟨fun _ _ _ => (-1, []), fun _ _ _ => -1⟩

/-- The levels of the four electrode switches `SW_1`, `SW_2`, `SW_REF`,
`SW_IMP`. -/
def switches (s : State) : Bool × Bool × Bool × Bool :=
  (s.pins.SW_1, s.pins.SW_2, s.pins.SW_REF, s.pins.SW_IMP)

/-- The state in which the requested pass of the run starts (power-on state
if the run did not get there). -/
def req_before : State := range_run_requested.getD power_on

/-- The state between the two sweeps of that pass. -/
def req_between : State :=
  (req_pass_sweep1 (chip_bus reset_mem) 2 1 req_before).getD power_on

/-- The state after the second sweep of that pass. -/
def req_after : State :=
  (req_pass_sweep2 (chip_bus reset_mem) 2 1 req_between).getD power_on

/-- Start-up with both chips absent. -/
def absent_start : State := main_startup exact_code dead_bus max_absent power_on

/-- After that start-up the host writes `[0x0D]` (START_IMP_PER), closes the
pending command with a dummy byte and sets the impedance period to 3 ms. -/
def absent_run_started : State :=
  (run dead_bus absent_start
    (hostWrite [0x0D] 0 ++ hostWrite [0] 0 ++ hostWrite [0x08] 0 ++ hostWrite [3, 0] 0)).1

theorem ofByte_code (k : Cmd) : Cmd.ofByte k.code = some k := by
  cases k <;> rfl

theorem ofByte_none (c : Nat) (h : 17 ≤ c) : Cmd.ofByte c = none := by
  obtain ⟨n, rfl⟩ : ∃ n, c = n + 17 := ⟨c - 17, by omega⟩
  rfl

theorem code_lt (k : Cmd) : k.code < 17 := by
  cases k <;> decide

theorem run_append (bus : Bus) (s : State) (es fs : List Irq) :
    run bus s (es ++ fs) =
      ((run bus (run bus s es).1 fs).1, (run bus s es).2 ++ (run bus (run bus s es).1 fs).2) := by
  induction es generalizing s with
  | nil => simp [run]
  | cons e es ih => simp [run, ih]

theorem run_append_state (bus : Bus) (s : State) (es fs : List Irq) :
    (run bus s (es ++ fs)).1 = (run bus (run bus s es).1 fs).1 := by
  rw [run_append]

theorem process_idx (x : State) (n : Nat) :
    i2c_process_cmd_chr (set_i2c_idx x n) = set_i2c_idx (i2c_process_cmd_chr x) n := by
  unfold i2c_process_cmd_chr set_i2c_idx
  simp only []
  split <;> (repeat' split) <;> rfl

theorem set_value_idx (bus : Bus) (x : State) (n : Nat) :
    irq_set_value bus (set_i2c_idx x n) = set_i2c_idx (irq_set_value bus x) n := by
  unfold irq_set_value set_i2c_idx set_cmd_chr
  simp only []
  split <;> (repeat' split) <;> rfl

theorem idx_eta (x : State) (h : x.i2c_idx = 0) : set_i2c_idx x 0 = x := by
  cases x; simp_all [set_i2c_idx]

theorem set_idx_idx (x : State) (m n : Nat) : set_i2c_idx (set_i2c_idx x m) n = set_i2c_idx x n := rfl

/-- State after a one-byte host write `[c]` when no command is pending: the
byte is dispatched as a command. -/
theorem run_write_one_fresh (bus : Bus) (s : State) (c d : Nat) (h : s.i2c_idx = 0)
    (hc : s.cmd_chr = 255) :
    (run bus s (hostWrite [c] d)).1 =
      i2c_process_cmd_chr { s with rx_buffer := (c % 256, d % 256), cmd_chr := c % 256 } := by
  have e : (run bus s (hostWrite [c] d)).1 =
      set_i2c_idx (i2c_process_cmd_chr
          (set_i2c_idx { s with rx_buffer := (c % 256, d % 256), cmd_chr := c % 256 } 2)) 0 := by
    simp [run, hostWrite, I2C_SERCOM_IRQ_HANDLER, irq_drdy, irq_prec, ev_amatch, ev_rx, ev_stop,
      rx_write, h, hc, RX_BUFFER_LEN, set_i2c_idx]
  rw [e, process_idx, set_idx_idx, ← process_idx, idx_eta _ (by simpa using h)]

/-- State after a one-byte host write `[c]` while a command is pending: the
byte is taken as the low byte of a value for the pending command. -/
theorem run_write_one_pending (bus : Bus) (s : State) (c d : Nat) (h : s.i2c_idx = 0)
    (hc : s.cmd_chr ≠ 255) :
    (run bus s (hostWrite [c] d)).1 =
      irq_set_value bus { s with rx_buffer := (c % 256, d % 256) } := by
  have e : (run bus s (hostWrite [c] d)).1 =
      set_i2c_idx (irq_set_value bus
        (set_i2c_idx { s with rx_buffer := (c % 256, d % 256) } 2)) 0 := by
    simp [run, hostWrite, I2C_SERCOM_IRQ_HANDLER, irq_drdy, irq_prec, ev_amatch, ev_rx, ev_stop,
      rx_write, h, hc, RX_BUFFER_LEN, set_i2c_idx]
  rw [e, set_value_idx, set_idx_idx, ← set_value_idx, idx_eta _ (by simpa using h)]

/-- State after a two-byte host write while a command is pending: the two
bytes are the value handed to the pending command. -/
theorem run_write_two_pending (bus : Bus) (s : State) (b0 b1 d : Nat) (h : s.i2c_idx = 0)
    (hc : s.cmd_chr ≠ 255) :
    (run bus s (hostWrite [b0, b1] d)).1 =
      irq_set_value bus { s with rx_buffer := (b0 % 256, d % 256) } := by
  have e : (run bus s (hostWrite [b0, b1] d)).1 =
      set_i2c_idx (irq_set_value bus
        (set_i2c_idx { s with rx_buffer := (b0 % 256, d % 256) } 2)) 0 := by
    simp [run, hostWrite, I2C_SERCOM_IRQ_HANDLER, irq_drdy, irq_prec, ev_amatch, ev_rx, ev_stop,
      rx_write, h, hc, RX_BUFFER_LEN, set_i2c_idx]
  rw [e, set_value_idx, set_idx_idx, ← set_value_idx, idx_eta _ (by simpa using h)]

theorem handler_tx_state (bus : Bus) (s : State) :
    (I2C_SERCOM_IRQ_HANDLER bus s ev_tx).1 = set_i2c_idx s ((s.i2c_idx + 1) % 256) := by
  by_cases hl : (s.i2c_idx : Int) = (s.tx_buffer_len : Int) - 1 <;>
  simp [I2C_SERCOM_IRQ_HANDLER, irq_drdy, ev_tx, set_i2c_idx, hl]

theorem run_tx_stop_state (bus : Bus) (n : Nat) (s : State) :
    (run bus s (List.replicate n ev_tx ++ [ev_stop true 0])).1 =
      set_i2c_idx (set_cmd_chr s 255) 0 := by
  induction n generalizing s with
  | zero =>
    simp [run, I2C_SERCOM_IRQ_HANDLER, irq_prec, ev_stop]
  | succ n ih =>
    have e : List.replicate (n + 1) ev_tx ++ [ev_stop true 0] =
        ev_tx :: (List.replicate n ev_tx ++ [ev_stop true 0]) := rfl
    rw [e]
    show (run bus (I2C_SERCOM_IRQ_HANDLER bus s ev_tx).1
      (List.replicate n ev_tx ++ [ev_stop true 0])).1 = _
    rw [ih, handler_tx_state]
    rfl

/-- State after a host-read transaction of any length: the pending command is
dropped and the byte index is back at 0; nothing else changes. -/
theorem run_read_state (bus : Bus) (n : Nat) (s : State) :
    (run bus s (hostRead n)).1 = set_i2c_idx (set_cmd_chr s 255) 0 := by
  show (run bus (I2C_SERCOM_IRQ_HANDLER bus s (ev_amatch true)).1
    (List.replicate n ev_tx ++ [ev_stop true 0])).1 = _
  rw [run_tx_stop_state]
  rfl

theorem process_keeps_idx (x : State) : (i2c_process_cmd_chr x).i2c_idx = x.i2c_idx := by
  unfold i2c_process_cmd_chr
  split <;> (repeat' split) <;> rfl

theorem process_keeps_cmd (x : State) : (i2c_process_cmd_chr x).cmd_chr = x.cmd_chr := by
  unfold i2c_process_cmd_chr
  split <;> (repeat' split) <;> rfl

theorem process_unknown (x : State) (h : Cmd.ofByte x.cmd_chr = none) :
    i2c_process_cmd_chr x = x := by
  unfold i2c_process_cmd_chr
  rw [h]

theorem set_value_unknown (bus : Bus) (x : State) (h : Cmd.ofByte x.cmd_chr = none) :
    irq_set_value bus x = set_cmd_chr x 255 := by
  unfold irq_set_value
  rw [h]

theorem set_value_non_setter (bus : Bus) (x : State) (k : Cmd) (h : x.cmd_chr = k.code)
    (hk : k.isSetter = false) : irq_set_value bus x = set_cmd_chr x 255 := by
  unfold irq_set_value
  rw [h, ofByte_code]
  cases k <;> first | rfl | cases hk

theorem value_of_bytes (b0 b1 : Nat) (h0 : b0 < 256) (h1 : b1 < 256) :
    ((b1 <<< 8) ||| b0) % 65536 = b0 + 256 * b1 := by
  have e : (b1 <<< 8) ||| b0 = 2 ^ 8 * b1 + b0 := by
    rw [Nat.shiftLeft_eq, Nat.mul_comm]
    exact (Nat.mul_add_lt_is_or (by simpa using h0) b1).symm
  rw [e]
  omega

/-- What `i2c_process_cmd_chr` does on a command that has a response. -/
theorem process_getter (s : State) (k : Cmd) (p : Ptr) (n : Nat)
    (hc : s.cmd_chr = k.code) (ht : response_source k = some (p, n)) :
    (i2c_process_cmd_chr s).tx_buffer = p ∧
    (i2c_process_cmd_chr s).tx_buffer_len = n ∧
    (k.isSetter = false →
      (List.range n).map (deref (i2c_process_cmd_chr s) p) = (source_bytes s k).map some) ∧
    (k = .EMG → (i2c_process_cmd_chr s).do_emg = true) ∧
    (k = .IMP_ALL → (i2c_process_cmd_chr s).read_rdy = 0) ∧
    (i2c_process_cmd_chr s).emg = s.emg ∧
    (i2c_process_cmd_chr s).imp_1_real = s.imp_1_real ∧
    (i2c_process_cmd_chr s).imp_1_img = s.imp_1_img ∧
    (i2c_process_cmd_chr s).imp_2_real = s.imp_2_real ∧
    (i2c_process_cmd_chr s).imp_2_img = s.imp_2_img ∧
    (i2c_process_cmd_chr s).temp = s.temp ∧
    (i2c_process_cmd_chr s).emg_period_us = s.emg_period_us ∧
    (i2c_process_cmd_chr s).imp_period_ms = s.imp_period_ms ∧
    (i2c_process_cmd_chr s).temp_period_ms = s.temp_period_ms := by
  unfold i2c_process_cmd_chr
  rw [hc, ofByte_code]
  cases k <;> simp [response_source] at ht <;> obtain ⟨rfl, rfl⟩ := ht <;>
    simp [deref, regionBytes, imp_all, source_bytes, List.range, List.range.loop, Cmd.isSetter]

theorem deref_set_idx (t : State) (v : Nat) (p : Ptr) (i : Nat) :
    deref (set_i2c_idx t v) p i = deref t p i := by
  unfold deref regionBytes set_i2c_idx imp_all
  cases p.region <;> rfl

/-- Register accesses of the data phase of a host read: from byte index `j`
with `m` bytes to go up to the configured length, the handler puts the bytes
`j`, `j + 1`, ... of the transmit source into `DATA` and issues command 2 on
the byte whose index is the configured length minus one, command 3 before. -/
theorem run_tx_trace (bus : Bus) (m : Nat) : ∀ (t : State) (j : Nat),
    t.i2c_idx = j → j + m = t.tx_buffer_len → j + m ≤ 255 →
    (run bus t (List.replicate m ev_tx ++ [ev_stop true 0])).2 =
      (List.range m).map (fun i =>
        [HwAct.data (deref t t.tx_buffer (j + i)),
         HwAct.cmd (if j + i + 1 = t.tx_buffer_len then 2 else 3), HwAct.clear_drdy])
      ++ [[HwAct.clear_prec]] := by
  induction m with
  | zero =>
    intro t j _ _ _
    simp [run, I2C_SERCOM_IRQ_HANDLER, irq_prec, ev_stop]
  | succ m ih =>
    intro t j hj hlen hle
    subst hj
    have e : List.replicate (m + 1) ev_tx ++ [ev_stop true 0] =
        ev_tx :: (List.replicate m ev_tx ++ [ev_stop true 0]) := rfl
    have hstep : (I2C_SERCOM_IRQ_HANDLER bus t ev_tx).2 =
        [HwAct.data (deref t t.tx_buffer t.i2c_idx),
         HwAct.cmd (if t.i2c_idx + 1 = t.tx_buffer_len then 2 else 3), HwAct.clear_drdy] := by
      by_cases hl : (t.i2c_idx : Int) = (t.tx_buffer_len : Int) - 1
      · have : t.i2c_idx + 1 = t.tx_buffer_len := by omega
        simp [I2C_SERCOM_IRQ_HANDLER, irq_drdy, ev_tx, hl, this]
      · have : ¬ t.i2c_idx + 1 = t.tx_buffer_len := by omega
        simp [I2C_SERCOM_IRQ_HANDLER, irq_drdy, ev_tx, hl, this]
    have hmod : (t.i2c_idx + 1) % 256 = t.i2c_idx + 1 := by omega
    rw [e]
    show (I2C_SERCOM_IRQ_HANDLER bus t ev_tx).2 ::
      (run bus (I2C_SERCOM_IRQ_HANDLER bus t ev_tx).1
        (List.replicate m ev_tx ++ [ev_stop true 0])).2 = _
    rw [hstep, handler_tx_state, hmod,
      ih (set_i2c_idx t (t.i2c_idx + 1)) (t.i2c_idx + 1) rfl
        (by show t.i2c_idx + 1 + m = t.tx_buffer_len; omega) (by omega)]
    rw [List.range_succ_eq_map, List.map_cons, List.map_map, List.cons_append]
    congr 1
    congr 1
    apply List.map_congr_left
    intro i _
    simp only [Function.comp, deref_set_idx]
    have h1 : t.i2c_idx + 1 + i = t.i2c_idx + (i + 1) := by omega
    have h2 : (set_i2c_idx t (t.i2c_idx + 1)).tx_buffer_len = t.tx_buffer_len := rfl
    have h3 : (set_i2c_idx t (t.i2c_idx + 1)).tx_buffer = t.tx_buffer := rfl
    rw [h1, h2, h3]

/-- Register accesses of a host read of as many bytes as the configured
length, from byte index 0. -/
theorem run_read_trace (bus : Bus) (t : State) (n : Nat) (hi : t.i2c_idx = 0)
    (hn : t.tx_buffer_len = n) (hle : n ≤ 255) :
    (run bus t (hostRead n)).2 =
      [HwAct.ackact 0, HwAct.cmd 0x3, HwAct.clear_amatch] ::
        ((List.range n).map (fun i =>
          [HwAct.data (deref t t.tx_buffer i),
           HwAct.cmd (if i + 1 = n then 2 else 3), HwAct.clear_drdy])
        ++ [[HwAct.clear_prec]]) := by
  have h := run_tx_trace bus n t 0 hi (by omega) (by omega)
  simp only [Nat.zero_add, hn] at h
  show (I2C_SERCOM_IRQ_HANDLER bus t (ev_amatch true)).2 ::
    (run bus (I2C_SERCOM_IRQ_HANDLER bus t (ev_amatch true)).1
      (List.replicate n ev_tx ++ [ev_stop true 0])).2 = _
  have h1 : (I2C_SERCOM_IRQ_HANDLER bus t (ev_amatch true)).1 = t := rfl
  have h2 : (I2C_SERCOM_IRQ_HANDLER bus t (ev_amatch true)).2 =
      [HwAct.ackact 0, HwAct.cmd 0x3, HwAct.clear_amatch] := rfl
  rw [h1, h2, h]

theorem storeBytes_length (buf bytes : List Nat) :
    buf.length ≤ (storeBytes buf bytes).length := by
  unfold storeBytes
  simp only [List.length_append, List.length_drop]
  omega

theorem getElem?_of_lt (l : List Nat) (i : Nat) (h : i < l.length) : ∃ b, l[i]? = some b :=
  ⟨l[i], List.getElem?_eq_getElem h⟩

/-- Every index below the response length lies inside the selected object. -/
theorem process_in_bounds (x : State) (k : Cmd) (p : Ptr) (n : Nat)
    (hc : x.cmd_chr = k.code) (ht : response_source k = some (p, n))
    (hbuf : x.temporary_buffer.length = TX_BUFFER_MAX_LEN) :
    ∀ i, i < n → ∃ b, deref (i2c_process_cmd_chr x) p i = some b := by
  intro i hi
  unfold i2c_process_cmd_chr
  rw [hc, ofByte_code]
  cases k <;> simp [response_source] at ht <;> obtain ⟨rfl, rfl⟩ := ht <;>
    simp only [deref, regionBytes, imp_all] <;> apply getElem?_of_lt <;>
    first
    | (simp only [List.length_cons, List.length_nil]; omega)
    | (have h1 := storeBytes_length x.temporary_buffer (utoa x.emg_period_us)
       rw [hbuf] at h1; simp only [TX_BUFFER_MAX_LEN] at h1; omega)
    | (have h1 := storeBytes_length x.temporary_buffer (utoa x.imp_period_ms)
       rw [hbuf] at h1; simp only [TX_BUFFER_MAX_LEN] at h1; omega)
    | (have h1 := storeBytes_length x.temporary_buffer (utoa x.temp_period_ms)
       rw [hbuf] at h1; simp only [TX_BUFFER_MAX_LEN] at h1; omega)

theorem response_len_le (k : Cmd) (p : Ptr) (n : Nat) (ht : response_source k = some (p, n)) :
    n ≤ 255 := by
  cases k <;> simp [response_source] at ht <;> omega

theorem source_bytes_frame (s : State) (rx : Nat × Nat) (c : Nat) (k : Cmd) :
    source_bytes { s with rx_buffer := rx, cmd_chr := c } k = source_bytes s k := by
  cases k <;> rfl

theorem imp_view_led0 (s : State) : imp_view (tick_led0 s) = imp_view s := by
  unfold tick_led0; split <;> rfl

theorem imp_view_led1 (s : State) : imp_view (tick_led1 s) = imp_view s := by
  unfold tick_led1; split <;> rfl

theorem imp_view_led2 (s : State) : imp_view (tick_led2 s) = imp_view s := by
  unfold tick_led2; split <;> rfl

theorem imp_view_count (s : State) (hen : s.ad5933_enabled = true) :
    imp_view (tick_count s) =
      (true, (s.imp_counter + 1) % 65536, s.imp_period_ms, s.temp_period_ms, s.do_imp) := by
  unfold tick_count imp_view
  simp only [hen, if_true]
  split <;> rfl

theorem tick_temp_view (s : State) (hT : s.temp_period_ms ≠ 0) :
    ∃ u, tick_temp s = some u ∧ imp_view u = imp_view s := by
  unfold tick_temp
  rw [if_neg hT]
  split
  · exact ⟨_, rfl, rfl⟩
  · exact ⟨_, rfl, rfl⟩

/-- One tick, seen from the impedance schedule: with the subsystem enabled and
both periods non-zero, the counter advances; when the advanced counter is a
multiple of the period it is reset to 1 and `do_imp` is raised. -/
theorem tick_imp_view (s : State) (hen : s.ad5933_enabled = true)
    (hQ : s.imp_period_ms ≠ 0) (hT : s.temp_period_ms ≠ 0) :
    ∃ u, SysTick_Handler s = some u ∧
      imp_view u =
        if (s.imp_counter + 1) % 65536 % s.imp_period_ms = 0 then
          (true, 1, s.imp_period_ms, s.temp_period_ms, true)
        else
          (true, (s.imp_counter + 1) % 65536, s.imp_period_ms, s.temp_period_ms, s.do_imp) := by
  have hv : imp_view (tick_led2 (tick_led1 (tick_led0 (tick_count s)))) =
      (true, (s.imp_counter + 1) % 65536, s.imp_period_ms, s.temp_period_ms, s.do_imp) := by
    rw [imp_view_led2, imp_view_led1, imp_view_led0, imp_view_count s hen]
  unfold SysTick_Handler
  generalize tick_led2 (tick_led1 (tick_led0 (tick_count s))) = a at hv ⊢
  simp only [imp_view, Prod.mk.injEq] at hv
  obtain ⟨ha1, ha2, ha3, ha4, ha5⟩ := hv
  have hQa : a.imp_period_ms ≠ 0 := by rw [ha3]; exact hQ
  have hTa : a.temp_period_ms ≠ 0 := by rw [ha4]; exact hT
  unfold tick_imp
  rw [if_neg hQa]
  have hcond : a.imp_counter % a.imp_period_ms = 0 ↔
      (s.imp_counter + 1) % 65536 % s.imp_period_ms = 0 := by rw [ha2, ha3]
  by_cases hz : (s.imp_counter + 1) % 65536 % s.imp_period_ms = 0
  · rw [if_pos (hcond.2 hz), if_pos hz, Option.some_bind]
    obtain ⟨u, hu, hview⟩ := tick_temp_view { a with imp_counter := 1, do_imp := true } hTa
    refine ⟨u, hu, ?_⟩
    rw [hview]
    simp only [imp_view, ha1, ha3, ha4]
  · rw [if_neg (fun h => hz (hcond.1 h)), if_neg hz, Option.some_bind]
    obtain ⟨u, hu, hview⟩ := tick_temp_view a hTa
    refine ⟨u, hu, ?_⟩
    rw [hview]
    simp only [imp_view, ha1, ha2, ha3, ha4, ha5]

theorem ticks_succ (n : Nat) (s : State) :
    ticks (n + 1) s = (ticks n s).bind SysTick_Handler := by
  induction n generalizing s with
  | zero =>
    show (SysTick_Handler s).bind (ticks 0) = (ticks 0 s).bind SysTick_Handler
    cases h : SysTick_Handler s <;> simp [ticks, h]
  | succ n ih =>
    show (SysTick_Handler s).bind (ticks (n + 1)) = (ticks (n + 1) s).bind SysTick_Handler
    cases h : SysTick_Handler s with
    | none => simp [ticks, h]
    | some u =>
      have e : ticks (n + 1) s = ticks n u := by
        show (SysTick_Handler s).bind (ticks n) = _
        rw [h]; rfl
      rw [e, Option.some_bind, ih]

/-- As long as the advancing counter meets no multiple of the period, `n`
ticks leave `do_imp` alone and advance the counter by `n`. -/
theorem ticks_no_fire (n : Nat) : ∀ (s : State), s.ad5933_enabled = true →
    s.imp_period_ms ≠ 0 → s.temp_period_ms ≠ 0 → s.imp_counter + n ≤ 65535 →
    (∀ j, 1 ≤ j → j ≤ n → (s.imp_counter + j) % s.imp_period_ms ≠ 0) →
    ∃ u, ticks n s = some u ∧
      imp_view u = (true, s.imp_counter + n, s.imp_period_ms, s.temp_period_ms, s.do_imp) := by
  induction n with
  | zero =>
    intro s hen _ _ _ _
    exact ⟨s, rfl, by simp [imp_view, hen]⟩
  | succ n ih =>
    intro s hen hQ hT hov hno
    obtain ⟨u, hu, hv⟩ := ih s hen hQ hT (by omega) (fun j h1 h2 => hno j h1 (by omega))
    simp only [imp_view, Prod.mk.injEq] at hv
    obtain ⟨hu1, hu2, hu3, hu4, hu5⟩ := hv
    obtain ⟨w, hw, hwv⟩ := tick_imp_view u hu1 (by rw [hu3]; exact hQ) (by rw [hu4]; exact hT)
    have hmod : (u.imp_counter + 1) % 65536 = s.imp_counter + (n + 1) := by
      rw [hu2]; omega
    have hnz : ¬ (u.imp_counter + 1) % 65536 % u.imp_period_ms = 0 := by
      rw [hmod, hu3]; exact hno (n + 1) (by omega) (Nat.le_refl _)
    rw [if_neg hnz, hmod, hu3, hu4, hu5] at hwv
    exact ⟨w, by rw [ticks_succ, hu, Option.some_bind, hw], hwv⟩

/-- The first tick at which the advanced counter is a multiple of the period
raises `do_imp` and resets the counter to 1; no earlier tick does. -/
theorem ticks_first_fire (n : Nat) (s : State) (hen : s.ad5933_enabled = true)
    (hQ : s.imp_period_ms ≠ 0) (hT : s.temp_period_ms ≠ 0) (hn : 1 ≤ n)
    (hov : s.imp_counter + n ≤ 65535)
    (hno : ∀ j, 1 ≤ j → j < n → (s.imp_counter + j) % s.imp_period_ms ≠ 0)
    (hfire : (s.imp_counter + n) % s.imp_period_ms = 0) :
    (∀ j, j < n → ∃ u, ticks j s = some u ∧ u.do_imp = s.do_imp ∧
      u.imp_counter = s.imp_counter + j) ∧
    (∃ u, ticks n s = some u ∧ u.do_imp = true ∧ u.imp_counter = 1 ∧
      u.imp_period_ms = s.imp_period_ms ∧ u.ad5933_enabled = true) := by
  constructor
  · intro j hj
    obtain ⟨u, hu, hv⟩ := ticks_no_fire j s hen hQ hT (by omega)
      (fun i h1 h2 => hno i h1 (by omega))
    simp only [imp_view, Prod.mk.injEq] at hv
    exact ⟨u, hu, hv.2.2.2.2, hv.2.1⟩
  · obtain ⟨m, rfl⟩ : ∃ m, n = m + 1 := ⟨n - 1, by omega⟩
    obtain ⟨u, hu, hv⟩ := ticks_no_fire m s hen hQ hT (by omega)
      (fun i h1 h2 => hno i h1 (by omega))
    simp only [imp_view, Prod.mk.injEq] at hv
    obtain ⟨hu1, hu2, hu3, hu4, hu5⟩ := hv
    obtain ⟨w, hw, hwv⟩ := tick_imp_view u hu1 (by rw [hu3]; exact hQ) (by rw [hu4]; exact hT)
    have hmod : (u.imp_counter + 1) % 65536 = s.imp_counter + (m + 1) := by
      rw [hu2]; omega
    have hz : (u.imp_counter + 1) % 65536 % u.imp_period_ms = 0 := by
      rw [hmod, hu3]; exact hfire
    rw [if_pos hz] at hwv
    simp only [imp_view, Prod.mk.injEq] at hwv
    exact ⟨w, by rw [ticks_succ, hu, Option.some_bind, hw], hwv.2.2.2.2, hwv.2.1,
      by rw [hwv.2.2.1, hu3], hwv.1⟩

theorem status_not_negative (x : Int) : ¬ ((toU8 x : Nat) : Int) < I2C_OK := by
  unfold I2C_OK
  omega

/-- `AD_set_bytes` on a two-byte register: both bytes are written, whatever
the bus answers, and the result is `I2C_OK`. -/
theorem AD_set_bytes_two (bus : Bus) (a : Nat) (ad : AD) (v0 v1 : Nat) :
    (AD_set_bytes bus ⟨a, 2⟩ ad [v0, v1]).1 = 0 ∧
    (AD_set_bytes bus ⟨a, 2⟩ ad [v0, v1]).2.log =
      ad.log ++ [BusOp.write [a % 256, v0], BusOp.write [(a + 1) % 256, v1]] := by
  simp [AD_set_bytes, AD_set_bytes_loop, status_not_negative, toU8, I2C_OK]

theorem settling_field_eq (time : Nat) :
    ((((time >>> 8) &&& 0xFF) &&& 0x7) >>> 1) % 256 = settling_mult_field time := by
  have e1 : (time >>> 8) &&& 0xFF = time / 256 % 256 := by
    rw [Nat.shiftRight_eq_div_pow]
    exact Nat.and_pow_two_sub_one_eq_mod _ 8
  have e2 : ∀ x : Nat, x &&& 0x7 = x % 8 := fun x => Nat.and_pow_two_sub_one_eq_mod x 3
  rw [e1, e2, Nat.shiftRight_eq_div_pow]
  unfold settling_mult_field
  omega

theorem settling_cycles_small (time : Nat) :
    ¬ ((time &&& 0xFF) ||| (((time >>> 8) &&& 0xFF) &&& 0x1)) > 0x1FF := by
  have h1 : time &&& 0xFF < 2 ^ 8 := Nat.and_lt_two_pow _ (by decide)
  have h2 : ((time >>> 8) &&& 0xFF) &&& 0x1 < 2 ^ 8 := Nat.and_lt_two_pow _ (by decide)
  have := Nat.or_lt_two_pow h1 h2
  omega

/-- `AD_get_bytes` on a two-byte register: both bytes are fetched, whatever
the bus answers, and the result is `I2C_OK`. -/
theorem AD_get_bytes_two (bus : Bus) (a : Nat) (ad : AD) (x y : Nat) :
    AD_get_bytes bus ⟨a, 2⟩ ad [x, y] =
      (0,
       { log := ad.log ++ read_ops ad.point_addr_buf.1 (a % 256) ++
                  read_ops ad.point_addr_buf.1 ((a + 1) % 256),
         ret := toU8 (bus.io_read (ad.log ++ read_ops ad.point_addr_buf.1 (a % 256) ++
                  [BusOp.write [ad.point_addr_buf.1, (a + 1) % 256]])).1,
         clock_ext := ad.clock_ext,
         point_addr_buf := (ad.point_addr_buf.1, (a + 1) % 256) },
       [rd_byte bus (ad.log ++ [BusOp.write [ad.point_addr_buf.1, a % 256]]),
        rd_byte bus (ad.log ++ read_ops ad.point_addr_buf.1 (a % 256) ++
          [BusOp.write [ad.point_addr_buf.1, (a + 1) % 256]])]) := by
  simp [AD_get_bytes, AD_get_bytes_loop, status_not_negative, toU8, I2C_OK, read_ops, rd_byte]

/-- `AD_set_bytes` on a two-byte register, in full. -/
theorem AD_set_bytes_two_eq (bus : Bus) (a : Nat) (ad : AD) (v0 v1 : Nat) :
    AD_set_bytes bus ⟨a, 2⟩ ad [v0, v1] =
      (0,
       { log := ad.log ++ [BusOp.write [a % 256, v0], BusOp.write [(a + 1) % 256, v1]],
         ret := toU8 (bus.io_write (ad.log ++ [BusOp.write [a % 256, v0]]) [(a + 1) % 256, v1]),
         clock_ext := ad.clock_ext,
         point_addr_buf := ad.point_addr_buf }) := by
  simp [AD_set_bytes, AD_set_bytes_loop, status_not_negative, toU8, I2C_OK]

theorem chip_state_append (mem0 : Nat → Nat) (h k : List BusOp) :
    chip_state mem0 (h ++ k) = k.foldl chip_step (chip_state mem0 h) := by
  unfold chip_state
  rw [List.foldl_append]

/-- Round trip on the register-file bus: with the impedance chip addressed and
the pointer command in place, three bytes written by `AD_set_bytes` to a
three-byte register that ends below the pointer command code are the three
bytes `AD_get_bytes` reads back. -/
theorem round_trip_three (mem0 : Nat → Nat) (a : Nat) (ad : AD) (v0 v1 v2 : Nat)
    (x : List Nat)
    (hptr : ad.point_addr_buf.1 = AD5933_PTR)
    (haddr : (chip_state mem0 ad.log).addr = AD5933_ADDR)
    (ha : a + 2 < AD5933_PTR) (h0 : v0 < 256) (h1 : v1 < 256) (h2 : v2 < 256)
    (hx : x.length = 3) :
    (AD_get_bytes (chip_bus mem0) ⟨a, 3⟩
      (AD_set_bytes (chip_bus mem0) ⟨a, 3⟩ ad [v0, v1, v2]).2 x).1 = 0 ∧
    (AD_get_bytes (chip_bus mem0) ⟨a, 3⟩
      (AD_set_bytes (chip_bus mem0) ⟨a, 3⟩ ad [v0, v1, v2]).2 x).2.2 = [v0, v1, v2] := by
  obtain ⟨x0, x1, x2, rfl⟩ : ∃ x0 x1 x2, x = [x0, x1, x2] := by
    match x, hx with
    | [x0, x1, x2], _ => exact ⟨x0, x1, x2, rfl⟩
  unfold AD5933_PTR at ha
  have m0 : a % 256 = a := Nat.mod_eq_of_lt (by omega)
  have m1 : (a + 1) % 256 = a + 1 := Nat.mod_eq_of_lt (by omega)
  have m2 : (a + 2) % 256 = a + 2 := Nat.mod_eq_of_lt (by omega)
  have n0 : a ≠ 176 := by omega
  have n1 : a + 1 ≠ 176 := by omega
  have n2 : a + 2 ≠ 176 := by omega
  simp [AD_get_bytes, AD_get_bytes_loop, AD_set_bytes, AD_set_bytes_loop, status_not_negative,
    toU8, I2C_OK, chip_bus, chip_state_append, chip_step, hptr, haddr, m0, m1, m2, n0, n1, n2,
    AD5933_PTR, AD5933_ADDR, Nat.mod_eq_of_lt h0, Nat.mod_eq_of_lt h1, Nat.mod_eq_of_lt h2]

/-- `AD_get_bytes` on a one-byte register. -/
theorem AD_get_bytes_one (bus : Bus) (a : Nat) (ad : AD) (x : Nat) :
    AD_get_bytes bus ⟨a, 1⟩ ad [x] =
      (0,
       { log := ad.log ++ read_ops ad.point_addr_buf.1 (a % 256),
         ret := toU8 (bus.io_read (ad.log ++ [BusOp.write [ad.point_addr_buf.1, a % 256]])).1,
         clock_ext := ad.clock_ext,
         point_addr_buf := (ad.point_addr_buf.1, a % 256) },
       [rd_byte bus (ad.log ++ [BusOp.write [ad.point_addr_buf.1, a % 256]])]) := by
  simp [AD_get_bytes, AD_get_bytes_loop, status_not_negative, toU8, I2C_OK, read_ops, rd_byte]

/-- `AD_set_control_mode` on any bus: it returns `I2C_OK` after the six
operations of the command, and keeps the pointer command byte. -/
theorem control_mode_spec (bus : Bus) (ad : AD) (mode : Nat) :
    ∃ ad1, AD_set_control_mode bus ad mode = (0, ad1) ∧
      ad1.log = ad.log ++ mode_ops bus ad.point_addr_buf.1 ad.log mode ∧
      ad1.point_addr_buf.1 = ad.point_addr_buf.1 := by
  refine ⟨(AD_set_control_mode bus ad mode).2, ?_, ?_, ?_⟩ <;>
    simp [AD_set_control_mode, AD_reg, AD_get_bytes_two, AD_set_bytes_two_eq, I2C_OK, mode_ops,
      read_ops]

theorem status_polls_succ (bus : Bus) (p0 : Nat) (h : List BusOp) (k : Nat) :
    status_at bus p0 (h ++ read_ops p0 0x8F) k = status_at bus p0 h (k + 1) := by
  unfold status_at
  simp [status_polls, List.append_assoc]

/-- A polling loop on any bus: when the status read number `n + 1` is the first
one to show the bits of `mask`, the loop is left after `n + 1` reads with that
status byte, given fuel for them. -/
theorem poll_spec (bus : Bus) (mask : Nat) (n : Nat) : ∀ (fuel : Nat) (ad : AD) (sr : Nat),
    n < fuel →
    status_at bus ad.point_addr_buf.1 ad.log n &&& mask = mask →
    (∀ k, k < n → status_at bus ad.point_addr_buf.1 ad.log k &&& mask ≠ mask) →
    ∃ ad1, poll (driver bus) mask fuel ad sr =
        some (.left ad1 (status_at bus ad.point_addr_buf.1 ad.log n)) ∧
      ad1.log = ad.log ++ status_polls ad.point_addr_buf.1 (n + 1) ∧
      ad1.point_addr_buf.1 = ad.point_addr_buf.1 := by
  induction n with
  | zero =>
    intro fuel ad sr hf hv _
    obtain ⟨m, rfl⟩ : ∃ m, fuel = m + 1 := ⟨fuel - 1, by omega⟩
    have hv0 : rd_byte bus (ad.log ++ [BusOp.write [ad.point_addr_buf.1, 0x8F]]) &&& mask
        = mask := by
      simpa [status_at, status_polls] using hv
    refine ⟨{ log := ad.log ++ read_ops ad.point_addr_buf.1 0x8F,
              ret := 0,
              clock_ext := ad.clock_ext,
              point_addr_buf := (ad.point_addr_buf.1, 0x8F) }, ?_, ?_, ?_⟩
    · simp only [poll, driver, AD_reg, AD_get_bytes_one]
      simp [I2C_OK, hv0, status_at, status_polls]
    · simp [status_polls, read_ops]
    · rfl
  | succ n ih =>
    intro fuel ad sr hf hv hno
    obtain ⟨m, rfl⟩ : ∃ m, fuel = m + 1 := ⟨fuel - 1, by omega⟩
    have hn0 : rd_byte bus (ad.log ++ [BusOp.write [ad.point_addr_buf.1, 0x8F]]) &&& mask
        ≠ mask := by
      have := hno 0 (by omega)
      simpa [status_at, status_polls] using this
    obtain ⟨ad1, h1, h2, h3⟩ := ih m
      { log := ad.log ++ read_ops ad.point_addr_buf.1 0x8F,
        ret := 0,
        clock_ext := ad.clock_ext,
        point_addr_buf := (ad.point_addr_buf.1, 0x8F) }
      (rd_byte bus (ad.log ++ [BusOp.write [ad.point_addr_buf.1, 0x8F]]))
      (by omega)
      (by rw [status_polls_succ]; exact hv)
      (by intro k hk; rw [status_polls_succ]; exact hno (k + 1) (by omega))
    refine ⟨ad1, ?_, ?_, ?_⟩
    · simp only [poll, driver, AD_reg, AD_get_bytes_one]
      simp [I2C_OK, hn0]
      rw [← status_polls_succ]
      exact h1
    · rw [h2]
      simp [status_polls, List.append_assoc]
    · exact h3

theorem power_standby (bus : Bus) (ad : AD) :
    AD_set_power_mode bus ad POWER_STANDBY = AD_set_control_mode bus ad CTRL_STANDBY_MODE := by
  simp [AD_set_power_mode, POWER_STANDBY, POWER_ON, CTRL_STANDBY_MODE, CTRL_NO_OPERATION]

theorem driver_power_mode (bus : Bus) : (driver bus).power_mode = AD_set_power_mode bus := rfl

theorem driver_control_mode (bus : Bus) :
    (driver bus).control_mode = AD_set_control_mode bus := rfl

theorem driver_get_bytes (bus : Bus) : (driver bus).get_bytes = AD_get_bytes bus := rfl

/-- The whole sequence of `AD_get_complex_data` on any bus, when the status
read number `n1 + 1` of the first loop is the first to show "data valid" and
the status read number `n2 + 1` of the second loop the first to show "sweep
done". -/
theorem complex_data_spec (bus : Bus) (ad : AD) (r0 r1 i0 i1 n1 n2 fuel : Nat)
    (hv : status_at bus ad.point_addr_buf.1 (hist_started bus ad.point_addr_buf.1 ad.log) n1
      &&& STATUS_DATA_VALID = STATUS_DATA_VALID)
    (hv1 : ∀ k, k < n1 →
      status_at bus ad.point_addr_buf.1 (hist_started bus ad.point_addr_buf.1 ad.log) k
        &&& STATUS_DATA_VALID ≠ STATUS_DATA_VALID)
    (hd : status_at bus ad.point_addr_buf.1 (hist_sampled bus ad.point_addr_buf.1 ad.log n1) n2
      &&& STATUS_SWEEP_DONE = STATUS_SWEEP_DONE)
    (hd1 : ∀ k, k < n2 →
      status_at bus ad.point_addr_buf.1 (hist_sampled bus ad.point_addr_buf.1 ad.log n1) k
        &&& STATUS_SWEEP_DONE ≠ STATUS_SWEEP_DONE)
    (hf1 : n1 < fuel) (hf2 : n2 < fuel) :
    ∃ adf, AD_get_complex_data bus fuel ad [r0, r1] [i0, i1] =
        some (0, adf,
          [rd_byte bus (hist_valid bus ad.point_addr_buf.1 ad.log n1 ++
              [BusOp.write [ad.point_addr_buf.1, 0x94]]),
           rd_byte bus (hist_valid bus ad.point_addr_buf.1 ad.log n1 ++
              read_ops ad.point_addr_buf.1 0x94 ++ [BusOp.write [ad.point_addr_buf.1, 0x95]])],
          [rd_byte bus (hist_valid bus ad.point_addr_buf.1 ad.log n1 ++
              read_ops ad.point_addr_buf.1 0x94 ++ read_ops ad.point_addr_buf.1 0x95 ++
              [BusOp.write [ad.point_addr_buf.1, 0x96]]),
           rd_byte bus (hist_valid bus ad.point_addr_buf.1 ad.log n1 ++
              read_ops ad.point_addr_buf.1 0x94 ++ read_ops ad.point_addr_buf.1 0x95 ++
              read_ops ad.point_addr_buf.1 0x96 ++ [BusOp.write [ad.point_addr_buf.1, 0x97]])]) ∧
      adf.log = hist_done bus ad.point_addr_buf.1 ad.log n1 n2 ∧
      adf.point_addr_buf.1 = ad.point_addr_buf.1 := by
  generalize hp : ad.point_addr_buf.1 = p0 at *
  obtain ⟨a1, e1, l1, p1⟩ := control_mode_spec bus ad CTRL_STANDBY_MODE
  obtain ⟨a2, e2, l2, p2⟩ := control_mode_spec bus { a1 with ret := 0 } CTRL_INIT_START_FREQ
  obtain ⟨a3, e3, l3, p3⟩ := control_mode_spec bus { a2 with ret := 0 } CTRL_START_FREQ_SWEEP
  simp only [] at l2 p2 l3 p3
  rw [hp] at l1 p1
  rw [p1] at l2 p2
  rw [p2] at l3 p3
  have l3' : a3.log = hist_started bus p0 ad.log := by
    rw [l3, l2, l1]; rfl
  obtain ⟨a4, e4, l4, p4⟩ := poll_spec bus STATUS_DATA_VALID n1 fuel { a3 with ret := 0 } 0 hf1
    (by show status_at bus a3.point_addr_buf.1 a3.log n1 &&& _ = _
        rw [p3, l3']; exact hv)
    (by intro k hk
        show status_at bus a3.point_addr_buf.1 a3.log k &&& _ ≠ _
        rw [p3, l3']; exact hv1 k hk)
  simp only [] at l4 p4
  rw [p3] at l4 p4
  rw [l3'] at l4
  have l4' : a4.log = hist_valid bus p0 ad.log n1 := l4
  have g1 := AD_get_bytes_two bus 0x94 a4 r0 r1
  have g2 := AD_get_bytes_two bus 0x96
    { log := a4.log ++ read_ops a4.point_addr_buf.1 (0x94 % 256) ++
              read_ops a4.point_addr_buf.1 ((0x94 + 1) % 256),
      ret := 0,
      clock_ext := a4.clock_ext,
      point_addr_buf := (a4.point_addr_buf.1, (0x94 + 1) % 256) } i0 i1
  simp only [] at g2
  rw [p4, l4'] at g1 g2
  obtain ⟨a6, e6, l6, p6⟩ := control_mode_spec bus
    { log := hist_valid bus p0 ad.log n1 ++ read_ops p0 (0x94 % 256) ++
              read_ops p0 ((0x94 + 1) % 256) ++ read_ops p0 (0x96 % 256) ++
              read_ops p0 ((0x96 + 1) % 256),
      ret := 0,
      clock_ext := a4.clock_ext,
      point_addr_buf := (p0, (0x96 + 1) % 256) } CTRL_INCREMENT_FREQ
  simp only [] at l6 p6
  have l6' : a6.log = hist_sampled bus p0 ad.log n1 := by
    rw [l6]; rfl
  obtain ⟨a7, e7, l7, p7⟩ := poll_spec bus STATUS_SWEEP_DONE n2 fuel { a6 with ret := 0 }
    (status_at bus ({ a3 with ret := 0 } : AD).point_addr_buf.1 ({ a3 with ret := 0 } : AD).log n1)
    hf2
    (by show status_at bus a6.point_addr_buf.1 a6.log n2 &&& _ = _
        rw [p6, l6']; exact hd)
    (by intro k hk
        show status_at bus a6.point_addr_buf.1 a6.log k &&& _ ≠ _
        rw [p6, l6']; exact hd1 k hk)
  simp only [] at l7 p7
  rw [p6] at l7 p7
  rw [l6'] at l7
  obtain ⟨a8, e8, l8, p8⟩ := control_mode_spec bus a7 CTRL_STANDBY_MODE
  rw [p7] at l8 p8
  have l8' : a8.log = hist_done bus p0 ad.log n1 n2 := by
    rw [l8, l7]; rfl
  refine ⟨a8, ?_, l8', p8⟩
  simp only [AD_get_complex_data, AD_get_complex_data_with, complex_data_tail,
    driver_power_mode, driver_control_mode, driver_get_bytes,
    power_standby, e1, e2, e3, e4, AD_reg, g1, g2, e6, e7, e8, I2C_OK]
  simp [read_ops]

theorem mode_nibble (b m : Nat) (hm : m = 0xB0 ∨ m = 0x10 ∨ m = 0x20 ∨ m = 0x30) :
    ((b &&& 0x0F) ||| m) &&& 0xF0 = m := by
  have hb : b &&& 0x0F < 16 := Nat.and_lt_two_pow b (by decide : 15 < 2 ^ 4)
  generalize b &&& 0x0F = x at hb
  rcases hm with rfl | rfl | rfl | rfl <;> interval_cases x <;> rfl

theorem mode_writes_append (a b : List BusOp) :
    mode_writes (a ++ b) = mode_writes a ++ mode_writes b := by
  unfold mode_writes
  rw [List.filterMap_append]

theorem mode_writes_read_ops (a : Nat) : mode_writes (read_ops AD5933_PTR a) = [] := rfl

theorem mode_writes_polls (k : Nat) : mode_writes (status_polls AD5933_PTR k) = [] := by
  induction k with
  | zero => rfl
  | succ k ih =>
    show mode_writes (read_ops AD5933_PTR 0x8F ++ status_polls AD5933_PTR k) = []
    rw [mode_writes_append, ih]
    rfl

theorem mode_writes_mode_ops (bus : Bus) (h : List BusOp) (m : Nat)
    (hm : m = 0xB0 ∨ m = 0x10 ∨ m = 0x20 ∨ m = 0x30) :
    mode_writes (mode_ops bus AD5933_PTR h m) = [m] := by
  have e : mode_writes (mode_ops bus AD5933_PTR h m) =
      [((rd_byte bus (h ++ [BusOp.write [AD5933_PTR, 0x80]]) &&& 0x0F) ||| m) &&& 0xF0] := rfl
  rw [e, mode_nibble _ m hm]

/-- The control modes written by the whole sequence. -/
theorem mode_writes_hist_done (bus : Bus) (h0 : List BusOp) (n1 n2 : Nat) :
    ∃ ops, hist_done bus AD5933_PTR h0 n1 n2 = h0 ++ ops ∧
      mode_writes ops =
        [CTRL_STANDBY_MODE, CTRL_INIT_START_FREQ, CTRL_START_FREQ_SWEEP, CTRL_INCREMENT_FREQ,
         CTRL_STANDBY_MODE] := by
  refine ⟨mode_ops bus AD5933_PTR h0 CTRL_STANDBY_MODE ++
      mode_ops bus AD5933_PTR (h0 ++ mode_ops bus AD5933_PTR h0 CTRL_STANDBY_MODE)
        CTRL_INIT_START_FREQ ++
      mode_ops bus AD5933_PTR (h0 ++ mode_ops bus AD5933_PTR h0 CTRL_STANDBY_MODE ++
        mode_ops bus AD5933_PTR (h0 ++ mode_ops bus AD5933_PTR h0 CTRL_STANDBY_MODE)
          CTRL_INIT_START_FREQ) CTRL_START_FREQ_SWEEP ++
      status_polls AD5933_PTR (n1 + 1) ++
      read_ops AD5933_PTR 0x94 ++ read_ops AD5933_PTR 0x95 ++
      read_ops AD5933_PTR 0x96 ++ read_ops AD5933_PTR 0x97 ++
      mode_ops bus AD5933_PTR (hist_valid bus AD5933_PTR h0 n1 ++ read_ops AD5933_PTR 0x94 ++
        read_ops AD5933_PTR 0x95 ++ read_ops AD5933_PTR 0x96 ++ read_ops AD5933_PTR 0x97)
        CTRL_INCREMENT_FREQ ++
      status_polls AD5933_PTR (n2 + 1) ++
      mode_ops bus AD5933_PTR (hist_sampled bus AD5933_PTR h0 n1 ++
        status_polls AD5933_PTR (n2 + 1)) CTRL_STANDBY_MODE, ?_, ?_⟩
  · simp only [hist_done, hist_sampled, hist_valid, hist_started, List.append_assoc]
  · simp only [mode_writes_append, mode_writes_read_ops, mode_writes_polls, List.append_nil,
      List.nil_append]
    rw [mode_writes_mode_ops _ _ CTRL_STANDBY_MODE (Or.inl rfl),
      mode_writes_mode_ops _ _ CTRL_INIT_START_FREQ (Or.inr (Or.inl rfl)),
      mode_writes_mode_ops _ _ CTRL_START_FREQ_SWEEP (Or.inr (Or.inr (Or.inl rfl))),
      mode_writes_mode_ops _ _ CTRL_INCREMENT_FREQ (Or.inr (Or.inr (Or.inr rfl))),
      mode_writes_mode_ops _ _ CTRL_STANDBY_MODE (Or.inl rfl)]
    rfl

theorem periods_process (x : State) : periods (i2c_process_cmd_chr x) = periods x := by
  unfold i2c_process_cmd_chr periods
  simp only []
  split <;> (repeat' split) <;> rfl

theorem periods_set_value (bus : Bus) (x : State) (h : periods_ok x) :
    periods_ok (irq_set_value bus x) := by
  obtain ⟨h1, h2, h3⟩ := h
  unfold irq_set_value set_cmd_chr periods_ok
  simp only []
  generalize ((x.rx_buffer.2 <<< 8) ||| x.rx_buffer.1) % 65536 = v0
  split <;> (repeat' split) <;> ((try dsimp only); omega)

theorem periods_ok_of_eq (s t : State) (e : periods t = periods s) (h : periods_ok s) :
    periods_ok t := by
  simp only [periods, Prod.mk.injEq] at e
  unfold periods_ok at h ⊢
  rw [e.1, e.2.1, e.2.2]
  exact h

theorem periods_drdy (s : State) (irq : Irq) : periods (irq_drdy s irq).1 = periods s := by
  unfold irq_drdy
  split <;> split <;> rfl

theorem periods_ok_prec (bus : Bus) (s : State) (irq : Irq) (h : periods_ok s) :
    periods_ok (irq_prec bus s irq).1 := by
  unfold irq_prec
  split
  · simp only []
    split
    · exact periods_ok_of_eq s _ (by rw [show ∀ y, periods (set_i2c_idx y 0) = periods y from
        fun _ => rfl, periods_process]; rfl) h
    · exact periods_ok_of_eq _ _ (show periods (set_i2c_idx _ 0) = periods _ from rfl)
        (periods_set_value bus _ (periods_ok_of_eq s _ rfl h))
  · exact periods_ok_of_eq s _ rfl h

theorem periods_ok_handler (bus : Bus) (s : State) (irq : Irq) (h : periods_ok s) :
    periods_ok (I2C_SERCOM_IRQ_HANDLER bus s irq).1 := by
  unfold I2C_SERCOM_IRQ_HANDLER
  simp only []
  have h2 : periods_ok (if irq.drdy = true then irq_drdy s irq else (s, [])).1 := by
    split
    · exact periods_ok_of_eq s _ (periods_drdy s irq) h
    · exact h
  generalize (if irq.drdy = true then irq_drdy s irq else (s, [])) = r2 at h2 ⊢
  split
  · exact periods_ok_prec bus _ irq h2
  · exact h2

theorem periods_tick (s t : State) (h : SysTick_Handler s = some t) : periods t = periods s := by
  have e0 : periods (tick_led2 (tick_led1 (tick_led0 (tick_count s)))) = periods s := by
    have c : periods (tick_count s) = periods s := by
      unfold tick_count; simp only []; split <;> split <;> rfl
    have l0 : ∀ y, periods (tick_led0 y) = periods y := by
      intro y; unfold tick_led0; split <;> rfl
    have l1 : ∀ y, periods (tick_led1 y) = periods y := by
      intro y; unfold tick_led1; split <;> rfl
    have l2 : ∀ y, periods (tick_led2 y) = periods y := by
      intro y; unfold tick_led2; split <;> rfl
    rw [l2, l1, l0, c]
  unfold SysTick_Handler at h
  generalize tick_led2 (tick_led1 (tick_led0 (tick_count s))) = a at e0 h
  have hi : ∀ y z, tick_imp y = some z → periods z = periods y := by
    intro y z hz
    unfold tick_imp at hz
    split at hz
    · cases hz
    · split at hz <;> cases hz <;> rfl
  have ht : ∀ y z, tick_temp y = some z → periods z = periods y := by
    intro y z hz
    unfold tick_temp at hz
    split at hz
    · cases hz
    · split at hz <;> cases hz <;> rfl
  cases hb : tick_imp a with
  | none => rw [hb] at h; cases h
  | some b =>
    rw [hb, Option.some_bind] at h
    rw [ht b t h, hi a b hb, e0]

theorem periods_seed (s : State) : periods (main_seed s) = periods s := by
  unfold main_seed; simp only []; split <;> rfl

theorem periods_startup_ad (code : FreqCode) (bus : Bus) (s : State) :
    periods (startup_ad code bus s) = periods s := by
  unfold startup_ad; simp only []; split
  · split <;> rfl
  · rfl

theorem periods_startup_max (cbus : CmdBus) (s : State) :
    periods (startup_max cbus s) = periods s := by
  unfold startup_max; simp only []; split <;> rfl

theorem periods_do_emg (adc : Nat × Nat) (s : State) : periods (main_do_emg adc s) = periods s := by
  unfold main_do_emg; split <;> rfl

theorem periods_do_temp (cbus : CmdBus) (s : State) :
    periods (main_do_temp cbus s) = periods s := by
  unfold main_do_temp; split <;> rfl

/-- What the first sweep of the impedance pass leaves untouched. -/
theorem imp_sweep1_frame (bus : Bus) (fuel tries : Nat) (s t : State)
    (h : imp_pass_sweep1 bus fuel tries s = some t) :
    periods t = periods s ∧ t.cmd_chr = s.cmd_chr ∧ t.i2c_idx = s.i2c_idx ∧
      t.imp_2_real = s.imp_2_real ∧ t.imp_2_img = s.imp_2_img := by
  unfold imp_pass_sweep1 at h
  simp only [Option.map_eq_some'] at h
  obtain ⟨r, _, rfl⟩ := h
  exact ⟨rfl, rfl, rfl, rfl, rfl⟩

/-- What the first sweep of the requested pass leaves untouched. -/
theorem req_sweep1_frame (bus : Bus) (fuel tries : Nat) (s t : State)
    (h : req_pass_sweep1 bus fuel tries s = some t) :
    periods t = periods s ∧ t.cmd_chr = s.cmd_chr ∧ t.i2c_idx = s.i2c_idx ∧
      t.imp_2_real = s.imp_2_real ∧ t.imp_2_img = s.imp_2_img := by
  unfold req_pass_sweep1 at h
  simp only [Option.map_eq_some'] at h
  obtain ⟨r, _, rfl⟩ := h
  exact ⟨rfl, rfl, rfl, rfl, rfl⟩

/-- What the second sweep of the impedance pass leaves untouched. -/
theorem imp_sweep2_frame (bus : Bus) (fuel tries : Nat) (s t : State)
    (h : imp_pass_sweep2 bus fuel tries s = some t) :
    periods t = periods s ∧ t.cmd_chr = s.cmd_chr ∧ t.i2c_idx = s.i2c_idx ∧
      t.imp_1_real = s.imp_1_real ∧ t.imp_1_img = s.imp_1_img := by
  unfold imp_pass_sweep2 at h
  simp only [Option.map_eq_some'] at h
  obtain ⟨r, _, rfl⟩ := h
  exact ⟨rfl, rfl, rfl, rfl, rfl⟩

/-- What the second sweep of the requested pass leaves untouched. -/
theorem req_sweep2_frame (bus : Bus) (fuel tries : Nat) (s t : State)
    (h : req_pass_sweep2 bus fuel tries s = some t) :
    periods t = periods s ∧ t.cmd_chr = s.cmd_chr ∧ t.i2c_idx = s.i2c_idx ∧
      t.imp_1_real = s.imp_1_real ∧ t.imp_1_img = s.imp_1_img := by
  unfold req_pass_sweep2 at h
  simp only [Option.map_eq_some'] at h
  obtain ⟨r, _, rfl⟩ := h
  exact ⟨rfl, rfl, rfl, rfl, rfl⟩

theorem reachable_run (bus : Bus) (es : List Irq) : ∀ s, Reachable s →
    Reachable (run bus s es).1 := by
  induction es with
  | nil => intro s h; exact h
  | cons e es ih => intro s h; exact ih _ (Reachable.irq bus s e h)

theorem some_getD {α : Type} (x : Option α) (d : α) (h : x.isSome = true) :
    x = some (x.getD d) := by
  cases x with
  | none => cases h
  | some a => rfl

/-- The bytes served for an IMP_ALL read (`[0x05]`, then eight bytes) that
starts with no pending command: the impedance buffer as it is at that
moment. -/
theorem imp_all_read_bytes (bus : Bus) (s : State) (hc : s.cmd_chr = 255)
    (hi : s.i2c_idx = 0) :
    data_bytes (run bus s imp_all_read).2 = (imp_all s).map some := by
  unfold imp_all_read
  rw [run_append]
  have hw : (run bus s (hostWrite [0x05] 0)).2 =
      [[HwAct.ackact 0, HwAct.cmd 0x3, HwAct.clear_amatch],
       [HwAct.rx_store 0, HwAct.ackact 0, HwAct.cmd 0x3, HwAct.clear_drdy],
       [HwAct.clear_prec, HwAct.rx_store 1]] := by
    simp [run, hostWrite, I2C_SERCOM_IRQ_HANDLER, irq_drdy, irq_prec, ev_amatch, ev_rx, ev_stop,
      hi, RX_BUFFER_LEN]
  have hs1 := run_write_one_fresh bus s 0x05 0 hi hc
  generalize (run bus s (hostWrite [0x05] 0)).1 = s1 at hs1 ⊢
  have hg := process_getter { s with rx_buffer := (0x05 % 256, 0 % 256), cmd_chr := 0x05 % 256 }
    .IMP_ALL ⟨.imp, 0⟩ 8 rfl rfl
  rw [← hs1] at hg
  have h1i : s1.i2c_idx = 0 := by
    rw [hs1, process_keeps_idx]; exact hi
  have htr := run_read_trace bus s1 8 h1i hg.2.1 (by omega)
  rw [hg.1] at htr
  have hb := hg.2.2.1 rfl
  simp only [List.range, List.range.loop, List.map_cons, List.map_nil] at hb
  show data_bytes ((run bus s (hostWrite [0x05] 0)).2 ++ (run bus s1 (hostRead 8)).2) = _
  rw [hw, htr]
  exact hb

theorem imp_view_count_off (s : State) (hen : s.ad5933_enabled = false) :
    imp_view (tick_count s) = imp_view s := by
  cases hm : s.max30205_enabled <;> simp [tick_count, imp_view, hen, hm]

/-- One tick with the impedance subsystem disabled, the counter at 1 and the
period 1: the flag is raised all the same. -/
theorem tick_disabled_period_one (s : State) (hen : s.ad5933_enabled = false)
    (hcnt : s.imp_counter = 1) (hP : s.imp_period_ms = 1) (hT : s.temp_period_ms ≠ 0) :
    ∃ t, SysTick_Handler s = some t ∧
      t.do_imp = true ∧ t.ad5933_enabled = false ∧ t.imp_counter = 1 := by
  have hv : imp_view (tick_led2 (tick_led1 (tick_led0 (tick_count s)))) = imp_view s := by
    rw [imp_view_led2, imp_view_led1, imp_view_led0, imp_view_count_off s hen]
  unfold SysTick_Handler
  generalize tick_led2 (tick_led1 (tick_led0 (tick_count s))) = a at hv ⊢
  simp only [imp_view, Prod.mk.injEq] at hv
  obtain ⟨ha1, ha2, ha3, ha4, _⟩ := hv
  have hQa : a.imp_period_ms ≠ 0 := by rw [ha3, hP]; decide
  have hTa : a.temp_period_ms ≠ 0 := by rw [ha4]; exact hT
  have hz : a.imp_counter % a.imp_period_ms = 0 := by rw [ha2, ha3, hcnt, hP]
  unfold tick_imp
  rw [if_neg hQa, if_pos hz, Option.some_bind]
  obtain ⟨u, hu, hview⟩ := tick_temp_view { a with imp_counter := 1, do_imp := true } hTa
  simp only [imp_view, Prod.mk.injEq] at hview
  refine ⟨u, hu, hview.2.2.2.2, ?_, hview.2.1⟩
  rw [hview.1]
  exact ha1.trans hen

theorem sched_view_count_off (s : State) (hen : s.ad5933_enabled = false)
    (hm : s.max30205_enabled = false) : sched_view (tick_count s) = sched_view s := by
  simp [tick_count, sched_view, hen, hm]

theorem sched_view_led0 (s : State) : sched_view (tick_led0 s) = sched_view s := by
  unfold tick_led0; split <;> rfl

theorem sched_view_led1 (s : State) : sched_view (tick_led1 s) = sched_view s := by
  unfold tick_led1; split <;> rfl

theorem sched_view_led2 (s : State) : sched_view (tick_led2 s) = sched_view s := by
  unfold tick_led2; split <;> rfl

/-- One tick with both subsystems disabled, both counters at 1 and both
periods at least 2: the schedule variables do not change. -/
theorem tick_disabled_quiet (s : State) (hen : s.ad5933_enabled = false)
    (hm : s.max30205_enabled = false) (hc1 : s.imp_counter = 1) (hc2 : s.temp_counter = 1)
    (hP : 2 ≤ s.imp_period_ms) (hT : 2 ≤ s.temp_period_ms) :
    ∃ t, SysTick_Handler s = some t ∧ sched_view t = sched_view s := by
  have hv : sched_view (tick_led2 (tick_led1 (tick_led0 (tick_count s)))) = sched_view s := by
    rw [sched_view_led2, sched_view_led1, sched_view_led0, sched_view_count_off s hen hm]
  unfold SysTick_Handler
  generalize tick_led2 (tick_led1 (tick_led0 (tick_count s))) = a at hv ⊢
  have hv1 := hv
  simp only [sched_view, Prod.mk.injEq] at hv1
  obtain ⟨_, _, a3, a4, a5, a6, _, _⟩ := hv1
  have hi : tick_imp a = some a := by
    unfold tick_imp
    rw [a3, a5, hc1, if_neg (by omega), if_neg]
    rw [Nat.mod_eq_of_lt (by omega)]
    decide
  have ht : tick_temp a = some a := by
    unfold tick_temp
    rw [a4, a6, hc2, if_neg (by omega), if_neg]
    rw [Nat.mod_eq_of_lt (by omega)]
    decide
  exact ⟨a, by rw [hi, Option.some_bind, ht], hv⟩

/-- Any number of ticks in that situation leaves the schedule variables as
they are. -/
theorem ticks_disabled_quiet (n : Nat) : ∀ (s : State), s.ad5933_enabled = false →
    s.max30205_enabled = false → s.imp_counter = 1 → s.temp_counter = 1 →
    2 ≤ s.imp_period_ms → 2 ≤ s.temp_period_ms →
    ∃ t, ticks n s = some t ∧ sched_view t = sched_view s := by
  induction n with
  | zero => intro s _ _ _ _ _ _; exact ⟨s, rfl, rfl⟩
  | succ n ih =>
    intro s hen hm hc1 hc2 hP hT
    obtain ⟨u, hu, hview⟩ := tick_disabled_quiet s hen hm hc1 hc2 hP hT
    have hv1 := hview
    simp only [sched_view, Prod.mk.injEq] at hv1
    obtain ⟨u1, u2, u3, u4, u5, u6, _, _⟩ := hv1
    obtain ⟨t, ht, hview2⟩ := ih u (u1.trans hen) (u2.trans hm) (u3.trans hc1) (u4.trans hc2)
      (by rw [u5]; exact hP) (by rw [u6]; exact hT)
    refine ⟨t, ?_, hview2.trans hview⟩
    show (SysTick_Handler s).bind (ticks n) = some t
    rw [hu, Option.some_bind, ht]

theorem toDigitsCore_step (f n : Nat) (ds : List Char) :
    Nat.toDigitsCore 10 (f + 1) n ds =
      if n / 10 = 0 then Nat.digitChar (n % 10) :: ds
      else Nat.toDigitsCore 10 f (n / 10) (Nat.digitChar (n % 10) :: ds) := by
  simp [Nat.toDigitsCore]

theorem digit_code (x : Nat) (hx : x < 10) : (Nat.digitChar x).toNat = 48 + x := by
  interval_cases x <;> rfl

/-- The text `utoa` produces for a value of at most four digits. -/
theorem utoa_small (p : Nat) (hp : p ≤ 9999) :
    utoa p =
      if p < 10 then [48 + p, 0]
      else if p < 100 then [48 + p / 10, 48 + p % 10, 0]
      else if p < 1000 then [48 + p / 100, 48 + p / 10 % 10, 48 + p % 10, 0]
      else [48 + p / 1000, 48 + p / 100 % 10, 48 + p / 10 % 10, 48 + p % 10, 0] := by
  unfold utoa Nat.toDigits
  by_cases h1 : p < 10
  · rw [if_pos h1, toDigitsCore_step, if_pos (by omega)]
    simp [digit_code _ (show p % 10 < 10 by omega)]
    omega
  · rw [if_neg h1]
    by_cases h2 : p < 100
    · rw [if_pos h2]
      obtain ⟨k, rfl⟩ : ∃ k, p = k + 1 := ⟨p - 1, by omega⟩
      rw [toDigitsCore_step, if_neg (by omega), toDigitsCore_step, if_pos (by omega)]
      simp [digit_code _ (show (k + 1) % 10 < 10 by omega),
        digit_code _ (show (k + 1) / 10 % 10 < 10 by omega)]
      omega
    · rw [if_neg h2]
      by_cases h3 : p < 1000
      · rw [if_pos h3]
        obtain ⟨k, rfl⟩ : ∃ k, p = k + 2 := ⟨p - 2, by omega⟩
        rw [toDigitsCore_step, if_neg (by omega), toDigitsCore_step, if_neg (by omega),
          toDigitsCore_step, if_pos (by omega)]
        simp [digit_code _ (show (k + 2) % 10 < 10 by omega),
          digit_code _ (show (k + 2) / 10 % 10 < 10 by omega),
          digit_code _ (show (k + 2) / 10 / 10 % 10 < 10 by omega)]
        omega
      · rw [if_neg h3]
        obtain ⟨k, rfl⟩ : ∃ k, p = k + 3 := ⟨p - 3, by omega⟩
        rw [toDigitsCore_step, if_neg (by omega), toDigitsCore_step, if_neg (by omega),
          toDigitsCore_step, if_neg (by omega), toDigitsCore_step, if_pos (by omega)]
        simp [digit_code _ (show (k + 3) % 10 < 10 by omega),
          digit_code _ (show (k + 3) / 10 % 10 < 10 by omega),
          digit_code _ (show (k + 3) / 10 / 10 % 10 < 10 by omega),
          digit_code _ (show (k + 3) / 10 / 10 / 10 % 10 < 10 by omega)]
        omega
theorem take_four_some (l : List Nat) (h : 4 ≤ l.length) :
    [l[0]?, l[1]?, l[2]?, l[3]?] = (l.take 4).map some := by
  rcases l with _ | ⟨x0, _ | ⟨x1, _ | ⟨x2, _ | ⟨x3, rest⟩⟩⟩⟩ <;> simp at h ⊢

/-- The four bytes served for a period up to 9999 read back as that period,
whatever the scratch buffer held, and contain the NUL when the period has
fewer than four digits. -/
theorem period_text (buf : List Nat) (p : Nat) (hp : p ≤ 9999) (hbuf : 4 ≤ buf.length) :
    parse_response ((storeBytes buf (utoa p)).take 4) = p ∧
    (p < 1000 → 0 ∈ (storeBytes buf (utoa p)).take 4) := by
  rcases buf with _ | ⟨x0, _ | ⟨x1, _ | ⟨x2, _ | ⟨x3, rest⟩⟩⟩⟩ <;> simp at hbuf
  rw [utoa_small p hp]
  by_cases h1 : p < 10
  · simp [h1, storeBytes, parse_response, List.takeWhile]
  · by_cases h2 : p < 100
    · simp [h1, h2, storeBytes, parse_response, List.takeWhile]
      omega
    · by_cases h3 : p < 1000
      · simp [h1, h2, h3, storeBytes, parse_response, List.takeWhile]
        omega
      · simp [h1, h2, h3, storeBytes, parse_response, List.takeWhile]
        omega

/-- The bytes served for a period command followed by a four-byte read: the
first four bytes of the scratch buffer after `utoa` has written the period
into it. -/
theorem period_read_bytes (bus : Bus) (s : State) (d : Nat) (k : Cmd)
    (hk : k = .EMG_PERIOD ∨ k = .IMP_PERIOD ∨ k = .TEMP_PERIOD)
    (hc : s.cmd_chr = 255) (hi : s.i2c_idx = 0)
    (hbuf : s.temporary_buffer.length = TX_BUFFER_MAX_LEN) :
    data_bytes (run bus s (hostWrite [k.code] d ++ hostRead 4)).2 =
      ((storeBytes s.temporary_buffer (utoa (period_of s k))).take 4).map some := by
  have hlen : 4 ≤ (storeBytes s.temporary_buffer (utoa (period_of s k))).length := by
    have h1 := storeBytes_length s.temporary_buffer (utoa (period_of s k))
    rw [hbuf] at h1
    simp only [TX_BUFFER_MAX_LEN] at h1
    omega
  rw [← take_four_some _ hlen, run_append]
  have hcode : k.code % 256 = k.code := Nat.mod_eq_of_lt (by have := code_lt k; omega)
  have hw : (run bus s (hostWrite [k.code] d)).2 =
      [[HwAct.ackact 0, HwAct.cmd 0x3, HwAct.clear_amatch],
       [HwAct.rx_store 0, HwAct.ackact 0, HwAct.cmd 0x3, HwAct.clear_drdy],
       [HwAct.clear_prec, HwAct.rx_store 1]] := by
    simp [run, hostWrite, I2C_SERCOM_IRQ_HANDLER, irq_drdy, irq_prec, ev_amatch, ev_rx, ev_stop,
      hi, RX_BUFFER_LEN]
  have hs1 := run_write_one_fresh bus s k.code d hi hc
  rw [hcode] at hs1
  have ht : response_source k = some (⟨.temporary_buffer, 0⟩, 4) := by
    rcases hk with rfl | rfl | rfl <;> rfl
  have hg := process_getter { s with rx_buffer := (k.code, d % 256), cmd_chr := k.code }
    k ⟨.temporary_buffer, 0⟩ 4 rfl ht
  have hb : (i2c_process_cmd_chr
      { s with rx_buffer := (k.code, d % 256), cmd_chr := k.code }).temporary_buffer =
      storeBytes s.temporary_buffer (utoa (period_of s k)) := by
    rcases hk with rfl | rfl | rfl <;> rfl
  rw [← hs1] at hg hb
  generalize (run bus s (hostWrite [k.code] d)).1 = s1 at hs1 hg hb ⊢
  have h1i : s1.i2c_idx = 0 := by
    rw [hs1, process_keeps_idx]; exact hi
  have htr := run_read_trace bus s1 4 h1i hg.2.1 (by omega)
  rw [hg.1] at htr
  show data_bytes ((run bus s (hostWrite [k.code] d)).2 ++ (run bus s1 (hostRead 4)).2) = _
  rw [hw, htr, ← hb]
  rfl

theorem rx_stores_append (a b : List (List HwAct)) :
    rx_stores (a ++ b) = rx_stores a ++ rx_stores b := by
  simp [rx_stores, List.flatten_append, List.filterMap_append]

theorem rx_stores_cons (a : List HwAct) (b : List (List HwAct)) :
    rx_stores (a :: b) = a.filterMap store_index ++ rx_stores b := by
  simp [rx_stores, List.filterMap_append]

/-- The `DRDY` block while the host writes: the byte index stays at most 1 and
a store is at index 0. -/
theorem drdy_index_write (s : State) (irq : Irq) (hd : irq.dir = false)
    (hj : s.i2c_idx ≤ 1) :
    (irq_drdy s irq).1.i2c_idx ≤ 1 ∧
    (∀ i ∈ (irq_drdy s irq).2.filterMap store_index, i < 2) := by
  unfold irq_drdy
  rw [hd]
  simp only [Bool.false_eq_true, if_false, RX_BUFFER_LEN]
  have h01 : s.i2c_idx = 0 ∨ s.i2c_idx = 1 := by omega
  rcases h01 with h | h <;> simp [h, store_index]

/-- The `DRDY` block while the host reads: no store into `rx_buffer`. -/
theorem drdy_index_read (s : State) (irq : Irq) (hd : irq.dir = true) :
    (irq_drdy s irq).2.filterMap store_index = [] := by
  unfold irq_drdy
  rw [hd]
  simp only [if_true]
  split <;> simp [store_index]

/-- The `PREC` block: the byte index is 0 afterwards; a store is at the byte
index, and there is none when the host has read. -/
theorem prec_index (bus : Bus) (s : State) (irq : Irq) :
    (irq_prec bus s irq).1.i2c_idx = 0 ∧
    (irq.dir = false → (irq_prec bus s irq).2.filterMap store_index = [s.i2c_idx]) ∧
    (irq.dir = true → (irq_prec bus s irq).2.filterMap store_index = []) := by
  unfold irq_prec
  cases hd : irq.dir <;> simp [store_index, set_i2c_idx]

/-- One invocation of the handler inside a transaction: in a host write the
byte index stays at most 1 until the stop, every store into `rx_buffer` is at
an index below 2, and a stop puts the byte index back to 0. -/
theorem handler_index_step (bus : Bus) (s : State) (e : Irq)
    (hj : e.dir = false → s.i2c_idx ≤ 1) :
    (e.prec = false → e.dir = false → (I2C_SERCOM_IRQ_HANDLER bus s e).1.i2c_idx ≤ 1) ∧
    (e.prec = true → (I2C_SERCOM_IRQ_HANDLER bus s e).1.i2c_idx = 0) ∧
    (∀ i ∈ (I2C_SERCOM_IRQ_HANDLER bus s e).2.filterMap store_index, i < 2) := by
  have ha : ∀ b : Bool, (if b = true then [HwAct.ackact 0, HwAct.cmd 0x3, HwAct.clear_amatch]
      else []).filterMap store_index = [] := by
    intro b; cases b <;> rfl
  have h2 : (e.dir = false → (if e.drdy = true then irq_drdy s e else (s, [])).1.i2c_idx ≤ 1) ∧
      (∀ i ∈ (if e.drdy = true then irq_drdy s e else (s, [])).2.filterMap store_index,
        i < 2) := by
    rcases Bool.eq_false_or_eq_true e.drdy with hdr | hdr
    · rw [if_pos hdr]
      rcases Bool.eq_false_or_eq_true e.dir with hd | hd
      · refine ⟨fun h => ?_, ?_⟩
        · rw [hd] at h; cases h
        · rw [drdy_index_read s e hd]
          simp
      · exact ⟨fun _ => (drdy_index_write s e hd (hj hd)).1, (drdy_index_write s e hd (hj hd)).2⟩
    · rw [if_neg (by rw [hdr]; decide)]
      exact ⟨hj, by simp⟩
  unfold I2C_SERCOM_IRQ_HANDLER
  simp only []
  generalize (if e.drdy = true then irq_drdy s e else (s, [])) = r2 at h2 ⊢
  simp only [List.filterMap_append, ha, List.nil_append]
  rcases Bool.eq_false_or_eq_true e.prec with hp | hp
  · rw [if_pos hp]
    have hq := prec_index bus r2.1 e
    refine ⟨fun h => ?_, fun _ => hq.1, ?_⟩
    · rw [hp] at h; cases h
    · intro i hi
      rw [List.mem_append] at hi
      rcases hi with hi | hi
      · exact h2.2 i hi
      · rcases Bool.eq_false_or_eq_true e.dir with hd | hd
        · rw [hq.2.2 hd] at hi
          simp at hi
        · rw [hq.2.1 hd] at hi
          simp only [List.mem_singleton] at hi
          have := h2.1 hd
          omega
  · rw [if_neg (by rw [hp]; decide)]
    simp only [List.filterMap_nil, List.append_nil]
    refine ⟨fun _ hd => h2.1 hd, fun h => ?_, h2.2⟩
    rw [hp] at h; cases h

/-- The events of a transaction before its stop. -/
theorem run_index_body (bus : Bus) (d : Bool) (body : List Irq) : ∀ (s : State),
    (∀ e ∈ body, e.prec = false ∧ e.dir = d) → (d = false → s.i2c_idx ≤ 1) →
    (d = false → (run bus s body).1.i2c_idx ≤ 1) ∧
    (∀ i ∈ rx_stores (run bus s body).2, i < 2) := by
  induction body with
  | nil => intro s _ hj; exact ⟨hj, by simp [run, rx_stores]⟩
  | cons e es ih =>
    intro s hb hj
    have he := hb e (List.mem_cons_self _ _)
    have hs := handler_index_step bus s e (fun h => hj (he.2.symm.trans h))
    have hrest := ih (I2C_SERCOM_IRQ_HANDLER bus s e).1
      (fun x hx => hb x (List.mem_cons_of_mem _ hx))
      (fun h => hs.1 he.1 (he.2.trans h))
    refine ⟨hrest.1, ?_⟩
    show ∀ i ∈ rx_stores ((I2C_SERCOM_IRQ_HANDLER bus s e).2 ::
      (run bus (I2C_SERCOM_IRQ_HANDLER bus s e).1 es).2), i < 2
    intro i hi
    rw [rx_stores_cons, List.mem_append] at hi
    rcases hi with hi | hi
    · exact hs.2.2 i hi
    · exact hrest.2 i hi

/-- A whole transaction from byte index 0: every store is below 2 and the byte
index is 0 afterwards. -/
theorem run_index_transaction (bus : Bus) (s : State) (es : List Irq) (hi : s.i2c_idx = 0)
    (ht : is_transaction es = true) :
    (run bus s es).1.i2c_idx = 0 ∧ (∀ i ∈ rx_stores (run bus s es).2, i < 2) := by
  unfold is_transaction at ht
  cases hl : es.getLast? with
  | none => rw [hl] at ht; cases ht
  | some l =>
    rw [hl] at ht
    simp only [Bool.and_eq_true, List.all_eq_true, Bool.not_eq_true', beq_iff_eq] at ht
    have hes : es = es.dropLast ++ [l] := by
      have hne : es ≠ [] := by
        intro h0; rw [h0] at hl; cases hl
      have h1 := List.dropLast_append_getLast hne
      rw [List.getLast?_eq_getLast _ hne] at hl
      rw [← Option.some.inj hl]
      exact h1.symm
    rw [hes, run_append]
    have hb := run_index_body bus l.dir es.dropLast s
      (fun e he => by
        have := ht.2 e he
        simpa using this)
      (fun _ => by omega)
    have hs := handler_index_step bus (run bus s es.dropLast).1 l hb.1
    refine ⟨?_, ?_⟩
    · exact hs.2.1 ht.1
    · intro i hi2
      simp only [] at hi2
      rw [rx_stores_append, List.mem_append] at hi2
      rcases hi2 with h | h
      · exact hb.2 i h
      · have : (run bus (run bus s es.dropLast).1 [l]).2 =
            [(I2C_SERCOM_IRQ_HANDLER bus (run bus s es.dropLast).1 l).2] := rfl
        rw [this, rx_stores_cons] at h
        simp only [rx_stores, List.flatten_nil, List.filterMap_nil, List.append_nil] at h
        exact hs.2.2 i h

/-- Any number of transactions from byte index 0. -/
theorem run_index_transactions (bus : Bus) (txs : List (List Irq)) : ∀ (s : State),
    s.i2c_idx = 0 → (∀ t ∈ txs, is_transaction t = true) →
    (run bus s txs.flatten).1.i2c_idx = 0 ∧
    (∀ i ∈ rx_stores (run bus s txs.flatten).2, i < 2) := by
  induction txs with
  | nil => intro s hi _; exact ⟨hi, by simp [run, rx_stores]⟩
  | cons t ts ih =>
    intro s hi ht
    have h1 := run_index_transaction bus s t hi (ht t (List.mem_cons_self _ _))
    have h2 := ih (run bus s t).1 h1.1 (fun x hx => ht x (List.mem_cons_of_mem _ hx))
    rw [List.flatten_cons, run_append]
    refine ⟨h2.1, ?_⟩
    intro i hi2
    simp only [] at hi2
    rw [rx_stores_append, List.mem_append] at hi2
    rcases hi2 with h | h
    · exact h1.2 i h
    · exact h2.2 i h

theorem hostWrite_transaction (bytes : List Nat) (d : Nat) :
    is_transaction (hostWrite bytes d) = true := by
  unfold is_transaction hostWrite
  have e : ev_amatch false :: (bytes.map ev_rx ++ [ev_stop false d]) =
      (ev_amatch false :: bytes.map ev_rx) ++ [ev_stop false d] := rfl
  rw [e, List.getLast?_concat, List.dropLast_concat]
  simp [ev_amatch, ev_rx, ev_stop]

theorem hostRead_transaction (n : Nat) : is_transaction (hostRead n) = true := by
  unfold is_transaction hostRead
  have e : ev_amatch true :: (List.replicate n ev_tx ++ [ev_stop true 0]) =
      (ev_amatch true :: List.replicate n ev_tx) ++ [ev_stop true 0] := rfl
  rw [e, List.getLast?_concat, List.dropLast_concat]
  simp [ev_amatch, ev_tx, ev_stop]

theorem low_nibble_kept (x m : Nat) (hm : m &&& 0x0F = 0) :
    (((x % 256) &&& 0x0F) ||| m) &&& 0x0F = x &&& 0x0F := by
  rw [Nat.and_comm, Nat.and_or_distrib_left, Nat.and_comm 0x0F m, hm, Nat.or_zero,
    Nat.and_comm, Nat.and_assoc, Nat.and_self]
  have e : ∀ y : Nat, y &&& 0x0F = y % 16 := fun y =>
    Nat.and_pow_two_sub_one_eq_mod y 4
  rw [e, e]
  omega

/-- A property of the driver state that every driver call keeps is kept by a
polling loop. -/
theorem poll_invariant (c : Calls) (P : AD → Prop)
    (hret : ∀ ad r, P ad → P { ad with ret := r })
    (hget : ∀ reg ad v, reg = AD_reg_t.AD5933_STAT ∨ reg = AD_reg_t.AD5933_REAL ∨
      reg = AD_reg_t.AD5933_IMGY → P ad → P (c.get_bytes (AD_reg reg) ad v).2.1)
    (mask : Nat) : ∀ (fuel : Nat) (ad : AD) (sr : Nat), P ad →
      ∀ res, poll c mask fuel ad sr = some res →
        match res with
        | .returned _ a => P a
        | .left a _ => P a := by
  intro fuel
  induction fuel with
  | zero => intro ad sr _ res h; simp [poll] at h
  | succ n ih =>
    intro ad sr hp res h
    have hg := hret _ (c.get_bytes (AD_reg .AD5933_STAT) ad [sr]).1
      (hget .AD5933_STAT ad [sr] (Or.inl rfl) hp)
    simp only [poll] at h
    split at h
    · cases h; exact hg
    · split at h
      · exact ih _ _ hg res h
      · cases h; exact hg

/-- A property of the driver state that every driver call keeps is kept by
`AD_get_complex_data`. -/
theorem complex_data_invariant (c : Calls) (P : AD → Prop)
    (hret : ∀ ad r, P ad → P { ad with ret := r })
    (hpow : ∀ ad, P ad → P (c.power_mode ad POWER_STANDBY).2)
    (hctl : ∀ ad m, m = CTRL_INIT_START_FREQ ∨ m = CTRL_START_FREQ_SWEEP ∨
      m = CTRL_INCREMENT_FREQ → P ad → P (c.control_mode ad m).2)
    (hget : ∀ reg ad v, reg = AD_reg_t.AD5933_STAT ∨ reg = AD_reg_t.AD5933_REAL ∨
      reg = AD_reg_t.AD5933_IMGY → P ad → P (c.get_bytes (AD_reg reg) ad v).2.1)
    (fuel : Nat) (ad : AD) (real img : List Nat) (hp : P ad) :
    ∀ res, AD_get_complex_data_with c fuel ad real img = some res → P res.2.1 := by
  intro res h
  have h1 := hret _ (c.power_mode ad POWER_STANDBY).1 (hpow ad hp)
  simp only [AD_get_complex_data_with] at h
  split at h
  · cases h; exact h1
  · have h2 := hret _ (c.control_mode
      { (c.power_mode ad POWER_STANDBY).2 with ret := (c.power_mode ad POWER_STANDBY).1 }
      CTRL_INIT_START_FREQ).1 (hctl _ _ (Or.inl rfl) h1)
    split at h
    · cases h; exact h2
    · generalize ({ (c.control_mode
        { (c.power_mode ad POWER_STANDBY).2 with ret := (c.power_mode ad POWER_STANDBY).1 }
        CTRL_INIT_START_FREQ).2 with ret := (c.control_mode
        { (c.power_mode ad POWER_STANDBY).2 with ret := (c.power_mode ad POWER_STANDBY).1 }
        CTRL_INIT_START_FREQ).1 } : AD) = a2 at h h2
      have h3 := hret _ (c.control_mode a2 CTRL_START_FREQ_SWEEP).1
        (hctl a2 _ (Or.inr (Or.inl rfl)) h2)
      split at h
      · cases h; exact h3
      · generalize ({ (c.control_mode a2 CTRL_START_FREQ_SWEEP).2 with
          ret := (c.control_mode a2 CTRL_START_FREQ_SWEEP).1 } : AD) = a3 at h h3
        split at h
        · cases h
        · rename_i r a4 hpoll
          cases h
          exact poll_invariant c P hret hget _ _ _ _ h3 _ hpoll
        · rename_i a4 sr hpoll
          have h4 : P a4 := poll_invariant c P hret hget _ _ _ _ h3 _ hpoll
          simp only [complex_data_tail] at h
          have g1 := hret _ (c.get_bytes (AD_reg .AD5933_REAL) a4 real).1
            (hget .AD5933_REAL a4 real (Or.inr (Or.inl rfl)) h4)
          split at h
          · cases h; exact g1
          · generalize ({ (c.get_bytes (AD_reg .AD5933_REAL) a4 real).2.1 with
              ret := (c.get_bytes (AD_reg .AD5933_REAL) a4 real).1 } : AD) = a5 at h g1
            have g2 := hret _ (c.get_bytes (AD_reg .AD5933_IMGY) a5 img).1
              (hget .AD5933_IMGY a5 img (Or.inr (Or.inr rfl)) g1)
            split at h
            · cases h; exact g2
            · generalize ({ (c.get_bytes (AD_reg .AD5933_IMGY) a5 img).2.1 with
                ret := (c.get_bytes (AD_reg .AD5933_IMGY) a5 img).1 } : AD) = a6 at h g2
              have g3 := hret _ (c.control_mode a6 CTRL_INCREMENT_FREQ).1
                (hctl a6 _ (Or.inr (Or.inr rfl)) g2)
              split at h
              · cases h; exact g3
              · generalize ({ (c.control_mode a6 CTRL_INCREMENT_FREQ).2 with
                  ret := (c.control_mode a6 CTRL_INCREMENT_FREQ).1 } : AD) = a7 at h g3
                split at h
                · cases h
                · rename_i r a8 hpoll2
                  cases h
                  exact poll_invariant c P hret hget _ _ _ _ g3 _ hpoll2
                · rename_i a8 sr2 hpoll2
                  cases h
                  exact hpow a8 (poll_invariant c P hret hget _ _ _ _ g3 _ hpoll2)

/-- `AD_set_control_mode` on the register-file bus with an upper-nibble mode:
the chip stays addressed, the pointer command stays in place and the kept part
of the control register is as before; the first control byte becomes the old
low nibble with the mode. -/
theorem chip_control_mode (mem0 : Nat → Nat) (k : Nat × Nat) (ad : AD) (m : Nat)
    (hm : m &&& 0x0F = 0) (h : on_chip_with mem0 k ad) :
    on_chip_with mem0 k (AD_set_control_mode (chip_bus mem0) ad m).2 ∧
    (chip_state mem0 (AD_set_control_mode (chip_bus mem0) ad m).2.log).mem 0x80 =
      (((chip_state mem0 ad.log).mem 0x80 % 256) &&& 0x0F) ||| m := by
  obtain ⟨hptr, haddr, hk⟩ := h
  obtain ⟨ad1, e, hlog, hp1⟩ := control_mode_spec (chip_bus mem0) ad m
  rw [e]
  simp only []
  have hmem : (chip_state mem0 ad1.log).addr = AD5933_ADDR ∧
      (chip_state mem0 ad1.log).mem 0x80 =
        (((chip_state mem0 ad.log).mem 0x80 % 256) &&& 0x0F) ||| m ∧
      (chip_state mem0 ad1.log).mem 0x81 = (chip_state mem0 ad.log).mem 0x81 % 256 := by
    rw [hlog, hptr]
    simp [mode_ops, read_ops, rd_byte, chip_bus, chip_state_append, chip_step, haddr,
      AD5933_PTR, AD5933_ADDR]
  refine ⟨⟨hp1.trans hptr, hmem.1, ?_⟩, hmem.2.1⟩
  rw [← hk]
  simp only [ctrl_kept, hmem.2.1, hmem.2.2, low_nibble_kept _ m hm, Nat.mod_mod]

/-- `AD_get_bytes` on any register, on the register-file bus: the chip stays addressed, the pointer command stays in
place and the control register is as before. -/
theorem chip_get_bytes (mem0 : Nat → Nat) (k : Nat × Nat) (reg : AD_reg_t) (ad : AD)
    (v : List Nat) (h : on_chip_with mem0 k ad) :
    on_chip_with mem0 k (AD_get_bytes (chip_bus mem0) (AD_reg reg) ad v).2.1 := by
  obtain ⟨hptr, haddr, hk⟩ := h
  have hgen : ∀ n i (a : AD) (w : List Nat), a.point_addr_buf.1 = AD5933_PTR →
      (chip_state mem0 a.log).addr = AD5933_ADDR → ctrl_kept (chip_state mem0 a.log) = k →
      on_chip_with mem0 k (AD_get_bytes_loop (chip_bus mem0) (AD_reg reg) n i a w).2.1 := by
    intro n
    induction n with
    | zero => intro i a w h1 h2 h3; exact ⟨h1, h2, h3⟩
    | succ n ih =>
      intro i a w h1 h2 h3
      simp only [AD_get_bytes_loop, status_not_negative, if_false]
      apply ih
      · exact h1
      · simp [chip_state_append, chip_step, h1, h2, AD5933_PTR, AD5933_ADDR]
      · rw [← h3]
        simp [ctrl_kept, chip_state_append, chip_step, h1, h2, AD5933_PTR, AD5933_ADDR]
  exact hgen _ _ ad v hptr haddr hk

/-- `AD_scan` on any bus: the result depends only on the two bytes found after
the reads, not on the status of the transfers. -/
theorem scan_result (bus : Bus) (ad : AD) :
    (AD_scan bus ad).1 = if scan_word bus ad = 0xA000 then 0 else 1 := by
  unfold AD_scan scan_word
  simp only [AD_reg, AD_get_bytes_two, set_slaveaddr, I2C_OK]
  simp only [Nat.cast_zero, if_true, List.getD_cons_zero, List.getD_cons_succ, read_ops,
    List.append_assoc, AD5933_PTR]
  split <;> rfl

/-- What start-up leaves untouched in the variables of the host protocol and
of the schedule. -/
theorem startup_frame (code : FreqCode) (bus : Bus) (cbus : CmdBus) (s : State) :
    (main_startup code bus cbus s).cmd_chr = s.cmd_chr ∧
    (main_startup code bus cbus s).i2c_idx = s.i2c_idx ∧
    (main_startup code bus cbus s).do_imp = s.do_imp ∧
    (main_startup code bus cbus s).do_temp = s.do_temp ∧
    (main_startup code bus cbus s).req_read = s.req_read ∧
    (main_startup code bus cbus s).do_emg = s.do_emg ∧
    (main_startup code bus cbus s).emg = s.emg ∧
    (main_startup code bus cbus s).temp = s.temp := by
  have h1 : ∀ x : State, (main_seed x).cmd_chr = x.cmd_chr ∧ (main_seed x).i2c_idx = x.i2c_idx ∧
      (main_seed x).do_imp = x.do_imp ∧ (main_seed x).do_temp = x.do_temp ∧
      (main_seed x).req_read = x.req_read ∧ (main_seed x).do_emg = x.do_emg ∧
      (main_seed x).emg = x.emg ∧ (main_seed x).temp = x.temp := by
    intro x; unfold main_seed; simp only []; split <;> exact ⟨rfl, rfl, rfl, rfl, rfl, rfl, rfl, rfl⟩
  have h2 : ∀ x : State, (startup_ad code bus x).cmd_chr = x.cmd_chr ∧
      (startup_ad code bus x).i2c_idx = x.i2c_idx ∧
      (startup_ad code bus x).do_imp = x.do_imp ∧ (startup_ad code bus x).do_temp = x.do_temp ∧
      (startup_ad code bus x).req_read = x.req_read ∧
      (startup_ad code bus x).do_emg = x.do_emg ∧
      (startup_ad code bus x).emg = x.emg ∧ (startup_ad code bus x).temp = x.temp := by
    intro x; unfold startup_ad; simp only []; split
    · split <;> exact ⟨rfl, rfl, rfl, rfl, rfl, rfl, rfl, rfl⟩
    · exact ⟨rfl, rfl, rfl, rfl, rfl, rfl, rfl, rfl⟩
  have h3 : ∀ x : State, (startup_max cbus x).cmd_chr = x.cmd_chr ∧
      (startup_max cbus x).i2c_idx = x.i2c_idx ∧
      (startup_max cbus x).do_imp = x.do_imp ∧ (startup_max cbus x).do_temp = x.do_temp ∧
      (startup_max cbus x).req_read = x.req_read ∧ (startup_max cbus x).do_emg = x.do_emg ∧
      (startup_max cbus x).emg = x.emg ∧ (startup_max cbus x).temp = x.temp := by
    intro x; unfold startup_max; simp only []
    split <;> exact ⟨rfl, rfl, rfl, rfl, rfl, rfl, rfl, rfl⟩
  unfold main_startup
  have a := h1 s
  have b := h2 (main_seed s)
  have c := h3 (startup_ad code bus (main_seed s))
  refine ⟨?_, ?_, ?_, ?_, ?_, ?_, ?_, ?_⟩
  · rw [c.1, b.1, a.1]
  · rw [c.2.1, b.2.1, a.2.1]
  · rw [c.2.2.1, b.2.2.1, a.2.2.1]
  · rw [c.2.2.2.1, b.2.2.2.1, a.2.2.2.1]
  · rw [c.2.2.2.2.1, b.2.2.2.2.1, a.2.2.2.2.1]
  · rw [c.2.2.2.2.2.1, b.2.2.2.2.2.1, a.2.2.2.2.2.1]
  · rw [c.2.2.2.2.2.2.1, b.2.2.2.2.2.2.1, a.2.2.2.2.2.2.1]
  · rw [c.2.2.2.2.2.2.2, b.2.2.2.2.2.2.2, a.2.2.2.2.2.2.2]

/-- When the scan does not return `I2C_OK`, start-up leaves the impedance
subsystem disabled. -/
theorem startup_scan_failed (code : FreqCode) (bus : Bus) (cbus : CmdBus) (s : State)
    (h : (AD_scan bus s.ad).1 ≠ 0) :
    (main_startup code bus cbus s).ad5933_enabled = false := by
  have hm : ∀ x : State, (startup_max cbus x).ad5933_enabled = x.ad5933_enabled := by
    intro x; unfold startup_max; simp only []; split <;> rfl
  have hseed : (main_seed s).ad = s.ad := by
    unfold main_seed; simp only []; split <;> rfl
  unfold main_startup
  rw [hm]
  unfold startup_ad
  simp only [hseed, I2C_OK]
  rw [if_neg (by exact_mod_cast h)]
  rfl

/-- The bytes served for an EMG or TEMP read (`[0x00]` or `[0x06]`, then two
bytes) that starts with no pending command: the sample buffer named by the
command. -/
theorem sample_read_bytes (bus : Bus) (s : State) (d : Nat) (k : Cmd)
    (hk : k = .EMG ∨ k = .TEMP) (hc : s.cmd_chr = 255) (hi : s.i2c_idx = 0) :
    data_bytes (run bus s (hostWrite [k.code] d ++ hostRead 2)).2 =
      (source_bytes s k).map some := by
  rw [run_append]
  have hcode : k.code % 256 = k.code := Nat.mod_eq_of_lt (by have := code_lt k; omega)
  have hw : (run bus s (hostWrite [k.code] d)).2 =
      [[HwAct.ackact 0, HwAct.cmd 0x3, HwAct.clear_amatch],
       [HwAct.rx_store 0, HwAct.ackact 0, HwAct.cmd 0x3, HwAct.clear_drdy],
       [HwAct.clear_prec, HwAct.rx_store 1]] := by
    simp [run, hostWrite, I2C_SERCOM_IRQ_HANDLER, irq_drdy, irq_prec, ev_amatch, ev_rx, ev_stop,
      hi, RX_BUFFER_LEN]
  have hs1 := run_write_one_fresh bus s k.code d hi hc
  rw [hcode] at hs1
  obtain ⟨p, ht⟩ : ∃ p, response_source k = some (p, 2) := by
    rcases hk with rfl | rfl
    · exact ⟨_, rfl⟩
    · exact ⟨_, rfl⟩
  have hset : k.isSetter = false := by
    rcases hk with rfl | rfl <;> rfl
  have hg := process_getter { s with rx_buffer := (k.code, d % 256), cmd_chr := k.code }
    k p 2 rfl ht
  rw [← hs1] at hg
  generalize (run bus s (hostWrite [k.code] d)).1 = s1 at hs1 hg ⊢
  have h1i : s1.i2c_idx = 0 := by
    rw [hs1, process_keeps_idx]; exact hi
  have htr := run_read_trace bus s1 2 h1i hg.2.1 (by omega)
  rw [hg.1] at htr
  have hb := hg.2.2.1 hset
  rw [source_bytes_frame] at hb
  show data_bytes ((run bus s (hostWrite [k.code] d)).2 ++ (run bus s1 (hostRead 2)).2) = _
  rw [hw, htr, ← hb]
  rfl

theorem tick_pre_periods (s : State) :
    periods (tick_led2 (tick_led1 (tick_led0 (tick_count s)))) = periods s := by
  have c : periods (tick_count s) = periods s := by
    unfold tick_count; simp only []; split <;> split <;> rfl
  have l0 : ∀ y, periods (tick_led0 y) = periods y := by
    intro y; unfold tick_led0; split <;> rfl
  have l1 : ∀ y, periods (tick_led1 y) = periods y := by
    intro y; unfold tick_led1; split <;> rfl
  have l2 : ∀ y, periods (tick_led2 y) = periods y := by
    intro y; unfold tick_led2; split <;> rfl
  rw [l2, l1, l0, c]

/-- A tick with an impedance period of 0 or a temperature period of 0 divides
by zero. -/
theorem tick_zero_period (s : State) (h : s.imp_period_ms = 0 ∨ s.temp_period_ms = 0) :
    SysTick_Handler s = none := by
  have hp := tick_pre_periods s
  unfold SysTick_Handler
  generalize tick_led2 (tick_led1 (tick_led0 (tick_count s))) = a at hp
  simp only [periods, Prod.mk.injEq] at hp
  rcases h with h | h
  · have ha : a.imp_period_ms = 0 := hp.2.1.trans h
    simp [tick_imp, ha]
  · have ha : a.temp_period_ms = 0 := hp.2.2.trans h
    unfold tick_imp
    split
    · rfl
    · split <;> simp [tick_temp, ha]

/-- State after a period command followed by the value 0. -/
theorem run_period_zero (bus : Bus) (s : State) (d : Nat) (hc : s.cmd_chr = 255)
    (hi : s.i2c_idx = 0) :
    (run bus s (hostWrite [0x08] d ++ hostWrite [0, 0] 0)).1.imp_period_ms = 0 ∧
    (run bus s (hostWrite [0x09] d ++ hostWrite [0, 0] 0)).1.temp_period_ms = 0 := by
  constructor
  · rw [run_append_state, run_write_one_fresh bus s 0x08 d hi hc,
      run_write_two_pending bus _ 0 0 0 (by rw [process_keeps_idx]; exact hi)
        (by rw [process_keeps_cmd]; exact (by decide : (0x08 % 256 : Nat) ≠ 255))]
    simp [irq_set_value, process_keeps_cmd, Cmd.ofByte, set_cmd_chr]
  · rw [run_append_state, run_write_one_fresh bus s 0x09 d hi hc,
      run_write_two_pending bus _ 0 0 0 (by rw [process_keeps_idx]; exact hi)
        (by rw [process_keeps_cmd]; exact (by decide : (0x09 % 256 : Nat) ≠ 255))]
    simp [irq_set_value, process_keeps_cmd, Cmd.ofByte, set_cmd_chr]

/-- What the sweeps leave untouched in the switch levels. -/
theorem sweep_switches (bus : Bus) (fuel tries : Nat) (s t : State) :
    (imp_pass_sweep1 bus fuel tries s = some t → switches t = (true, false, true, true)) ∧
    (imp_pass_sweep2 bus fuel tries s = some t → switches t = (false, true, true, false)) ∧
    (req_pass_sweep1 bus fuel tries s = some t → switches t = (true, true, true, true)) ∧
    (req_pass_sweep2 bus fuel tries s = some t → switches t = (true, true, true, false)) := by
  refine ⟨?_, ?_, ?_, ?_⟩ <;> intro h
  · unfold imp_pass_sweep1 at h
    simp only [Option.map_eq_some'] at h
    obtain ⟨r, _, rfl⟩ := h
    rfl
  · unfold imp_pass_sweep2 at h
    simp only [Option.map_eq_some'] at h
    obtain ⟨r, _, rfl⟩ := h
    rfl
  · unfold req_pass_sweep1 at h
    simp only [Option.map_eq_some'] at h
    obtain ⟨r, _, rfl⟩ := h
    rfl
  · unfold req_pass_sweep2 at h
    simp only [Option.map_eq_some'] at h
    obtain ⟨r, _, rfl⟩ := h
    rfl

/-- On a bus whose every transfer fails and whose reads find 0, a polling
loop for a non-empty mask never ends. -/
theorem poll_dead (mask : Nat) (hm : mask ≠ 0) : ∀ (fuel : Nat) (ad : AD) (sr : Nat),
    poll (driver dead_bus) mask fuel ad sr = none := by
  intro fuel
  induction fuel with
  | zero => intro ad sr; rfl
  | succ n ih =>
    intro ad sr
    simp only [poll, driver, AD_reg, AD_get_bytes_one]
    have h0 : rd_byte dead_bus (ad.log ++ [BusOp.write [ad.point_addr_buf.1, 0x8F % 256]]) = 0 :=
      rfl
    simp only [h0, List.getD_cons_zero, Nat.zero_and, I2C_OK]
    rw [if_neg (by simp), if_pos (fun h => hm h.symm)]
    exact ih _ _

/-- On such a bus `AD_get_complex_data` never returns, whatever the fuel. -/
theorem complex_data_dead (fuel : Nat) (ad : AD) (real img : List Nat) :
    AD_get_complex_data dead_bus fuel ad real img = none := by
  unfold AD_get_complex_data AD_get_complex_data_with
  simp only [driver_power_mode, driver_control_mode, power_standby]
  obtain ⟨a1, e1, _, _⟩ := control_mode_spec dead_bus ad CTRL_STANDBY_MODE
  simp only [e1, I2C_OK]
  obtain ⟨a2, e2, _, _⟩ := control_mode_spec dead_bus { a1 with ret := 0 } CTRL_INIT_START_FREQ
  simp only [e2]
  obtain ⟨a3, e3, _, _⟩ := control_mode_spec dead_bus { a2 with ret := 0 } CTRL_START_FREQ_SWEEP
  simp only [e3]
  simp [poll_dead STATUS_DATA_VALID (by decide)]

/-- On such a bus an impedance pass that is due never ends: the main loop
does not complete its iteration. -/
theorem main_loop_dead (cbus : CmdBus) (fuel tries : Nat) (adc : Nat × Nat) (s : State)
    (h : s.do_imp = true) :
    main_loop_pass dead_bus cbus fuel tries adc s = none := by
  have hs : ∀ (n : Nat) (ad : AD) (real img : List Nat), sweep dead_bus fuel n ad real img = none := by
    intro n
    cases n with
    | zero => intro ad real img; rfl
    | succ n => intro ad real img; simp [sweep, complex_data_dead]
  have he : (main_do_emg adc s).do_imp = true := by
    unfold main_do_emg; split <;> exact h
  unfold main_loop_pass main_do_imp
  rw [if_pos he]
  simp [imp_pass_sweep1, hs]

/-- `AD_set_bytes` on a three-byte register, on any bus: the three writes, in
order, and the result `I2C_OK`. -/
theorem AD_set_bytes_three (bus : Bus) (a : Nat) (ad : AD) (v0 v1 v2 : Nat) :
    (AD_set_bytes bus ⟨a, 3⟩ ad [v0, v1, v2]).1 = 0 ∧
    (AD_set_bytes bus ⟨a, 3⟩ ad [v0, v1, v2]).2.log =
      ad.log ++ [BusOp.write [a % 256, v0], BusOp.write [(a + 1) % 256, v1],
        BusOp.write [(a + 2) % 256, v2]] ∧
    (AD_set_bytes bus ⟨a, 3⟩ ad [v0, v1, v2]).2.point_addr_buf = ad.point_addr_buf := by
  simp [AD_set_bytes, AD_set_bytes_loop, status_not_negative, toU8, I2C_OK]

/-- `AD_get_bytes` on a three-byte register, on any bus: three pointer writes
each followed by a read, and the bytes returned are those the three reads
delivered. -/
theorem AD_get_bytes_three (bus : Bus) (a : Nat) (ad : AD) (x0 x1 x2 : Nat) :
    (AD_get_bytes bus ⟨a, 3⟩ ad [x0, x1, x2]).1 = 0 ∧
    (AD_get_bytes bus ⟨a, 3⟩ ad [x0, x1, x2]).2.1.log =
      ad.log ++ read_ops ad.point_addr_buf.1 (a % 256) ++
        read_ops ad.point_addr_buf.1 ((a + 1) % 256) ++
        read_ops ad.point_addr_buf.1 ((a + 2) % 256) ∧
    (AD_get_bytes bus ⟨a, 3⟩ ad [x0, x1, x2]).2.1.point_addr_buf.1 = ad.point_addr_buf.1 ∧
    (AD_get_bytes bus ⟨a, 3⟩ ad [x0, x1, x2]).2.2 =
      [rd_byte bus (ad.log ++ [BusOp.write [ad.point_addr_buf.1, a % 256]]),
       rd_byte bus (ad.log ++ read_ops ad.point_addr_buf.1 (a % 256) ++
         [BusOp.write [ad.point_addr_buf.1, (a + 1) % 256]]),
       rd_byte bus (ad.log ++ read_ops ad.point_addr_buf.1 (a % 256) ++
         read_ops ad.point_addr_buf.1 ((a + 1) % 256) ++
         [BusOp.write [ad.point_addr_buf.1, (a + 2) % 256]])] := by
  simp [AD_get_bytes, AD_get_bytes_loop, status_not_negative, toU8, I2C_OK, read_ops, rd_byte]

/-- On the register-file bus, with the impedance chip addressed: three
two-byte writes to registers below the pointer command code store their
bytes. -/
theorem chip_write_three (mem0 : Nat → Nat) (h : List BusOp) (a v0 v1 v2 : Nat)
    (haddr : (chip_state mem0 h).addr = AD5933_ADDR) (ha : a + 2 < AD5933_PTR) :
    (chip_state mem0 (h ++ [BusOp.write [a, v0], BusOp.write [a + 1, v1],
      BusOp.write [a + 2, v2]])).addr = AD5933_ADDR ∧
    (chip_state mem0 (h ++ [BusOp.write [a, v0], BusOp.write [a + 1, v1],
      BusOp.write [a + 2, v2]])).mem a = v0 ∧
    (chip_state mem0 (h ++ [BusOp.write [a, v0], BusOp.write [a + 1, v1],
      BusOp.write [a + 2, v2]])).mem (a + 1) = v1 ∧
    (chip_state mem0 (h ++ [BusOp.write [a, v0], BusOp.write [a + 1, v1],
      BusOp.write [a + 2, v2]])).mem (a + 2) = v2 := by
  unfold AD5933_PTR at ha
  have n0 : a ≠ 176 := by omega
  have n1 : a + 1 ≠ 176 := by omega
  have n2 : a + 2 ≠ 176 := by omega
  simp [chip_state_append, chip_step, haddr, AD5933_PTR, AD5933_ADDR, n0, n1, n2]

/-- On the register-file bus, with the impedance chip addressed: the three
reads of `AD_get_bytes` on a three-byte register leave the registers alone and
deliver their contents. -/
theorem chip_read_three (mem0 : Nat → Nat) (h : List BusOp) (a : Nat)
    (haddr : (chip_state mem0 h).addr = AD5933_ADDR) :
    rd_byte (chip_bus mem0) (h ++ [BusOp.write [AD5933_PTR, a]]) =
      (chip_state mem0 h).mem a % 256 ∧
    rd_byte (chip_bus mem0) (h ++ read_ops AD5933_PTR a ++
      [BusOp.write [AD5933_PTR, a + 1]]) = (chip_state mem0 h).mem (a + 1) % 256 ∧
    rd_byte (chip_bus mem0) (h ++ read_ops AD5933_PTR a ++ read_ops AD5933_PTR (a + 1) ++
      [BusOp.write [AD5933_PTR, a + 2]]) = (chip_state mem0 h).mem (a + 2) % 256 ∧
    (chip_state mem0 (h ++ read_ops AD5933_PTR a ++ read_ops AD5933_PTR (a + 1) ++
      read_ops AD5933_PTR (a + 2))).addr = AD5933_ADDR ∧
    (chip_state mem0 (h ++ read_ops AD5933_PTR a ++ read_ops AD5933_PTR (a + 1) ++
      read_ops AD5933_PTR (a + 2))).mem = (chip_state mem0 h).mem := by
  simp [rd_byte, chip_bus, read_ops, chip_state_append, chip_step, haddr, AD5933_PTR,
    AD5933_ADDR]

/-- Writing a three-byte register and reading it back on the register-file
bus, in full: the operations, the registers afterwards, the bytes the reads
deliver, and what a further read of the register returns. -/
theorem chip_set_get_three (mem0 : Nat → Nat) (a : Nat) (ad : AD) (v0 v1 v2 : Nat)
    (hptr : ad.point_addr_buf.1 = AD5933_PTR)
    (haddr : (chip_state mem0 ad.log).addr = AD5933_ADDR)
    (ha : a + 2 < AD5933_PTR) (h0 : v0 < 256) (h1 : v1 < 256) (h2 : v2 < 256) :
    (AD_set_bytes (chip_bus mem0) ⟨a, 3⟩ ad [v0, v1, v2]).2.log =
      ad.log ++ [BusOp.write [a, v0], BusOp.write [a + 1, v1], BusOp.write [a + 2, v2]] ∧
    [(chip_state mem0 (AD_set_bytes (chip_bus mem0) ⟨a, 3⟩ ad [v0, v1, v2]).2.log).mem a,
     (chip_state mem0 (AD_set_bytes (chip_bus mem0) ⟨a, 3⟩ ad [v0, v1, v2]).2.log).mem (a + 1),
     (chip_state mem0 (AD_set_bytes (chip_bus mem0) ⟨a, 3⟩ ad [v0, v1, v2]).2.log).mem (a + 2)]
      = [v0, v1, v2] ∧
    (∀ x0 x1 x2,
      (AD_get_bytes (chip_bus mem0) ⟨a, 3⟩
        (AD_set_bytes (chip_bus mem0) ⟨a, 3⟩ ad [v0, v1, v2]).2 [x0, x1, x2]).2.1.log =
        ad.log ++ [BusOp.write [a, v0], BusOp.write [a + 1, v1], BusOp.write [a + 2, v2]] ++
          read_ops AD5933_PTR a ++ read_ops AD5933_PTR (a + 1) ++ read_ops AD5933_PTR (a + 2) ∧
      (AD_get_bytes (chip_bus mem0) ⟨a, 3⟩
        (AD_set_bytes (chip_bus mem0) ⟨a, 3⟩ ad [v0, v1, v2]).2 [x0, x1, x2]).2.2 =
        [rd_byte (chip_bus mem0) (ad.log ++ [BusOp.write [a, v0], BusOp.write [a + 1, v1],
            BusOp.write [a + 2, v2]] ++ [BusOp.write [AD5933_PTR, a]]),
         rd_byte (chip_bus mem0) (ad.log ++ [BusOp.write [a, v0], BusOp.write [a + 1, v1],
            BusOp.write [a + 2, v2]] ++ read_ops AD5933_PTR a ++
            [BusOp.write [AD5933_PTR, a + 1]]),
         rd_byte (chip_bus mem0) (ad.log ++ [BusOp.write [a, v0], BusOp.write [a + 1, v1],
            BusOp.write [a + 2, v2]] ++ read_ops AD5933_PTR a ++ read_ops AD5933_PTR (a + 1) ++
            [BusOp.write [AD5933_PTR, a + 2]])] ∧
      [(chip_state mem0 (AD_get_bytes (chip_bus mem0) ⟨a, 3⟩
          (AD_set_bytes (chip_bus mem0) ⟨a, 3⟩ ad [v0, v1, v2]).2 [x0, x1, x2]).2.1.log).mem a,
       (chip_state mem0 (AD_get_bytes (chip_bus mem0) ⟨a, 3⟩
          (AD_set_bytes (chip_bus mem0) ⟨a, 3⟩ ad [v0, v1, v2]).2 [x0, x1, x2]).2.1.log).mem
            (a + 1),
       (chip_state mem0 (AD_get_bytes (chip_bus mem0) ⟨a, 3⟩
          (AD_set_bytes (chip_bus mem0) ⟨a, 3⟩ ad [v0, v1, v2]).2 [x0, x1, x2]).2.1.log).mem
            (a + 2)] = [v0, v1, v2] ∧
      ∀ y0 y1 y2,
        (AD_get_bytes (chip_bus mem0) ⟨a, 3⟩
          (AD_get_bytes (chip_bus mem0) ⟨a, 3⟩
            (AD_set_bytes (chip_bus mem0) ⟨a, 3⟩ ad [v0, v1, v2]).2 [x0, x1, x2]).2.1
          [y0, y1, y2]).2.2 = [v0, v1, v2]) := by
  have hA : a + 2 < 176 := ha
  have m0 : a % 256 = a := Nat.mod_eq_of_lt (by omega)
  have m1 : (a + 1) % 256 = a + 1 := Nat.mod_eq_of_lt (by omega)
  have m2 : (a + 2) % 256 = a + 2 := Nat.mod_eq_of_lt (by omega)
  have hw := AD_set_bytes_three (chip_bus mem0) a ad v0 v1 v2
  rw [m0, m1, m2] at hw
  have hc := chip_write_three mem0 ad.log a v0 v1 v2 haddr ha
  have hwp : (AD_set_bytes (chip_bus mem0) ⟨a, 3⟩ ad [v0, v1, v2]).2.point_addr_buf.1 =
      AD5933_PTR := by rw [hw.2.2]; exact hptr
  refine ⟨hw.2.1, ?_, ?_⟩
  · rw [hw.2.1, hc.2.1, hc.2.2.1, hc.2.2.2]
  · intro x0 x1 x2
    have hg := AD_get_bytes_three (chip_bus mem0) a
      (AD_set_bytes (chip_bus mem0) ⟨a, 3⟩ ad [v0, v1, v2]).2 x0 x1 x2
    rw [m0, m1, m2, hwp, hw.2.1] at hg
    have hr := chip_read_three mem0 (ad.log ++ [BusOp.write [a, v0], BusOp.write [a + 1, v1],
      BusOp.write [a + 2, v2]]) a hc.1
    refine ⟨hg.2.1, hg.2.2.2, ?_, ?_⟩
    · rw [hg.2.1, hr.2.2.2.2, hc.2.1, hc.2.2.1, hc.2.2.2]
    · intro y0 y1 y2
      have hg2 := AD_get_bytes_three (chip_bus mem0) a
        (AD_get_bytes (chip_bus mem0) ⟨a, 3⟩
          (AD_set_bytes (chip_bus mem0) ⟨a, 3⟩ ad [v0, v1, v2]).2 [x0, x1, x2]).2.1 y0 y1 y2
      rw [m0, m1, m2, hg.2.2.1, hg.2.1] at hg2
      have hr2 := chip_read_three mem0 (ad.log ++ [BusOp.write [a, v0], BusOp.write [a + 1, v1],
        BusOp.write [a + 2, v2]] ++ read_ops AD5933_PTR a ++ read_ops AD5933_PTR (a + 1) ++
        read_ops AD5933_PTR (a + 2)) a hr.2.2.2.1
      rw [hg2.2.2.2, hr2.1, hr2.2.1, hr2.2.2.1, hr.2.2.2.2, hc.2.1, hc.2.2.1, hc.2.2.2,
        Nat.mod_eq_of_lt h0, Nat.mod_eq_of_lt h1, Nat.mod_eq_of_lt h2]

/-- The abort branches of `AD_get_complex_data` over given driver calls: for
every step that touches the bus, if the step's driver call returns a status `s` different from `I2C_OK`, the function
returns `s` with the driver state as that call has left it, so that no bus
operation follows, the final standby included. The steps are, in order: the
initial standby, the two control-mode commands that start the sweep, each
status read of the first polling loop, the read of the real and of the
imaginary result, the increment command, and each status read of the second
polling loop. A polling loop whose status read returns `I2C_OK` without the
awaited bit goes on as the same loop from the state that read has left, so the
statement on a status read holds at every iteration. The driver calls are
taken as given functions. -/
theorem abort_branches_over_calls (c : Calls) (fuel : Nat) (ad : AD) (real img : List Nat)
    (s : Nat) (hs : (s : Int) ≠ I2C_OK) :
    (∀ a, c.power_mode ad POWER_STANDBY = (s, a) →
      AD_get_complex_data_with c fuel ad real img = some (s, { a with ret := s }, real, img)) ∧
    (∀ a1 a, c.power_mode ad POWER_STANDBY = (0, a1) →
      c.control_mode { a1 with ret := 0 } CTRL_INIT_START_FREQ = (s, a) →
      AD_get_complex_data_with c fuel ad real img = some (s, { a with ret := s }, real, img)) ∧
    (∀ a1 a2 a, c.power_mode ad POWER_STANDBY = (0, a1) →
      c.control_mode { a1 with ret := 0 } CTRL_INIT_START_FREQ = (0, a2) →
      c.control_mode { a2 with ret := 0 } CTRL_START_FREQ_SWEEP = (s, a) →
      AD_get_complex_data_with c fuel ad real img = some (s, { a with ret := s }, real, img)) ∧
    (∀ mask n adp sr a v, c.get_bytes (AD_reg .AD5933_STAT) adp [sr] = (s, a, v) →
      poll c mask (n + 1) adp sr = some (.returned s { a with ret := s })) ∧
    (∀ mask n adp sr a v, c.get_bytes (AD_reg .AD5933_STAT) adp [sr] = (0, a, v) →
      (v.getD 0 sr &&& mask) ≠ mask →
      poll c mask (n + 1) adp sr = poll c mask n { a with ret := 0 } (v.getD 0 sr)) ∧
    (∀ a1 a2 a3 r a, c.power_mode ad POWER_STANDBY = (0, a1) →
      c.control_mode { a1 with ret := 0 } CTRL_INIT_START_FREQ = (0, a2) →
      c.control_mode { a2 with ret := 0 } CTRL_START_FREQ_SWEEP = (0, a3) →
      poll c STATUS_DATA_VALID fuel { a3 with ret := 0 } 0 = some (.returned r a) →
      AD_get_complex_data_with c fuel ad real img = some (r, a, real, img)) ∧
    (∀ a1 a2 a3 a4 sr, c.power_mode ad POWER_STANDBY = (0, a1) →
      c.control_mode { a1 with ret := 0 } CTRL_INIT_START_FREQ = (0, a2) →
      c.control_mode { a2 with ret := 0 } CTRL_START_FREQ_SWEEP = (0, a3) →
      poll c STATUS_DATA_VALID fuel { a3 with ret := 0 } 0 = some (.left a4 sr) →
      AD_get_complex_data_with c fuel ad real img = complex_data_tail c fuel a4 sr real img) ∧
    (∀ adp sr a v, c.get_bytes (AD_reg .AD5933_REAL) adp real = (s, a, v) →
      complex_data_tail c fuel adp sr real img = some (s, { a with ret := s }, v, img)) ∧
    (∀ adp sr a1 v1 a v, c.get_bytes (AD_reg .AD5933_REAL) adp real = (0, a1, v1) →
      c.get_bytes (AD_reg .AD5933_IMGY) { a1 with ret := 0 } img = (s, a, v) →
      complex_data_tail c fuel adp sr real img = some (s, { a with ret := s }, v1, v)) ∧
    (∀ adp sr a1 v1 a2 v2 a, c.get_bytes (AD_reg .AD5933_REAL) adp real = (0, a1, v1) →
      c.get_bytes (AD_reg .AD5933_IMGY) { a1 with ret := 0 } img = (0, a2, v2) →
      c.control_mode { a2 with ret := 0 } CTRL_INCREMENT_FREQ = (s, a) →
      complex_data_tail c fuel adp sr real img = some (s, { a with ret := s }, v1, v2)) ∧
    (∀ adp sr a1 v1 a2 v2 a3 r a, c.get_bytes (AD_reg .AD5933_REAL) adp real = (0, a1, v1) →
      c.get_bytes (AD_reg .AD5933_IMGY) { a1 with ret := 0 } img = (0, a2, v2) →
      c.control_mode { a2 with ret := 0 } CTRL_INCREMENT_FREQ = (0, a3) →
      poll c STATUS_SWEEP_DONE fuel { a3 with ret := 0 } sr = some (.returned r a) →
      complex_data_tail c fuel adp sr real img = some (r, a, v1, v2)) := by
  have hs0 : ¬ (s : Int) = 0 := hs
  refine ⟨?_, ?_, ?_, ?_, ?_, ?_, ?_, ?_, ?_, ?_, ?_⟩
  · intro a h
    simp [AD_get_complex_data_with, h, I2C_OK, hs0]
  · intro a1 a h1 h
    simp [AD_get_complex_data_with, h1, h, I2C_OK, hs0]
  · intro a1 a2 a h1 h2 h
    simp [AD_get_complex_data_with, h1, h2, h, I2C_OK, hs0]
  · intro mask n adp sr a v h
    simp [poll, h, I2C_OK, hs0]
  · intro mask n adp sr a v h hm
    simp only [poll, h, I2C_OK]
    rw [if_neg (by simp), if_pos hm]
  · intro a1 a2 a3 r a h1 h2 h3 h
    simp [AD_get_complex_data_with, h1, h2, h3, h, I2C_OK]
  · intro a1 a2 a3 a4 sr h1 h2 h3 h
    simp [AD_get_complex_data_with, h1, h2, h3, h, I2C_OK]
  · intro adp sr a v h
    simp [complex_data_tail, h, I2C_OK, hs0]
  · intro adp sr a1 v1 a v h1 h
    simp [complex_data_tail, h1, h, I2C_OK, hs0]
  · intro adp sr a1 v1 a2 v2 a h1 h2 h
    simp [complex_data_tail, h1, h2, h, I2C_OK, hs0]
  · intro adp sr a1 v1 a2 v2 a3 r a h1 h2 h3 h
    simp [complex_data_tail, h1, h2, h3, h, I2C_OK]

/-! ## The claims -/

/-- C1 as stated fails: after the one-byte write `[0x00]` (EMG, the read being
skipped) the command is still pending, and the following write `[0x0B]`
(READ_RDY) is not dispatched: the transmit source is still the EMG buffer with
length 2, where a dispatch of READ_RDY selects the readiness flag, length 1. -/
theorem C1_counterexample :
    (main_seed power_on).cmd_chr = 255 ∧
    (run quiet_bus (main_seed power_on) (hostWrite [0] 0)).1.cmd_chr = 0 ∧
    (run quiet_bus (main_seed power_on) (hostWrite [0] 0 ++ hostWrite [11] 0)).1.tx_buffer
      = ⟨.emg, 0⟩ ∧
    (run quiet_bus (main_seed power_on) (hostWrite [0] 0 ++ hostWrite [11] 0)).1.tx_buffer_len
      = 2 ∧
    (i2c_process_cmd_chr (set_cmd_chr (main_seed power_on) 11)).tx_buffer = ⟨.read_rdy, 0⟩ ∧
    (i2c_process_cmd_chr (set_cmd_chr (main_seed power_on) 11)).tx_buffer_len = 1 := by
  decide

/-- C1, amended: for a command that only selects a transmit source (EMG, the
four impedance parts, IMP_ALL, TEMP, READ_RDY), written while no command is
pending, the command stays pending after its write transaction closes. It is
reset to none when the next transaction closes: a host read of any length
changes nothing else; a host write `[c2]` is consumed as a value for the
pending command and ignored (only the receive buffer changes), it is not
dispatched. A host write after that one is dispatched by
`i2c_process_cmd_chr` as a new command. -/
theorem C1_pending_until_next_close (bus : Bus) (s : State) (k : Cmd) (c2 d1 d2 : Nat)
    (hk : k ∈ [Cmd.EMG, .IMP_1_REAL, .IMP_1_IMG, .IMP_2_REAL, .IMP_2_IMG, .IMP_ALL, .TEMP,
      .READ_RDY])
    (hnone : s.cmd_chr = 255) (hidx : s.i2c_idx = 0) :
    (run bus s (hostWrite [k.code] d1)).1.cmd_chr = k.code ∧
    (∀ n, (run bus (run bus s (hostWrite [k.code] d1)).1 (hostRead n)).1 =
      set_cmd_chr (run bus s (hostWrite [k.code] d1)).1 255) ∧
    (run bus (run bus s (hostWrite [k.code] d1)).1 (hostWrite [c2] d2)).1 =
      set_cmd_chr { (run bus s (hostWrite [k.code] d1)).1 with
        rx_buffer := (c2 % 256, d2 % 256) } 255 ∧
    (∀ c3 d3,
      (run bus (run bus (run bus s (hostWrite [k.code] d1)).1 (hostWrite [c2] d2)).1
          (hostWrite [c3] d3)).1 =
        i2c_process_cmd_chr
          { (run bus (run bus s (hostWrite [k.code] d1)).1 (hostWrite [c2] d2)).1 with
            rx_buffer := (c3 % 256, d3 % 256), cmd_chr := c3 % 256 }) := by
  have hcode : k.code % 256 = k.code := Nat.mod_eq_of_lt (by have := code_lt k; omega)
  have hs1 := run_write_one_fresh bus s k.code d1 hidx hnone
  generalize (run bus s (hostWrite [k.code] d1)).1 = s1 at hs1 ⊢
  have h1c : s1.cmd_chr = k.code := by
    rw [hs1, process_keeps_cmd]; exact hcode
  have h1i : s1.i2c_idx = 0 := by
    rw [hs1, process_keeps_idx]; exact hidx
  have hne : s1.cmd_chr ≠ 255 := by
    rw [h1c]; have := code_lt k; omega
  have hset : k.isSetter = false := by
    simp only [List.mem_cons, List.mem_singleton, List.not_mem_nil, or_false] at hk
    rcases hk with h | h | h | h | h | h | h | h <;> subst h <;> rfl
  have hs2 : (run bus s1 (hostWrite [c2] d2)).1 =
      set_cmd_chr { s1 with rx_buffer := (c2 % 256, d2 % 256) } 255 := by
    rw [run_write_one_pending bus s1 c2 d2 h1i hne]
    exact set_value_non_setter bus _ k h1c hset
  refine ⟨h1c, ?_, hs2, ?_⟩
  · intro n
    rw [run_read_state]
    show set_i2c_idx (set_cmd_chr s1 255) 0 = set_cmd_chr s1 255
    exact idx_eta _ h1i
  · intro c3 d3
    rw [hs2]
    exact run_write_one_fresh bus _ c3 d3 h1i rfl

/-- Witness of `C1_pending_until_next_close`: EMG written at start-up. -/
theorem C1_pending_until_next_close_witness :
    (run quiet_bus (main_seed power_on) (hostWrite [Cmd.EMG.code] 0)).1.cmd_chr = Cmd.EMG.code :=
  (C1_pending_until_next_close quiet_bus (main_seed power_on) .EMG 11 0 0
    (by decide) (by decide) (by decide)).1

/-- C2: for every store state and every command with a response,
`i2c_process_cmd_chr` selects the transmit source and length of the protocol
table; for a result command and for READ_RDY the bytes at the selected source
are the bytes of the named buffer of the same store state (for IMP_ALL the
eight bytes `imp_1_real ++ imp_1_img ++ imp_2_real ++ imp_2_img`); EMG raises
`do_emg`, IMP_ALL clears readiness; no sample buffer and no period value is
modified. -/
theorem C2_dispatch_table (s : State) (k : Cmd) (p : Ptr) (n : Nat)
    (hc : s.cmd_chr = k.code) (ht : response_source k = some (p, n)) :
    (i2c_process_cmd_chr s).tx_buffer = p ∧
    (i2c_process_cmd_chr s).tx_buffer_len = n ∧
    (k.isSetter = false →
      (List.range n).map (deref (i2c_process_cmd_chr s) p) = (source_bytes s k).map some) ∧
    (k = .EMG → (i2c_process_cmd_chr s).do_emg = true) ∧
    (k = .IMP_ALL → (i2c_process_cmd_chr s).read_rdy = 0) ∧
    (i2c_process_cmd_chr s).emg = s.emg ∧
    (i2c_process_cmd_chr s).imp_1_real = s.imp_1_real ∧
    (i2c_process_cmd_chr s).imp_1_img = s.imp_1_img ∧
    (i2c_process_cmd_chr s).imp_2_real = s.imp_2_real ∧
    (i2c_process_cmd_chr s).imp_2_img = s.imp_2_img ∧
    (i2c_process_cmd_chr s).temp = s.temp ∧
    (i2c_process_cmd_chr s).emg_period_us = s.emg_period_us ∧
    (i2c_process_cmd_chr s).imp_period_ms = s.imp_period_ms ∧
    (i2c_process_cmd_chr s).temp_period_ms = s.temp_period_ms := by
  unfold i2c_process_cmd_chr
  rw [hc, ofByte_code]
  cases k <;> simp [response_source] at ht <;> obtain ⟨rfl, rfl⟩ := ht <;>
    simp [deref, regionBytes, imp_all, source_bytes, List.range, List.range.loop, Cmd.isSetter]

/-- Witness of `C2_dispatch_table`: IMP_ALL at start-up selects the eight
impedance bytes. -/
theorem C2_dispatch_table_witness :
    (i2c_process_cmd_chr (set_cmd_chr (main_seed power_on) 5)).tx_buffer = ⟨.imp, 0⟩ ∧
    (i2c_process_cmd_chr (set_cmd_chr (main_seed power_on) 5)).tx_buffer_len = 8 :=
  ⟨(C2_dispatch_table (set_cmd_chr (main_seed power_on) 5) .IMP_ALL ⟨.imp, 0⟩ 8 rfl rfl).1,
   (C2_dispatch_table (set_cmd_chr (main_seed power_on) 5) .IMP_ALL ⟨.imp, 0⟩ 8 rfl rfl).2.1⟩

/-- C3: for every command with a response of length `n` and every store
state, starting with no pending command and byte index 0: after the host has
written the command byte, a host read of exactly `n` bytes makes the handler
put the bytes 0, 1, ..., `n - 1` of the selected source into `DATA`, in this
order and each inside the selected object; the "last byte" command 2 is issued
on byte `n - 1` and command 3 on every earlier byte; after the stop the byte
index is 0 and no command is pending. For a result command the bytes are the
named sample buffer as the store holds it, so `[0x00]` followed by a two-byte
read returns `emg[0]`, `emg[1]`. -/
theorem C3_getter_read (bus : Bus) (s : State) (k : Cmd) (p : Ptr) (n d : Nat)
    (hnone : s.cmd_chr = 255) (hidx : s.i2c_idx = 0)
    (hbuf : s.temporary_buffer.length = TX_BUFFER_MAX_LEN)
    (ht : response_source k = some (p, n)) :
    (run bus (run bus s (hostWrite [k.code] d)).1 (hostRead n)).2 =
      [HwAct.ackact 0, HwAct.cmd 0x3, HwAct.clear_amatch] ::
        ((List.range n).map (fun i =>
          [HwAct.data (deref (run bus s (hostWrite [k.code] d)).1 p i),
           HwAct.cmd (if i + 1 = n then 2 else 3), HwAct.clear_drdy])
        ++ [[HwAct.clear_prec]]) ∧
    (∀ i, i < n → ∃ b, deref (run bus s (hostWrite [k.code] d)).1 p i = some b) ∧
    (k.isSetter = false →
      (List.range n).map (deref (run bus s (hostWrite [k.code] d)).1 p) =
        (source_bytes s k).map some) ∧
    (run bus (run bus s (hostWrite [k.code] d)).1 (hostRead n)).1.i2c_idx = 0 ∧
    (run bus (run bus s (hostWrite [k.code] d)).1 (hostRead n)).1.cmd_chr = 255 := by
  have hcode : k.code % 256 = k.code := Nat.mod_eq_of_lt (by have := code_lt k; omega)
  have hs1 := run_write_one_fresh bus s k.code d hidx hnone
  rw [hcode] at hs1
  generalize (run bus s (hostWrite [k.code] d)).1 = s1 at hs1 ⊢
  have hg := process_getter { s with rx_buffer := (k.code, d % 256), cmd_chr := k.code } k p n
    rfl ht
  rw [← hs1] at hg
  have hb := process_in_bounds { s with rx_buffer := (k.code, d % 256), cmd_chr := k.code }
    k p n rfl ht hbuf
  rw [← hs1] at hb
  have h1i : s1.i2c_idx = 0 := by
    rw [hs1, process_keeps_idx]; exact hidx
  have htr := run_read_trace bus s1 n h1i hg.2.1 (response_len_le k p n ht)
  rw [hg.1] at htr
  refine ⟨htr, hb, ?_, ?_, ?_⟩
  · intro hk
    rw [hg.2.2.1 hk, source_bytes_frame]
  · rw [run_read_state]; rfl
  · rw [run_read_state]; rfl

/-- Witness of `C3_getter_read`: at start-up, `[0x00]` followed by a two-byte
read serves the two bytes of the EMG buffer. -/
theorem C3_getter_read_witness :
    (List.range 2).map (deref (run quiet_bus (main_seed power_on)
        (hostWrite [Cmd.EMG.code] 0)).1 ⟨.emg, 0⟩) =
      (source_bytes (main_seed power_on) .EMG).map some :=
  (C3_getter_read quiet_bus (main_seed power_on) .EMG ⟨.emg, 0⟩ 2 0
    (by decide) (by decide) (by decide) rfl).2.2.1 rfl

/-- C4: with a period setter pending (EMG_PERIOD, IMP_PERIOD or TEMP_PERIOD),
after the two-byte host write `[b0, b1]` closes, the period addressed by the
command is `min (b0 + 256 * b1) 9999`, no command is pending, and apart from
the receive buffer, which holds the two bytes, every other variable (the two
other periods and all sample buffers among them) is as before. -/
theorem C4_period_setter (bus : Bus) (s : State) (b0 b1 : Nat)
    (h0 : b0 < 256) (h1 : b1 < 256) (hidx : s.i2c_idx = 0) :
    (s.cmd_chr = Cmd.EMG_PERIOD.code →
      (run bus s (hostWrite [b0, b1] b1)).1 =
        { s with emg_period_us := min (b0 + 256 * b1) 9999,
                 rx_buffer := (b0, b1), cmd_chr := 255 }) ∧
    (s.cmd_chr = Cmd.IMP_PERIOD.code →
      (run bus s (hostWrite [b0, b1] b1)).1 =
        { s with imp_period_ms := min (b0 + 256 * b1) 9999,
                 rx_buffer := (b0, b1), cmd_chr := 255 }) ∧
    (s.cmd_chr = Cmd.TEMP_PERIOD.code →
      (run bus s (hostWrite [b0, b1] b1)).1 =
        { s with temp_period_ms := min (b0 + 256 * b1) 9999,
                 rx_buffer := (b0, b1), cmd_chr := 255 }) := by
  have hv := value_of_bytes b0 b1 h0 h1
  have hm0 : b0 % 256 = b0 := Nat.mod_eq_of_lt h0
  have hm1 : b1 % 256 = b1 := Nat.mod_eq_of_lt h1
  have hmin : (if b0 + 256 * b1 > 9999 then 9999 else b0 + 256 * b1) =
      min (b0 + 256 * b1) 9999 := by
    split <;> omega
  refine ⟨?_, ?_, ?_⟩ <;> intro hc <;>
  · rw [run_write_two_pending bus s b0 b1 b1 hidx (by rw [hc]; decide)]
    unfold irq_set_value
    simp only [hc, ofByte_code, hm0, hm1, hv, hmin]
    rfl

/-- Witness of `C4_period_setter`: IMP_PERIOD pending at start-up, the host
writes `[0x34, 0x12]`; the impedance period becomes 0x1234 = 4660. -/
theorem C4_period_setter_witness :
    (run quiet_bus (set_cmd_chr (main_seed power_on) 8) (hostWrite [0x34, 0x12] 0x12)).1 =
      { set_cmd_chr (main_seed power_on) 8 with
        imp_period_ms := min (0x34 + 256 * 0x12) 9999,
        rx_buffer := (0x34, 0x12), cmd_chr := 255 } :=
  (C4_period_setter quiet_bus (set_cmd_chr (main_seed power_on) 8) 0x34 0x12
    (by decide) (by decide) (by decide)).2.1 (by decide)

/-- C5 as stated fails for `c = 0xFF`: after the writes `[0xFF]` and `[0x00]`
from the start-up state the command EMG is pending, `do_emg` is raised and the
transmit source has changed. -/
theorem C5_counterexample :
    (main_seed power_on).cmd_chr = 255 ∧
    (main_seed power_on).do_emg = false ∧
    (main_seed power_on).tx_buffer = ⟨.null, 0⟩ ∧
    (run quiet_bus (main_seed power_on) (hostWrite [0xFF] 0 ++ hostWrite [0x00] 0)).1.cmd_chr
      = 0 ∧
    (run quiet_bus (main_seed power_on) (hostWrite [0xFF] 0 ++ hostWrite [0x00] 0)).1.do_emg
      = true ∧
    (run quiet_bus (main_seed power_on) (hostWrite [0xFF] 0 ++ hostWrite [0x00] 0)).1.tx_buffer
      = ⟨.emg, 0⟩ := by
  decide

/-- C5, amended: for every byte `c` from 0x11 to 0xFE and every data byte `d`,
starting with no pending command, after the host writes `[c]` and then `[d]`
the state is the one before the two transactions, the receive buffer apart:
pending command, sample buffers, periods, flags and transmit selection are
unchanged. The byte 0xFF is the marker of "no command" itself: after `[0xFF]`
no command is pending and `[d]` is dispatched as a new command. -/
theorem C5_unknown_code_then_byte (bus : Bus) (s : State) (c d x1 x2 : Nat)
    (hnone : s.cmd_chr = 255) (hidx : s.i2c_idx = 0) :
    (0x11 ≤ c → c ≤ 0xFE →
      (run bus s (hostWrite [c] x1 ++ hostWrite [d] x2)).1 =
        { s with rx_buffer := (d % 256, x2 % 256) }) ∧
    (run bus s (hostWrite [0xFF] x1 ++ hostWrite [d] x2)).1 =
      i2c_process_cmd_chr { s with rx_buffer := (d % 256, x2 % 256), cmd_chr := d % 256 } := by
  constructor
  · intro hlo hhi
    have hm : c % 256 = c := Nat.mod_eq_of_lt (by omega)
    have hs1 : (run bus s (hostWrite [c] x1)).1 =
        { s with rx_buffer := (c, x1 % 256), cmd_chr := c } := by
      rw [run_write_one_fresh bus s c x1 hidx hnone, hm]
      exact process_unknown _ (ofByte_none c hlo)
    have hne : c ≠ 255 := by omega
    have key : ∀ t : State, t.i2c_idx = 0 → t.cmd_chr = c →
        (run bus t (hostWrite [d] x2)).1 =
          set_cmd_chr { t with rx_buffer := (d % 256, x2 % 256) } 255 := by
      intro t hi hcm
      rw [run_write_one_pending bus t d x2 hi (by rw [hcm]; exact hne)]
      exact set_value_unknown bus _ (by show Cmd.ofByte t.cmd_chr = none
                                        rw [hcm]; exact ofByte_none c hlo)
    rw [run_append_state]
    generalize (run bus s (hostWrite [c] x1)).1 = t at hs1 ⊢
    have hti : t.i2c_idx = 0 := by rw [hs1]; exact hidx
    have htc : t.cmd_chr = c := by rw [hs1]
    rw [key t hti htc, hs1]
    cases s
    simp_all [set_cmd_chr]
  · have hs1 : (run bus s (hostWrite [0xFF] x1)).1 =
        { s with rx_buffer := (255, x1 % 256), cmd_chr := 255 } := by
      rw [run_write_one_fresh bus s 0xFF x1 hidx hnone]
      exact process_unknown _ (ofByte_none 255 (by decide))
    have key : ∀ t : State, t.i2c_idx = 0 → t.cmd_chr = 255 →
        (run bus t (hostWrite [d] x2)).1 =
          i2c_process_cmd_chr { t with rx_buffer := (d % 256, x2 % 256), cmd_chr := d % 256 } :=
      fun t hi hcm => run_write_one_fresh bus t d x2 hi hcm
    rw [run_append_state]
    generalize (run bus s (hostWrite [0xFF] x1)).1 = t at hs1 ⊢
    have hti : t.i2c_idx = 0 := by rw [hs1]; exact hidx
    have htc : t.cmd_chr = 255 := by rw [hs1]
    rw [key t hti htc, hs1]

/-- Witness of `C5_unknown_code_then_byte`: the unknown code 0x42 followed by
the byte 0x00 at start-up. -/
theorem C5_unknown_code_then_byte_witness :
    (run quiet_bus (main_seed power_on) (hostWrite [0x42] 0 ++ hostWrite [0x00] 0)).1 =
      { main_seed power_on with rx_buffer := (0x00 % 256, 0 % 256) } :=
  (C5_unknown_code_then_byte quiet_bus (main_seed power_on) 0x42 0x00 0 0
    (by decide) (by decide)).1 (by decide) (by decide)

/-- C6 on the code: from start-up the host reads IMP_ALL (8 bytes), writes
`[0x0A]` (REQ_READ), then `[0x0B]` (READ_RDY) and reads one byte. REQ_READ is
still pending when `[0x0B]` arrives, so that byte is consumed as a value and
READ_RDY is never dispatched; the byte served by the read is the first byte of
the impedance buffer (100), not the readiness flag (0 at that moment), and it
is not marked as the last byte. -/
theorem C6_read_rdy_after_req_read :
    (run quiet_bus (main_seed power_on) (hostWrite [0x05] 0 ++ hostRead 8)).1.cmd_chr = 255 ∧
    (run quiet_bus (main_seed power_on)
      (hostWrite [0x05] 0 ++ hostRead 8 ++ hostWrite [0x0A] 0)).1.cmd_chr = 0x0A ∧
    (run quiet_bus (main_seed power_on)
      (hostWrite [0x05] 0 ++ hostRead 8 ++ hostWrite [0x0A] 0 ++ hostWrite [0x0B] 0)).1.tx_buffer
      = ⟨.imp, 0⟩ ∧
    (run quiet_bus (main_seed power_on)
      (hostWrite [0x05] 0 ++ hostRead 8 ++ hostWrite [0x0A] 0 ++ hostWrite [0x0B] 0)).1.read_rdy
      = 0 ∧
    (run quiet_bus
      (run quiet_bus (main_seed power_on)
        (hostWrite [0x05] 0 ++ hostRead 8 ++ hostWrite [0x0A] 0 ++ hostWrite [0x0B] 0)).1
      (hostRead 1)).2 =
      [[.ackact 0, .cmd 0x3, .clear_amatch],
       [.data (some 100), .cmd 0x3, .clear_drdy],
       [.clear_prec]] := by
  decide

/-- C7 as stated fails: with the impedance period set to 3, the first tick
raises `do_imp` and resets the counter to 1; once the main loop has cleared the
flag, the next tick leaves it clear and the second tick raises it again. The
flag is raised on the 2nd following tick, not on the 3rd. -/
theorem C7_counterexample :
    (periodic_with quiet_bus 3).imp_period_ms = 3 ∧
    (periodic_with quiet_bus 3).ad5933_enabled = true ∧
    (ticks 1 (periodic_with quiet_bus 3)).map imp_phase = some (true, 1) ∧
    ((ticks 1 (periodic_with quiet_bus 3)).bind
      (fun t => ticks 1 (clear_do_imp t))).map imp_phase = some (false, 2) ∧
    ((ticks 1 (periodic_with quiet_bus 3)).bind
      (fun t => ticks 2 (clear_do_imp t))).map imp_phase = some (true, 1) := by
  decide

/-- C7, amended: for every impedance period `P` from 1 to 65535 that stays
constant while the impedance subsystem is enabled (the temperature period being
non-zero): counting from a tick that has reset the counter to 1, `do_imp` is
next raised on exactly the `P - 1`-th following tick for `P ≥ 2` (on the first
one for `P = 1`) and on no tick before it; that tick resets the counter to 1
again, so the flag is raised exactly once every `max 1 (P - 1)` ticks. -/
theorem C7_imp_cycle (s : State) (P : Nat) (hP : 1 ≤ P) (hP16 : P ≤ 65535)
    (hen : s.ad5933_enabled = true) (hper : s.imp_period_ms = P)
    (hcnt : s.imp_counter = 1) (htemp : s.temp_period_ms ≠ 0) :
    (∀ j, j < max 1 (P - 1) → ∃ t, ticks j s = some t ∧ t.do_imp = s.do_imp ∧
      t.imp_counter = 1 + j) ∧
    (∃ t, ticks (max 1 (P - 1)) s = some t ∧ t.do_imp = true ∧ t.imp_counter = 1 ∧
      t.imp_period_ms = P ∧ t.ad5933_enabled = true) := by
  have hQ : s.imp_period_ms ≠ 0 := by omega
  have hmax : max 1 (P - 1) = if P = 1 then 1 else P - 1 := by
    split <;> omega
  have h := ticks_first_fire (max 1 (P - 1)) s hen hQ htemp (by omega) (by omega)
    (by
      intro j h1 h2
      rw [hcnt, hper, Nat.mod_eq_of_lt (by omega)]
      omega)
    (by
      rw [hcnt, hper, hmax]
      split
      · rename_i h1
        rw [h1]
      · have : 1 + (P - 1) = P := by omega
        rw [this, Nat.mod_self])
  rw [hcnt, hper] at h
  exact h

/-- Witness of `C7_imp_cycle`: period 3 right after the tick that has reset
the counter. -/
theorem C7_imp_cycle_witness :
    ∃ t, ticks (max 1 (3 - 1))
        { power_on with ad5933_enabled := true, imp_period_ms := 3 } = some t ∧
      t.do_imp = true ∧ t.imp_counter = 1 ∧ t.imp_period_ms = 3 ∧ t.ad5933_enabled = true :=
  (C7_imp_cycle { power_on with ad5933_enabled := true, imp_period_ms := 3 } 3
    (by decide) (by decide) rfl rfl rfl (by decide)).2

/-- C8 as stated fails: with period 10 and the counter at 4 (flag cleared by the
main loop), the flag would next be raised on the 6th following tick; after the
host has changed the period to 5 by `[0x08]`, `[5, 0]`, it is raised on the
very next tick. -/
theorem C8_counterexample :
    (periodic_with quiet_bus 10).imp_period_ms = 10 ∧
    (ticks 13 (periodic_with quiet_bus 10)).map imp_phase = some (true, 4) ∧
    ((ticks 13 (periodic_with quiet_bus 10)).bind
      (fun t => ticks 5 (clear_do_imp t))).map imp_phase = some (false, 9) ∧
    ((ticks 13 (periodic_with quiet_bus 10)).bind
      (fun t => ticks 6 (clear_do_imp t))).map imp_phase = some (true, 1) ∧
    ((ticks 13 (periodic_with quiet_bus 10)).bind
      (fun t => ticks 1 (run quiet_bus (clear_do_imp t)
        (hostWrite [0x08] 0 ++ hostWrite [5, 0] 0)).1)).map imp_phase = some (true, 1) := by
  decide

/-- C8, amended: when the host changes the impedance period by an IMP_PERIOD
setter while a cycle is in progress, the new period `P' = min (b0 + 256 * b1)
9999` (non-zero) governs the cycle in progress at once, whatever the old period
was: with the subsystem enabled, `do_imp` is next raised on the first following
tick `n` at which the advanced counter is a multiple of `P'`, on no tick before
it, and the counter is then reset to 1. -/
theorem C8_period_change_immediate (bus : Bus) (s : State) (b0 b1 n : Nat)
    (h0 : b0 < 256) (h1 : b1 < 256) (hidx : s.i2c_idx = 0)
    (hpend : s.cmd_chr = Cmd.IMP_PERIOD.code) (hen : s.ad5933_enabled = true)
    (htemp : s.temp_period_ms ≠ 0) (hP : min (b0 + 256 * b1) 9999 ≠ 0)
    (hn : 1 ≤ n) (hov : s.imp_counter + n ≤ 65535)
    (hno : ∀ j, 1 ≤ j → j < n → (s.imp_counter + j) % min (b0 + 256 * b1) 9999 ≠ 0)
    (hfire : (s.imp_counter + n) % min (b0 + 256 * b1) 9999 = 0) :
    (run bus s (hostWrite [b0, b1] b1)).1.imp_period_ms = min (b0 + 256 * b1) 9999 ∧
    (∀ j, j < n → ∃ t, ticks j (run bus s (hostWrite [b0, b1] b1)).1 = some t ∧
      t.do_imp = s.do_imp ∧ t.imp_counter = s.imp_counter + j) ∧
    (∃ t, ticks n (run bus s (hostWrite [b0, b1] b1)).1 = some t ∧
      t.do_imp = true ∧ t.imp_counter = 1) := by
  have hv := value_of_bytes b0 b1 h0 h1
  have hm0 : b0 % 256 = b0 := Nat.mod_eq_of_lt h0
  have hm1 : b1 % 256 = b1 := Nat.mod_eq_of_lt h1
  have hmin : (if b0 + 256 * b1 > 9999 then 9999 else b0 + 256 * b1) =
      min (b0 + 256 * b1) 9999 := by
    split <;> omega
  have hs1 : (run bus s (hostWrite [b0, b1] b1)).1 =
      { s with imp_period_ms := min (b0 + 256 * b1) 9999,
               rx_buffer := (b0, b1), cmd_chr := 255 } := by
    rw [run_write_two_pending bus s b0 b1 b1 hidx (by rw [hpend]; decide)]
    unfold irq_set_value
    simp only [hpend, ofByte_code, hm0, hm1, hv, hmin]
    rfl
  generalize (run bus s (hostWrite [b0, b1] b1)).1 = s1 at hs1 ⊢
  have e1 : s1.imp_period_ms = min (b0 + 256 * b1) 9999 := by rw [hs1]
  have e2 : s1.imp_counter = s.imp_counter := by rw [hs1]
  have e3 : s1.do_imp = s.do_imp := by rw [hs1]
  have e4 : s1.ad5933_enabled = true := by rw [hs1]; exact hen
  have e5 : s1.temp_period_ms ≠ 0 := by rw [hs1]; exact htemp
  have h := ticks_first_fire n s1 e4 (by rw [e1]; exact hP) e5 hn (by rw [e2]; exact hov)
    (by intro j a b; rw [e1, e2]; exact hno j a b) (by rw [e1, e2]; exact hfire)
  rw [e2, e3] at h
  exact ⟨e1, h.1, h.2.imp (fun t ht => ⟨ht.1, ht.2.1, ht.2.2.1⟩)⟩

/-- Witness of `C8_period_change_immediate`: period 10, counter at 4, the host
writes the new period 5; the next tick raises the flag. -/
theorem C8_period_change_immediate_witness :
    ∃ t, ticks 1 (run quiet_bus
        { power_on with ad5933_enabled := true, imp_period_ms := 10, imp_counter := 4,
                        cmd_chr := 8 }
        (hostWrite [5, 0] 0)).1 = some t ∧ t.do_imp = true ∧ t.imp_counter = 1 :=
  (C8_period_change_immediate quiet_bus
    { power_on with ad5933_enabled := true, imp_period_ms := 10, imp_counter := 4,
                    cmd_chr := 8 }
    5 0 1 (by decide) (by decide) rfl rfl rfl (by decide) (by decide) (by decide) (by decide)
    (by intro j a b; omega) (by decide)).2.2

/-- C9: `AD_set_settling_cycles` rejects a request (returns 255, no bus
operation, driver state untouched) exactly when the multiplier field of the
word, its bits 10..9, is the encoding 2; the cycle count, bits 8..0, is at most
511 for every word. In every other case it writes the two bytes
`(time >> 8) & 0xFF` and `time & 0xFF` to the addresses 0x8A and 0x8B of the
settling-cycles register and returns `I2C_OK`. -/
theorem C9_settling_cycles (bus : Bus) (ad : AD) (time : Nat) :
    (((AD_set_settling_cycles bus ad time).1 ≠ 255) ↔
      (settling_count time ≤ 511 ∧
        (settling_mult_field time = 0 ∨ settling_mult_field time = 1 ∨
          settling_mult_field time = 3))) ∧
    ((settling_count time ≤ 511 ∧
        (settling_mult_field time = 0 ∨ settling_mult_field time = 1 ∨
          settling_mult_field time = 3)) →
      (AD_set_settling_cycles bus ad time).1 = 0 ∧
      (AD_set_settling_cycles bus ad time).2.log =
        ad.log ++ [BusOp.write [0x8A, (time >>> 8) &&& 0xFF],
                   BusOp.write [0x8B, time &&& 0xFF]]) ∧
    (¬ (settling_count time ≤ 511 ∧
        (settling_mult_field time = 0 ∨ settling_mult_field time = 1 ∨
          settling_mult_field time = 3)) →
      AD_set_settling_cycles bus ad time = (255, ad)) := by
  have hcount : settling_count time ≤ 511 := by
    unfold settling_count; omega
  have hacc : ∀ h : (settling_mult_field time = 0 ∨ settling_mult_field time = 1 ∨
      settling_mult_field time = 3),
      AD_set_settling_cycles bus ad time =
        AD_set_bytes bus ⟨0x8A, 2⟩ ad [(time >>> 8) &&& 0xFF, time &&& 0xFF] := by
    intro h
    unfold AD_set_settling_cycles
    simp only [settling_field_eq]
    rw [if_neg (by
      intro hc
      rcases hc with hc | hc
      · exact settling_cycles_small time hc
      · exact hc h)]
    rfl
  have hrej : ¬ (settling_mult_field time = 0 ∨ settling_mult_field time = 1 ∨
      settling_mult_field time = 3) → AD_set_settling_cycles bus ad time = (255, ad) := by
    intro h
    unfold AD_set_settling_cycles
    simp only [settling_field_eq]
    rw [if_pos (Or.inr h)]
  have hw := AD_set_bytes_two bus 0x8A ad ((time >>> 8) &&& 0xFF) (time &&& 0xFF)
  refine ⟨?_, ?_, ?_⟩
  · constructor
    · intro hne
      refine ⟨hcount, ?_⟩
      by_contra hno
      exact hne (by rw [hrej hno])
    · intro h
      rw [hacc h.2, hw.1]
      decide
  · intro h
    rw [hacc h.2]
    exact hw
  · intro h
    exact hrej (fun hm => h ⟨hcount, hm⟩)

/-- Witness of `C9_settling_cycles`: the request 500 of the start-up
configuration is accepted and written as `0x01`, `0xF4`. -/
theorem C9_settling_cycles_witness :
    (AD_set_settling_cycles quiet_bus power_on.ad 500).1 = 0 ∧
    (AD_set_settling_cycles quiet_bus power_on.ad 500).2.log =
      power_on.ad.log ++ [BusOp.write [0x8A, (500 >>> 8) &&& 0xFF],
                          BusOp.write [0x8B, 500 &&& 0xFF]] :=
  (C9_settling_cycles quiet_bus power_on.ad 500).2.1 (by decide)

/-- C11: on the register-file bus, with the impedance chip addressed and the
pointer command in place (as `AD_scan` leaves them), for every frequency whose
code is accepted (at most `0xFFFFFF`), under either clock selection:
`AD_set_start_freq` returns `I2C_OK` and the three bytes it reads back from
the start-frequency register are the three code bytes it has written; after
`AD_set_increment_freq`, `AD_get_bytes` on the frequency-increment register
returns the three code bytes written. More generally `AD_get_bytes` after
`AD_set_bytes` on either of the two register descriptors returns the bytes
written. In full: `AD_set_start_freq` writes the three code bytes to the
registers `0x82`, `0x83`, `0x84` and then reads these three registers; the
bytes it returns are the bytes those three reads deliver; the registers hold
the code bytes afterwards; and an `AD_get_bytes` on the start-frequency
register after it returns the code bytes, whatever the buffer held.
`AD_set_increment_freq` writes the three code bytes to the registers `0x85`,
`0x86`, `0x87`, which hold them afterwards. -/
theorem C11_freq_round_trip (code : FreqCode) (mem0 : Nat → Nat) (ad : AD) (f : Nat)
    (hptr : ad.point_addr_buf.1 = AD5933_PTR)
    (haddr : (chip_state mem0 ad.log).addr = AD5933_ADDR)
    (hacc : code ad.clock_ext f % 4294967296 ≤ 0xFFFFFF) :
    (AD_set_start_freq code (chip_bus mem0) ad f).1 = 0 ∧
    (AD_set_start_freq code (chip_bus mem0) ad f).2.2 =
      freq_bytes (code ad.clock_ext f % 4294967296) ∧
    (AD_get_bytes (chip_bus mem0) (AD_reg .AD5933_FREQ_INC)
      (AD_set_increment_freq code (chip_bus mem0) ad f).2 [0, 0, 0]).1 = 0 ∧
    (AD_get_bytes (chip_bus mem0) (AD_reg .AD5933_FREQ_INC)
      (AD_set_increment_freq code (chip_bus mem0) ad f).2 [0, 0, 0]).2.2 =
      freq_bytes (code ad.clock_ext f % 4294967296) ∧
    (∀ r, r = AD_reg_t.AD5933_START_FREQ ∨ r = AD_reg_t.AD5933_FREQ_INC →
      ∀ v0 v1 v2, v0 < 256 → v1 < 256 → v2 < 256 →
        (AD_get_bytes (chip_bus mem0) (AD_reg r)
          (AD_set_bytes (chip_bus mem0) (AD_reg r) ad [v0, v1, v2]).2 [0, 0, 0]).2.2 =
          [v0, v1, v2]) ∧
    (AD_set_start_freq code (chip_bus mem0) ad f).2.1.log =
      ad.log ++
        [BusOp.write [0x82, ((code ad.clock_ext f % 4294967296) >>> 16) &&& 0xFF],
         BusOp.write [0x83, ((code ad.clock_ext f % 4294967296) >>> 8) &&& 0xFF],
         BusOp.write [0x84, (code ad.clock_ext f % 4294967296) &&& 0xFF]] ++
        read_ops AD5933_PTR 0x82 ++ read_ops AD5933_PTR 0x83 ++ read_ops AD5933_PTR 0x84 ∧
    (AD_set_start_freq code (chip_bus mem0) ad f).2.2 =
      [rd_byte (chip_bus mem0) (ad.log ++
          [BusOp.write [0x82, ((code ad.clock_ext f % 4294967296) >>> 16) &&& 0xFF],
           BusOp.write [0x83, ((code ad.clock_ext f % 4294967296) >>> 8) &&& 0xFF],
           BusOp.write [0x84, (code ad.clock_ext f % 4294967296) &&& 0xFF]] ++
          [BusOp.write [AD5933_PTR, 0x82]]),
       rd_byte (chip_bus mem0) (ad.log ++
          [BusOp.write [0x82, ((code ad.clock_ext f % 4294967296) >>> 16) &&& 0xFF],
           BusOp.write [0x83, ((code ad.clock_ext f % 4294967296) >>> 8) &&& 0xFF],
           BusOp.write [0x84, (code ad.clock_ext f % 4294967296) &&& 0xFF]] ++
          read_ops AD5933_PTR 0x82 ++ [BusOp.write [AD5933_PTR, 0x83]]),
       rd_byte (chip_bus mem0) (ad.log ++
          [BusOp.write [0x82, ((code ad.clock_ext f % 4294967296) >>> 16) &&& 0xFF],
           BusOp.write [0x83, ((code ad.clock_ext f % 4294967296) >>> 8) &&& 0xFF],
           BusOp.write [0x84, (code ad.clock_ext f % 4294967296) &&& 0xFF]] ++
          read_ops AD5933_PTR 0x82 ++ read_ops AD5933_PTR 0x83 ++
          [BusOp.write [AD5933_PTR, 0x84]])] ∧
    [(chip_state mem0 (AD_set_start_freq code (chip_bus mem0) ad f).2.1.log).mem 0x82,
     (chip_state mem0 (AD_set_start_freq code (chip_bus mem0) ad f).2.1.log).mem 0x83,
     (chip_state mem0 (AD_set_start_freq code (chip_bus mem0) ad f).2.1.log).mem 0x84] =
      freq_bytes (code ad.clock_ext f % 4294967296) ∧
    (∀ y0 y1 y2,
      (AD_get_bytes (chip_bus mem0) (AD_reg .AD5933_START_FREQ)
        (AD_set_start_freq code (chip_bus mem0) ad f).2.1 [y0, y1, y2]).2.2 =
        freq_bytes (code ad.clock_ext f % 4294967296)) ∧
    (AD_set_increment_freq code (chip_bus mem0) ad f).2.log =
      ad.log ++
        [BusOp.write [0x85, ((code ad.clock_ext f % 4294967296) >>> 16) &&& 0xFF],
         BusOp.write [0x86, ((code ad.clock_ext f % 4294967296) >>> 8) &&& 0xFF],
         BusOp.write [0x87, (code ad.clock_ext f % 4294967296) &&& 0xFF]] ∧
    [(chip_state mem0 (AD_set_increment_freq code (chip_bus mem0) ad f).2.log).mem 0x85,
     (chip_state mem0 (AD_set_increment_freq code (chip_bus mem0) ad f).2.log).mem 0x86,
     (chip_state mem0 (AD_set_increment_freq code (chip_bus mem0) ad f).2.log).mem 0x87] =
      freq_bytes (code ad.clock_ext f % 4294967296) := by
  have hb : ∀ z : Nat, z &&& 0xFF < 256 := fun z => Nat.and_lt_two_pow z (by decide : 255 < 2 ^ 8)
  generalize hc : code ad.clock_ext f % 4294967296 = c at hacc ⊢
  have hnot : ¬ c > 0xFFFFFF := by omega
  have es : AD_set_start_freq code (chip_bus mem0) ad f =
      AD_get_bytes (chip_bus mem0) ⟨0x82, 3⟩
        (AD_set_bytes (chip_bus mem0) ⟨0x82, 3⟩ ad
          [(c >>> 16) &&& 0xFF, (c >>> 8) &&& 0xFF, c &&& 0xFF]).2
        [(c >>> 16) &&& 0xFF, (c >>> 8) &&& 0xFF, c &&& 0xFF] := by
    unfold AD_set_start_freq
    simp only [hc, if_neg hnot]
    rfl
  have ei : AD_set_increment_freq code (chip_bus mem0) ad f =
      AD_set_bytes (chip_bus mem0) ⟨0x85, 3⟩ ad
        [(c >>> 16) &&& 0xFF, (c >>> 8) &&& 0xFF, c &&& 0xFF] := by
    unfold AD_set_increment_freq
    simp only [hc, if_neg hnot]
    rfl
  rw [es, ei]
  generalize h0 : (c >>> 16) &&& 0xFF = v0
  generalize h1 : (c >>> 8) &&& 0xFF = v1
  generalize h2 : c &&& 0xFF = v2
  have b0 : v0 < 256 := h0 ▸ hb _
  have b1 : v1 < 256 := h1 ▸ hb _
  have b2 : v2 < 256 := h2 ▸ hb _
  have eb : freq_bytes c = [v0, v1, v2] := by
    unfold freq_bytes
    rw [h0, h1, h2]
  rw [eb]
  have hs := round_trip_three mem0 0x82 ad v0 v1 v2 [v0, v1, v2] hptr haddr (by decide)
    b0 b1 b2 rfl
  have hi := round_trip_three mem0 0x85 ad v0 v1 v2 [0, 0, 0] hptr haddr (by decide)
    b0 b1 b2 rfl
  have fs := chip_set_get_three mem0 0x82 ad v0 v1 v2 hptr haddr (by decide) b0 b1 b2
  have fi := chip_set_get_three mem0 0x85 ad v0 v1 v2 hptr haddr (by decide) b0 b1 b2
  have fsx := fs.2.2 v0 v1 v2
  have fi1 := fi.1
  have fi2 := fi.2.1
  simp only [Nat.reduceAdd] at fsx fi1 fi2
  have r1 : AD_reg .AD5933_START_FREQ = ⟨0x82, 3⟩ := rfl
  have r2 : AD_reg .AD5933_FREQ_INC = ⟨0x85, 3⟩ := rfl
  rw [r1, r2]
  refine ⟨hs.1, hs.2, hi.1, hi.2, ?_, fsx.1, fsx.2.1, fsx.2.2.1, fsx.2.2.2, fi1, fi2⟩
  intro r hr w0 w1 w2 g0 g1 g2
  rcases hr with rfl | rfl
  · exact (round_trip_three mem0 0x82 ad w0 w1 w2 [0, 0, 0] hptr haddr (by decide)
      g0 g1 g2 rfl).2
  · exact (round_trip_three mem0 0x85 ad w0 w1 w2 [0, 0, 0] hptr haddr (by decide)
      g0 g1 g2 rfl).2

set_option maxRecDepth 1000000 in
/-- Witness of `C11_freq_round_trip`: 1000 Hz under the internal clock, right
after `AD_scan` on the register-file bus: the bytes read back and the registers
`0x82`, `0x83`, `0x84` hold the code bytes `0x00`, `0x7D`, `0x02`. -/
theorem C11_freq_round_trip_witness :
    freq_bytes (exact_code (AD_scan (chip_bus reset_mem) power_on.ad).2.clock_ext 1000
        % 4294967296) = [0x00, 0x7D, 0x02] ∧
    (AD_set_start_freq exact_code (chip_bus reset_mem)
      (AD_scan (chip_bus reset_mem) power_on.ad).2 1000).2.2 =
      freq_bytes (exact_code (AD_scan (chip_bus reset_mem) power_on.ad).2.clock_ext 1000
        % 4294967296) ∧
    [(chip_state reset_mem (AD_set_start_freq exact_code (chip_bus reset_mem)
        (AD_scan (chip_bus reset_mem) power_on.ad).2 1000).2.1.log).mem 0x82,
     (chip_state reset_mem (AD_set_start_freq exact_code (chip_bus reset_mem)
        (AD_scan (chip_bus reset_mem) power_on.ad).2 1000).2.1.log).mem 0x83,
     (chip_state reset_mem (AD_set_start_freq exact_code (chip_bus reset_mem)
        (AD_scan (chip_bus reset_mem) power_on.ad).2 1000).2.1.log).mem 0x84] =
      freq_bytes (exact_code (AD_scan (chip_bus reset_mem) power_on.ad).2.clock_ext 1000
        % 4294967296) :=
  ⟨by decide,
   (C11_freq_round_trip exact_code reset_mem (AD_scan (chip_bus reset_mem) power_on.ad).2 1000
    (by decide) (by decide) (by decide)).2.1,
   (C11_freq_round_trip exact_code reset_mem (AD_scan (chip_bus reset_mem) power_on.ad).2 1000
    (by decide) (by decide) (by decide)).2.2.2.2.2.2.2.1⟩

/-- C12 on the code: on a bus whose every transfer fails with status -1, from
the power-on driver state, `AD_set_bytes` on the settling-cycles register
performs its second write after the first one has failed and returns `I2C_OK`;
`AD_get_bytes` on the control register performs all four transfers and returns
`I2C_OK`; `AD_set_start_freq (1000)` performs all nine transfers and returns
`I2C_OK`. -/
theorem C12_failure_not_propagated :
    dead_bus.io_write [] [0x8A, 1] < 0 ∧
    (AD_set_bytes dead_bus (AD_reg .AD5933_N_CYC) power_on.ad [1, 244]).1 = 0 ∧
    (AD_set_bytes dead_bus (AD_reg .AD5933_N_CYC) power_on.ad [1, 244]).2.log =
      [BusOp.write [0x8A, 1], BusOp.write [0x8B, 244]] ∧
    (AD_get_bytes dead_bus (AD_reg .AD5933_CTRL) power_on.ad [0, 0]).1 = 0 ∧
    (AD_get_bytes dead_bus (AD_reg .AD5933_CTRL) power_on.ad [0, 0]).2.1.log =
      [BusOp.write [0, 0x80], BusOp.read, BusOp.write [0, 0x81], BusOp.read] ∧
    (AD_set_start_freq exact_code dead_bus power_on.ad 1000).1 = 0 ∧
    (AD_set_start_freq exact_code dead_bus power_on.ad 1000).2.1.log.length = 9 := by
  decide

/-- C13 as stated fails for the output range: the argument `0x01`, which is
none of the four encodings, makes `AD_set_range` return 0 and write the
control register, with the bits of `CTRL_OUTPUT_RANGE_4`. -/
theorem C13_counterexample :
    (AD_set_range quiet_bus power_on.ad 0x01).1 = 0 ∧
    (AD_set_range quiet_bus power_on.ad 0x01).2.log =
      [BusOp.write [0, 0x80], BusOp.read, BusOp.write [0, 0x81], BusOp.read,
       BusOp.write [0x80, 0x02], BusOp.write [0x81, 0]] := by
  decide

/-- C13, amended: `AD_set_range` has no rejection: every argument other than
`0x00`, `0x06` and `0x04` is treated as `CTRL_OUTPUT_RANGE_4` (`0x02`): the
control register is read, the first byte read is written back with the range
bits replaced by `0x02` and the second byte read is written back unchanged, and
the result is `I2C_OK`.
`AD_set_PGA_gain` returns 255 for every argument that is neither
`CTRL_PGA_GAIN_X1` nor `CTRL_PGA_GAIN_X5`, having only read the control
register (two pointer writes and two reads), with no write to it. -/
theorem C13_range_default_gain_rejected (bus : Bus) (ad : AD) (x : Nat) :
    (x ≠ CTRL_OUTPUT_RANGE_1 → x ≠ CTRL_OUTPUT_RANGE_2 → x ≠ CTRL_OUTPUT_RANGE_3 →
      AD_set_range bus ad x = AD_set_range bus ad CTRL_OUTPUT_RANGE_4 ∧
      (AD_set_range bus ad x).1 = 0 ∧
      (AD_set_range bus ad x).2.log =
        ad.log ++ read_ops ad.point_addr_buf.1 0x80 ++ read_ops ad.point_addr_buf.1 0x81 ++
          [BusOp.write [0x80,
              (rd_byte bus (ad.log ++ [BusOp.write [ad.point_addr_buf.1, 0x80]]) &&& 0xF9)
                ||| 0x02],
           BusOp.write [0x81,
              rd_byte bus (ad.log ++ read_ops ad.point_addr_buf.1 0x80 ++
                [BusOp.write [ad.point_addr_buf.1, 0x81]])]]) ∧
    (x ≠ CTRL_PGA_GAIN_X1 → x ≠ CTRL_PGA_GAIN_X5 →
      (AD_set_PGA_gain bus ad x).1 = 255 ∧
      (AD_set_PGA_gain bus ad x).2.log =
        ad.log ++ read_ops ad.point_addr_buf.1 0x80 ++ read_ops ad.point_addr_buf.1 0x81) := by
  constructor
  · intro h1 h2 h3
    have e : AD_set_range bus ad x = AD_set_range bus ad CTRL_OUTPUT_RANGE_4 := by
      unfold AD_set_range
      simp only [h1, h2, h3, if_false]
      rfl
    refine ⟨e, ?_, ?_⟩
    · rw [e]
      simp [AD_set_range, AD_reg, AD_get_bytes_two, AD_set_bytes_two_eq, I2C_OK,
        CTRL_OUTPUT_RANGE_4, CTRL_OUTPUT_RANGE_1, CTRL_OUTPUT_RANGE_2, CTRL_OUTPUT_RANGE_3]
    · rw [e]
      simp [AD_set_range, AD_reg, AD_get_bytes_two, AD_set_bytes_two_eq, I2C_OK,
        CTRL_OUTPUT_RANGE_4, CTRL_OUTPUT_RANGE_1, CTRL_OUTPUT_RANGE_2, CTRL_OUTPUT_RANGE_3,
        read_ops]
  · intro h1 h2
    simp [AD_set_PGA_gain, AD_reg, AD_get_bytes_two, I2C_OK, h1, h2, read_ops]

/-- Witness of `C13_range_default_gain_rejected`: on a quiet bus the range
argument `0x01` is treated as `CTRL_OUTPUT_RANGE_4` and the gain argument 7 is
rejected. -/
theorem C13_range_default_gain_rejected_witness :
    (AD_set_range quiet_bus power_on.ad 0x01 =
        AD_set_range quiet_bus power_on.ad CTRL_OUTPUT_RANGE_4 ∧
      (AD_set_range quiet_bus power_on.ad 0x01).1 = 0 ∧
      (AD_set_range quiet_bus power_on.ad 0x01).2.log =
        power_on.ad.log ++ read_ops power_on.ad.point_addr_buf.1 0x80 ++
          read_ops power_on.ad.point_addr_buf.1 0x81 ++
          [BusOp.write [0x80,
              (rd_byte quiet_bus (power_on.ad.log ++
                [BusOp.write [power_on.ad.point_addr_buf.1, 0x80]]) &&& 0xF9) ||| 0x02],
           BusOp.write [0x81,
              rd_byte quiet_bus (power_on.ad.log ++
                read_ops power_on.ad.point_addr_buf.1 0x80 ++
                [BusOp.write [power_on.ad.point_addr_buf.1, 0x81]])]]) ∧
    ((AD_set_PGA_gain quiet_bus power_on.ad 7).1 = 255 ∧
      (AD_set_PGA_gain quiet_bus power_on.ad 7).2.log =
        power_on.ad.log ++ read_ops power_on.ad.point_addr_buf.1 0x80 ++
          read_ops power_on.ad.point_addr_buf.1 0x81) :=
  ⟨(C13_range_default_gain_rejected quiet_bus power_on.ad 0x01).1
      (by decide) (by decide) (by decide),
   (C13_range_default_gain_rejected quiet_bus power_on.ad 7).2 (by decide) (by decide)⟩

set_option maxRecDepth 1000000 in
/-- C14 on the code: a run from power-on in which the claim fails. After
start-up the host sets the impedance period to 3 ms, a tick raises `do_imp` and
the main loop runs the impedance pass, which leaves the sensor bus pointed at
the impedance chip; the control register then reads `0xB7` (range bits `0b11`).
The host selects range 1 (`[0x0E]`, `[1, 0]`): the register reads `0xB1` (range
bits `0b00`), so the command works while the chip is selected. The host then
requests a read (`[0x0A]`), the main loop serves it, ending with the read of the
temperature chip, and the host closes the pending command: no command is
pending and the sensor bus is pointed at the temperature chip (`0x48`). Now the
host writes `[0x0E]` and `[0x02, 0x00]`: the handler calls `AD_set_range`
without selecting the impedance chip, its six transfers go to the temperature
chip, and the control register still reads `0xB1`, range bits `0b00`, not
`0b11`. -/
theorem C14_range_not_applied :
    range_run_measured.map (fun s => read_control (chip_bus reset_mem) s.ad) = some 0xB7 ∧
    range_run_requested.map (fun s => read_control (chip_bus reset_mem) s.ad) = some 0xB1 ∧
    range_run_idle.map (fun s =>
      (s.cmd_chr, s.i2c_idx, (chip_state reset_mem s.ad.log).addr,
       read_control (chip_bus reset_mem) s.ad,
       read_control (chip_bus reset_mem) (range_run_set s).ad,
       (range_run_set s).cmd_chr)) =
      some (255, 0, MAX30205_ADDR, 0xB1, 0xB1, 255) ∧
    range_run_idle.map (fun s => (range_run_set s).ad.log.drop s.ad.log.length) =
      some [BusOp.write [AD5933_PTR, 0x80], BusOp.read, BusOp.write [AD5933_PTR, 0x81],
         BusOp.read, BusOp.write [0x80, CTRL_OUTPUT_RANGE_2], BusOp.write [0x81, 0]] ∧
    range_bits 0xB7 = 3 ∧ range_bits 0xB1 = 0 ∧ range_bits CTRL_OUTPUT_RANGE_2 = 3 := by
  decide

/-- C15, counterexample: at power-on the impedance period and the temperature
period are 10001, above 9999, and they keep that value through start-up. -/
theorem C15_counterexample :
    Reachable power_on ∧ power_on.imp_period_ms = 10001 ∧ power_on.temp_period_ms = 10001 ∧
    ¬ power_on.imp_period_ms ≤ 9999 ∧
    Reachable (main_startup exact_code (chip_bus reset_mem) max_present power_on) ∧
    (main_startup exact_code (chip_bus reset_mem) max_present power_on).imp_period_ms = 10001 :=
  ⟨Reachable.init, rfl, rfl, by decide,
   Reachable.start_max _ _ (Reachable.start_ad _ _ _ (Reachable.seed _ Reachable.init)),
   by decide⟩

/-- C15, amended: in every reachable state (from power-on, under the parts of
start-up, ticks, invocations of the bus-transaction handler on any flags, data
and sensor bus, and the parts of the main loop, in any order) the EMG period is
at most 9999, and each of the impedance period and the temperature period is at
most 9999 or still holds its power-on value 10001. -/
theorem C15_periods_bounded (s : State) (h : Reachable s) : periods_ok s := by
  induction h with
  | init => exact ⟨by decide, Or.inr rfl, Or.inr rfl⟩
  | seed s _ ih => exact periods_ok_of_eq s _ (periods_seed s) ih
  | start_ad code bus s _ ih => exact periods_ok_of_eq s _ (periods_startup_ad code bus s) ih
  | start_max cbus s _ ih => exact periods_ok_of_eq s _ (periods_startup_max cbus s) ih
  | tick s t _ ht ih => exact periods_ok_of_eq s t (periods_tick s t ht) ih
  | irq bus s e _ ih => exact periods_ok_handler bus s e ih
  | do_emg adc s _ ih => exact periods_ok_of_eq s _ (periods_do_emg adc s) ih
  | imp_sweep1 bus fuel tries s t _ ht ih =>
    exact periods_ok_of_eq s t (imp_sweep1_frame bus fuel tries s t ht).1 ih
  | imp_sweep2 bus fuel tries s t _ ht ih =>
    exact periods_ok_of_eq s t (imp_sweep2_frame bus fuel tries s t ht).1 ih
  | imp_finish s _ ih => exact periods_ok_of_eq s _ rfl ih
  | do_temp cbus s _ ih => exact periods_ok_of_eq s _ (periods_do_temp cbus s) ih
  | req_sweep1 bus fuel tries s t _ ht ih =>
    exact periods_ok_of_eq s t (req_sweep1_frame bus fuel tries s t ht).1 ih
  | req_sweep2 bus fuel tries s t _ ht ih =>
    exact periods_ok_of_eq s t (req_sweep2_frame bus fuel tries s t ht).1 ih
  | req_finish cbus s _ ih => exact periods_ok_of_eq s _ rfl ih

/-- Witness of `C15_periods_bounded`: the state after the host has written
`[0x08]` and the value `0xFFFF` from power-on. -/
theorem C15_periods_bounded_witness :
    Reachable (run quiet_bus power_on (hostWrite [0x08] 0 ++ hostWrite [0xFF, 0xFF] 0xFF)).1 ∧
    periods_ok (run quiet_bus power_on (hostWrite [0x08] 0 ++ hostWrite [0xFF, 0xFF] 0xFF)).1 :=
  ⟨reachable_run quiet_bus _ power_on Reachable.init,
   C15_periods_bounded _ (reachable_run quiet_bus _ power_on Reachable.init)⟩

/-- C16 on the code: with no command pending, after a period command
(EMG_PERIOD, IMP_PERIOD or TEMP_PERIOD) a four-byte read serves the first four
bytes of the scratch buffer into which `utoa` has written the period. For a
period up to 9999 these bytes read back as the period, whatever the buffer
held before, and contain the NUL when the period has fewer than four digits.
For the power-on default 10001 of the impedance and the temperature period
they are `'1' '0' '0' '0'`, which reads back as 1000, not 10001. -/
theorem C16_period_response (bus : Bus) (s : State) (d : Nat) (k : Cmd)
    (hk : k = .EMG_PERIOD ∨ k = .IMP_PERIOD ∨ k = .TEMP_PERIOD)
    (hc : s.cmd_chr = 255) (hi : s.i2c_idx = 0)
    (hbuf : s.temporary_buffer.length = TX_BUFFER_MAX_LEN) :
    data_bytes (run bus s (hostWrite [k.code] d ++ hostRead 4)).2 =
      ((storeBytes s.temporary_buffer (utoa (period_of s k))).take 4).map some ∧
    (period_of s k ≤ 9999 →
      parse_response ((storeBytes s.temporary_buffer (utoa (period_of s k))).take 4) =
        period_of s k ∧
      (period_of s k < 1000 →
        0 ∈ (storeBytes s.temporary_buffer (utoa (period_of s k))).take 4)) ∧
    (period_of s k = 10001 →
      (storeBytes s.temporary_buffer (utoa (period_of s k))).take 4 = [49, 48, 48, 48] ∧
      parse_response [49, 48, 48, 48] = 1000) := by
  refine ⟨period_read_bytes bus s d k hk hc hi hbuf, ?_, ?_⟩
  · intro hp
    exact period_text s.temporary_buffer (period_of s k) hp
      (by rw [hbuf]; simp only [TX_BUFFER_MAX_LEN]; omega)
  · intro hp
    rw [hp]
    exact ⟨rfl, by decide⟩

/-- Witness of `C16_period_response`: at start-up the impedance period holds
its power-on default 10001 and `[0x08]` followed by a four-byte read serves
`'1' '0' '0' '0'`; the EMG period holds 750 and `[0x07]` followed by a
four-byte read serves bytes that read back as 750. -/
theorem C16_period_response_witness :
    (data_bytes (run quiet_bus (main_seed power_on)
        (hostWrite [Cmd.IMP_PERIOD.code] 0 ++ hostRead 4)).2 =
      ((storeBytes (main_seed power_on).temporary_buffer
        (utoa (period_of (main_seed power_on) .IMP_PERIOD))).take 4).map some ∧
     (storeBytes (main_seed power_on).temporary_buffer
        (utoa (period_of (main_seed power_on) .IMP_PERIOD))).take 4 = [49, 48, 48, 48] ∧
     parse_response [49, 48, 48, 48] = 1000) ∧
    parse_response ((storeBytes (main_seed power_on).temporary_buffer
        (utoa (period_of (main_seed power_on) .EMG_PERIOD))).take 4) =
      period_of (main_seed power_on) .EMG_PERIOD :=
  ⟨⟨(C16_period_response quiet_bus (main_seed power_on) 0 .IMP_PERIOD (Or.inr (Or.inl rfl))
      (by decide) (by decide) (by decide)).1,
    (C16_period_response quiet_bus (main_seed power_on) 0 .IMP_PERIOD (Or.inr (Or.inl rfl))
      (by decide) (by decide) (by decide)).2.2 (by decide)⟩,
   ((C16_period_response quiet_bus (main_seed power_on) 0 .EMG_PERIOD (Or.inl rfl)
      (by decide) (by decide) (by decide)).2.1 (by decide)).1⟩

set_option maxRecDepth 1000000 in
/-- C17, counterexample: with both chips present, the host sets the impedance
period to 3 ms after start-up and a tick raises `do_imp`; the impedance buffer
then holds the start-up values 100, 150, 200, 250. The main loop sweeps
electrode pair 1, and before it sweeps pair 2 the host reads IMP_ALL: the eight
bytes served are the new pair 1 (`0x12 0x34 0x56 0x78`) followed by the old
pair 2 (`200 0 250 0`), which is neither the value before the pass nor the
value after it. -/
theorem C17_counterexample :
    range_run_due.map (fun s => (s.cmd_chr, s.i2c_idx, s.do_imp, imp_all s)) =
      some (255, 0, true, [100, 0, 150, 0, 200, 0, 250, 0]) ∧
    (range_run_due.bind (imp_pass_sweep1 (chip_bus reset_mem) 2 1)).map
        (fun m => data_bytes (run (chip_bus reset_mem) m imp_all_read).2) =
      some [some 0x12, some 0x34, some 0x56, some 0x78, some 200, some 0, some 250, some 0] ∧
    (range_run_due.bind (main_do_imp (chip_bus reset_mem) 2 1)).map imp_all =
      some [0x12, 0x34, 0x56, 0x78, 0x12, 0x34, 0x56, 0x78] := by
  refine ⟨by decide, by decide, by decide⟩

/-- C17, amended: for an acquisition pass (the `do_imp` pass or the `req_read`
pass) that starts in a state `s` with no pending command, reaches `m` after
the sweep of electrode pair 1 and `e` after the sweep of pair 2, an IMP_ALL
read (`[0x05]`, then eight bytes) served at `s` returns the eight bytes of
before the pass and one served at `e` returns the eight bytes of after the
pass, but one served at `m`, between the two sweeps, returns the first four
bytes (pair 1) of after the pass followed by the last four bytes (pair 2) of
before the pass. -/
theorem C17_read_between_sweeps (bus hbus : Bus) (fuel tries : Nat) (s m e : State)
    (hc : s.cmd_chr = 255) (hi : s.i2c_idx = 0)
    (h1 : imp_pass_sweep1 bus fuel tries s = some m ∨ req_pass_sweep1 bus fuel tries s = some m)
    (h2 : imp_pass_sweep2 bus fuel tries m = some e ∨
      req_pass_sweep2 bus fuel tries m = some e) :
    data_bytes (run hbus s imp_all_read).2 = (imp_all s).map some ∧
    data_bytes (run hbus m imp_all_read).2 =
      ((imp_all e).take 4 ++ (imp_all s).drop 4).map some ∧
    data_bytes (run hbus e imp_all_read).2 = (imp_all e).map some ∧
    data_bytes (run hbus (imp_pass_finish e) imp_all_read).2 = (imp_all e).map some := by
  have f1 : m.cmd_chr = s.cmd_chr ∧ m.i2c_idx = s.i2c_idx ∧
      m.imp_2_real = s.imp_2_real ∧ m.imp_2_img = s.imp_2_img := by
    rcases h1 with h | h
    · exact (imp_sweep1_frame bus fuel tries s m h).2
    · exact (req_sweep1_frame bus fuel tries s m h).2
  have f2 : e.cmd_chr = m.cmd_chr ∧ e.i2c_idx = m.i2c_idx ∧
      e.imp_1_real = m.imp_1_real ∧ e.imp_1_img = m.imp_1_img := by
    rcases h2 with h | h
    · exact (imp_sweep2_frame bus fuel tries m e h).2
    · exact (req_sweep2_frame bus fuel tries m e h).2
  have hmc : m.cmd_chr = 255 := f1.1.trans hc
  have hmi : m.i2c_idx = 0 := f1.2.1.trans hi
  have hec : e.cmd_chr = 255 := f2.1.trans hmc
  have hei : e.i2c_idx = 0 := f2.2.1.trans hmi
  refine ⟨imp_all_read_bytes hbus s hc hi, ?_, imp_all_read_bytes hbus e hec hei,
    imp_all_read_bytes hbus (imp_pass_finish e) hec hei⟩
  rw [imp_all_read_bytes hbus m hmc hmi]
  simp only [imp_all, List.take, List.drop, List.cons_append, List.nil_append, f1.2.2.1,
    f1.2.2.2, f2.2.2.1, f2.2.2.2]

set_option maxRecDepth 1000000 in
/-- Witness of `C17_read_between_sweeps`: the impedance pass of the
counterexample, on the register-file bus. -/
theorem C17_read_between_sweeps_witness :
    data_bytes (run (chip_bus reset_mem) mix_between imp_all_read).2 =
      ((imp_all mix_after).take 4 ++ (imp_all mix_before).drop 4).map some :=
  (C17_read_between_sweeps (chip_bus reset_mem) (chip_bus reset_mem) 2 1
    mix_before mix_between mix_after (by decide) (by decide)
    (Or.inl (some_getD _ _ (by decide))) (Or.inl (some_getD _ _ (by decide)))).2.1

/-- C18: on every bus on which, with the pointer command in place, the status
read number `n1 + 1` after the start of the sweep is the first to show the
data-valid bit and the status read number `n2 + 1` after the increment command
is the first to show the sweep-done bit, `AD_get_complex_data` terminates with
`I2C_OK` for every fuel above `n1` and `n2`. Its bus operations are those of
`hist_done`: the control modes standby, initialise with start frequency, start
frequency sweep, then the status reads up to the one that shows the data-valid
bit, then the reads of the result registers `0x94`, `0x95` (real) and `0x96`,
`0x97` (imaginary), then the increment command, then the status reads up to the
one that shows the sweep-done bit, then standby. The control modes written are
`0xB0`, `0x10`, `0x20`, `0x30`, `0xB0` in this order, and the sample pair
returned is the four bytes delivered by the reads of the result registers. -/
theorem C18_sweep_sequence (bus : Bus) (ad : AD) (r0 r1 i0 i1 n1 n2 fuel : Nat)
    (hptr : ad.point_addr_buf.1 = AD5933_PTR)
    (hv : status_at bus AD5933_PTR (hist_started bus AD5933_PTR ad.log) n1
      &&& STATUS_DATA_VALID = STATUS_DATA_VALID)
    (hv1 : ∀ k, k < n1 →
      status_at bus AD5933_PTR (hist_started bus AD5933_PTR ad.log) k
        &&& STATUS_DATA_VALID ≠ STATUS_DATA_VALID)
    (hd : status_at bus AD5933_PTR (hist_sampled bus AD5933_PTR ad.log n1) n2
      &&& STATUS_SWEEP_DONE = STATUS_SWEEP_DONE)
    (hd1 : ∀ k, k < n2 →
      status_at bus AD5933_PTR (hist_sampled bus AD5933_PTR ad.log n1) k
        &&& STATUS_SWEEP_DONE ≠ STATUS_SWEEP_DONE)
    (hf1 : n1 < fuel) (hf2 : n2 < fuel) :
    ∃ adf ops, AD_get_complex_data bus fuel ad [r0, r1] [i0, i1] =
        some (0, adf,
          [rd_byte bus (hist_valid bus AD5933_PTR ad.log n1 ++
              [BusOp.write [AD5933_PTR, 0x94]]),
           rd_byte bus (hist_valid bus AD5933_PTR ad.log n1 ++
              read_ops AD5933_PTR 0x94 ++ [BusOp.write [AD5933_PTR, 0x95]])],
          [rd_byte bus (hist_valid bus AD5933_PTR ad.log n1 ++
              read_ops AD5933_PTR 0x94 ++ read_ops AD5933_PTR 0x95 ++
              [BusOp.write [AD5933_PTR, 0x96]]),
           rd_byte bus (hist_valid bus AD5933_PTR ad.log n1 ++
              read_ops AD5933_PTR 0x94 ++ read_ops AD5933_PTR 0x95 ++
              read_ops AD5933_PTR 0x96 ++ [BusOp.write [AD5933_PTR, 0x97]])]) ∧
      adf.log = hist_done bus AD5933_PTR ad.log n1 n2 ∧
      adf.log = ad.log ++ ops ∧
      mode_writes ops =
        [CTRL_STANDBY_MODE, CTRL_INIT_START_FREQ, CTRL_START_FREQ_SWEEP, CTRL_INCREMENT_FREQ,
         CTRL_STANDBY_MODE] := by
  have h := complex_data_spec bus ad r0 r1 i0 i1 n1 n2 fuel
    (by rw [hptr]; exact hv) (by rw [hptr]; exact hv1) (by rw [hptr]; exact hd)
    (by rw [hptr]; exact hd1) hf1 hf2
  rw [hptr] at h
  obtain ⟨adf, e, l, _⟩ := h
  obtain ⟨ops, ho, hm⟩ := mode_writes_hist_done bus ad.log n1 n2
  exact ⟨adf, ops, e, l, by rw [l, ho], hm⟩

/-- Witness of `C18_sweep_sequence`: the register-file bus after `AD_scan`,
the status register showing both bits at the first read of each loop. -/
theorem C18_sweep_sequence_witness :
    ∃ adf ops, AD_get_complex_data (chip_bus reset_mem) 1
        (AD_scan (chip_bus reset_mem) power_on.ad).2 [0, 0] [0, 0] =
        some (0, adf,
          [rd_byte (chip_bus reset_mem) (hist_valid (chip_bus reset_mem) AD5933_PTR
              (AD_scan (chip_bus reset_mem) power_on.ad).2.log 0 ++
              [BusOp.write [AD5933_PTR, 0x94]]),
           rd_byte (chip_bus reset_mem) (hist_valid (chip_bus reset_mem) AD5933_PTR
              (AD_scan (chip_bus reset_mem) power_on.ad).2.log 0 ++
              read_ops AD5933_PTR 0x94 ++ [BusOp.write [AD5933_PTR, 0x95]])],
          [rd_byte (chip_bus reset_mem) (hist_valid (chip_bus reset_mem) AD5933_PTR
              (AD_scan (chip_bus reset_mem) power_on.ad).2.log 0 ++
              read_ops AD5933_PTR 0x94 ++ read_ops AD5933_PTR 0x95 ++
              [BusOp.write [AD5933_PTR, 0x96]]),
           rd_byte (chip_bus reset_mem) (hist_valid (chip_bus reset_mem) AD5933_PTR
              (AD_scan (chip_bus reset_mem) power_on.ad).2.log 0 ++
              read_ops AD5933_PTR 0x94 ++ read_ops AD5933_PTR 0x95 ++
              read_ops AD5933_PTR 0x96 ++ [BusOp.write [AD5933_PTR, 0x97]])]) ∧
      adf.log = hist_done (chip_bus reset_mem) AD5933_PTR
        (AD_scan (chip_bus reset_mem) power_on.ad).2.log 0 0 ∧
      adf.log = (AD_scan (chip_bus reset_mem) power_on.ad).2.log ++ ops ∧
      mode_writes ops =
        [CTRL_STANDBY_MODE, CTRL_INIT_START_FREQ, CTRL_START_FREQ_SWEEP, CTRL_INCREMENT_FREQ,
         CTRL_STANDBY_MODE] :=
  C18_sweep_sequence (chip_bus reset_mem) (AD_scan (chip_bus reset_mem) power_on.ad).2
    0 0 0 0 0 0 1 (by decide) (by decide) (by intro k hk; omega) (by decide)
    (by intro k hk; omega) (by decide) (by decide)

/-- C20 on the code: from a state with no pending command the host writes
`[0x0C]` (STOP_IMP_PER); both sensors are then disabled and both counters are
1. If both periods are at least 2, any number of ticks after that leaves
`do_imp`, `do_temp` and the two counters as they are. If the impedance period
is 1 (and `do_imp` is clear, the temperature period not 0), the very next tick
raises `do_imp` although the sensor is disabled: the handler evaluates
`imp_counter % imp_period_ms`, here `1 % 1 = 0`, whether or not the sensor is
enabled. -/
theorem C20_stop_then_ticks (bus : Bus) (s : State) (d : Nat)
    (hc : s.cmd_chr = 255) (hi : s.i2c_idx = 0) :
    (run bus s (hostWrite [0x0C] d)).1.ad5933_enabled = false ∧
    (run bus s (hostWrite [0x0C] d)).1.max30205_enabled = false ∧
    (run bus s (hostWrite [0x0C] d)).1.imp_counter = 1 ∧
    (run bus s (hostWrite [0x0C] d)).1.temp_counter = 1 ∧
    (run bus s (hostWrite [0x0C] d)).1.do_imp = s.do_imp ∧
    (run bus s (hostWrite [0x0C] d)).1.do_temp = s.do_temp ∧
    (2 ≤ s.imp_period_ms → 2 ≤ s.temp_period_ms →
      ∀ n, ∃ t, ticks n (run bus s (hostWrite [0x0C] d)).1 = some t ∧
        t.do_imp = s.do_imp ∧ t.do_temp = s.do_temp ∧
        t.imp_counter = 1 ∧ t.temp_counter = 1 ∧
        t.ad5933_enabled = false ∧ t.max30205_enabled = false) ∧
    (s.imp_period_ms = 1 → s.temp_period_ms ≠ 0 → s.do_imp = false →
      ∃ t, SysTick_Handler (run bus s (hostWrite [0x0C] d)).1 = some t ∧
        t.do_imp = true ∧ t.ad5933_enabled = false ∧ t.imp_counter = 1) := by
  have e := run_write_one_fresh bus s 0x0C d hi hc
  have e1 : (run bus s (hostWrite [0x0C] d)).1 =
      { s with rx_buffer := (0x0C, d % 256), cmd_chr := 0x0C, max30205_enabled := false,
               ad5933_enabled := false, imp_counter := 1, temp_counter := 1 } := by
    rw [e]; rfl
  rw [e1]
  refine ⟨rfl, rfl, rfl, rfl, rfl, rfl, ?_, ?_⟩
  · intro hP hT n
    obtain ⟨t, ht, hview⟩ := ticks_disabled_quiet n
      { s with rx_buffer := (0x0C, d % 256), cmd_chr := 0x0C, max30205_enabled := false,
               ad5933_enabled := false, imp_counter := 1, temp_counter := 1 }
      rfl rfl rfl rfl hP hT
    simp only [sched_view, Prod.mk.injEq] at hview
    exact ⟨t, ht, hview.2.2.2.2.2.2.1, hview.2.2.2.2.2.2.2, hview.2.2.1, hview.2.2.2.1,
      hview.1, hview.2.1⟩
  · intro hP hT _
    exact tick_disabled_period_one _ rfl rfl hP hT

/-- Witness of `C20_stop_then_ticks`: from start-up the host sets the impedance
period to 1 (`[0x08]`, `[1, 0]`) and writes `[0x0C]`; one tick raises `do_imp`.
With the power-on periods instead, five ticks after `[0x0C]` raise nothing. -/
theorem C20_stop_then_ticks_witness :
    (∃ t, SysTick_Handler (run quiet_bus
        (run quiet_bus (main_seed power_on) (hostWrite [0x08] 0 ++ hostWrite [1, 0] 0)).1
        (hostWrite [0x0C] 0)).1 = some t ∧
      t.do_imp = true ∧ t.ad5933_enabled = false ∧ t.imp_counter = 1) ∧
    (∃ t, ticks 5 (run quiet_bus (main_seed power_on) (hostWrite [0x0C] 0)).1 = some t ∧
      t.do_imp = (main_seed power_on).do_imp ∧ t.do_temp = (main_seed power_on).do_temp ∧
      t.imp_counter = 1 ∧ t.temp_counter = 1 ∧
      t.ad5933_enabled = false ∧ t.max30205_enabled = false) :=
  ⟨(C20_stop_then_ticks quiet_bus
      (run quiet_bus (main_seed power_on) (hostWrite [0x08] 0 ++ hostWrite [1, 0] 0)).1 0
      (by decide) (by decide)).2.2.2.2.2.2.2 (by decide) (by decide) (by decide),
   (C20_stop_then_ticks quiet_bus (main_seed power_on) 0
      (by decide) (by decide)).2.2.2.2.2.2.1 (by decide) (by decide) 5⟩

set_option maxRecDepth 1000000 in
/-- C21 on the code: on every bus `AD_scan` returns 0 when the two bytes found
in `reg_buf` after the reads of the control register form `0xA000`, and 1
otherwise; the status of the transfers plays no part. Whenever it returns a
value other than 0, start-up leaves `ad5933_enabled` false, leaves no command
pending, and an EMG read or a TEMP read after it serves the sample buffer. But
on a bus without a chip, where every transfer fails with status -1 and the
bytes of `reg_buf` are found to hold `0xA0`, `0x00`, `AD_scan` returns 0 and
start-up sets `ad5933_enabled` to true. -/
theorem C21_scan_ignores_status (bus : Bus) (ad : AD) :
    (AD_scan bus ad).1 = (if scan_word bus ad = 0xA000 then 0 else 1) ∧
    (∀ (code : FreqCode) (cbus : CmdBus) (s : State), (AD_scan bus s.ad).1 ≠ 0 →
      (main_startup code bus cbus s).ad5933_enabled = false ∧
      (main_startup code bus cbus s).cmd_chr = s.cmd_chr ∧
      (main_startup code bus cbus s).i2c_idx = s.i2c_idx ∧
      (∀ (hbus : Bus) (d : Nat) (k : Cmd), k = .EMG ∨ k = .TEMP →
        s.cmd_chr = 255 → s.i2c_idx = 0 →
        data_bytes (run hbus (main_startup code bus cbus s)
          (hostWrite [k.code] d ++ hostRead 2)).2 =
          (source_bytes (main_startup code bus cbus s) k).map some)) ∧
    ((∀ h, (stale_bus.io_read h).1 < 0) ∧ (∀ h bytes, stale_bus.io_write h bytes < 0) ∧
      scan_word stale_bus power_on.ad = 0xA000 ∧
      (AD_scan stale_bus power_on.ad).1 = 0 ∧
      (main_startup exact_code stale_bus max_absent power_on).ad5933_enabled = true ∧
      (main_startup exact_code stale_bus max_absent power_on).max30205_enabled = false) := by
  refine ⟨scan_result bus ad, ?_, ?_⟩
  · intro code cbus s h
    have f := startup_frame code bus cbus s
    refine ⟨startup_scan_failed code bus cbus s h, f.1, f.2.1, ?_⟩
    intro hbus d k hk hc hi
    exact sample_read_bytes hbus _ d k hk (f.1.trans hc) (f.2.1.trans hi)
  · refine ⟨fun h => ?_, fun h bytes => ?_, by decide, by decide, by decide, by decide⟩
    · show (-1 : Int) < 0
      decide
    · show (-1 : Int) < 0
      decide

set_option maxRecDepth 1000000 in
/-- Witness of `C21_scan_ignores_status`: on a bus whose every transfer fails
and whose reads find 0, the scan returns 1 and start-up leaves the impedance
subsystem disabled; an EMG read after start-up serves the two bytes of the EMG
buffer. -/
theorem C21_scan_ignores_status_witness :
    (AD_scan dead_bus power_on.ad).1 = (if scan_word dead_bus power_on.ad = 0xA000 then 0 else 1) ∧
    (main_startup exact_code dead_bus max_present power_on).ad5933_enabled = false ∧
    data_bytes (run quiet_bus (main_startup exact_code dead_bus max_present power_on)
        (hostWrite [Cmd.EMG.code] 0 ++ hostRead 2)).2 =
      (source_bytes (main_startup exact_code dead_bus max_present power_on) .EMG).map some :=
  ⟨(C21_scan_ignores_status dead_bus power_on.ad).1,
   ((C21_scan_ignores_status dead_bus power_on.ad).2.1 exact_code max_present power_on
      (by decide)).1,
   ((C21_scan_ignores_status dead_bus power_on.ad).2.1 exact_code max_present power_on
      (by decide)).2.2.2 quiet_bus 0 .EMG (Or.inl rfl) (by decide) (by decide)⟩

/-- C22 on the code: the levels on `SW_1`, `SW_2`, `SW_REF`, `SW_IMP` during
the first sweep, during the second sweep and after the pass are
(1,0,1,1), (0,1,1,0), (0,0,0,0) in the `do_imp` pass and
(1,1,1,1), (1,1,1,0), (0,0,0,0) in the `req_read` pass: both passes end with
all four lines low, but the two sequences differ in `SW_2` at the first sweep
and in `SW_1` at the second. -/
theorem C22_routing_differs (bus : Bus) (cbus : CmdBus) (fuel tries : Nat) :
    (∀ s m e, imp_pass_sweep1 bus fuel tries s = some m →
      imp_pass_sweep2 bus fuel tries m = some e →
      [switches m, switches e, switches (imp_pass_finish e)] =
        [(true, false, true, true), (false, true, true, false),
         (false, false, false, false)]) ∧
    (∀ s m e, req_pass_sweep1 bus fuel tries s = some m →
      req_pass_sweep2 bus fuel tries m = some e →
      [switches m, switches e, switches (req_pass_finish cbus e)] =
        [(true, true, true, true), (true, true, true, false),
         (false, false, false, false)]) := by
  constructor
  · intro s m e h1 h2
    rw [(sweep_switches bus fuel tries s m).1 h1, (sweep_switches bus fuel tries m e).2.1 h2]
    rfl
  · intro s m e h1 h2
    rw [(sweep_switches bus fuel tries s m).2.2.1 h1,
      (sweep_switches bus fuel tries m e).2.2.2 h2]
    rfl

set_option maxRecDepth 1000000 in
/-- Witness of `C22_routing_differs`: the impedance pass and the requested
pass of a run with both chips present. -/
theorem C22_routing_differs_witness :
    [switches mix_between, switches mix_after, switches (imp_pass_finish mix_after)] =
      [(true, false, true, true), (false, true, true, false),
       (false, false, false, false)] ∧
    [switches req_between, switches req_after,
      switches (req_pass_finish max_present req_after)] =
      [(true, true, true, true), (true, true, true, false),
       (false, false, false, false)] :=
  ⟨(C22_routing_differs (chip_bus reset_mem) max_present 2 1).1 mix_before mix_between
      mix_after (some_getD _ _ (by decide)) (some_getD _ _ (by decide)),
   (C22_routing_differs (chip_bus reset_mem) max_present 2 1).2 req_before req_between
      req_after (some_getD _ _ (by decide)) (some_getD _ _ (by decide))⟩

/-- C23 on the code: from a state with no pending command the host writes
`[0x08]` (IMP_PERIOD) and then the value `[0x00, 0x00]`: the impedance period
is 0 and the next tick evaluates `imp_counter % 0`. The same holds for the
temperature period after `[0x09]`. The state is reachable whenever the one
before the two writes is. -/
theorem C23_zero_period (bus : Bus) (s : State) (d : Nat)
    (hc : s.cmd_chr = 255) (hi : s.i2c_idx = 0) :
    (run bus s (hostWrite [0x08] d ++ hostWrite [0, 0] 0)).1.imp_period_ms = 0 ∧
    SysTick_Handler (run bus s (hostWrite [0x08] d ++ hostWrite [0, 0] 0)).1 = none ∧
    (run bus s (hostWrite [0x09] d ++ hostWrite [0, 0] 0)).1.temp_period_ms = 0 ∧
    SysTick_Handler (run bus s (hostWrite [0x09] d ++ hostWrite [0, 0] 0)).1 = none ∧
    (Reachable s → Reachable (run bus s (hostWrite [0x08] d ++ hostWrite [0, 0] 0)).1 ∧
      Reachable (run bus s (hostWrite [0x09] d ++ hostWrite [0, 0] 0)).1) := by
  have h := run_period_zero bus s d hc hi
  exact ⟨h.1, tick_zero_period _ (Or.inl h.1), h.2, tick_zero_period _ (Or.inr h.2),
    fun hr => ⟨reachable_run bus _ s hr, reachable_run bus _ s hr⟩⟩

/-- Witness of `C23_zero_period`: from power-on. -/
theorem C23_zero_period_witness :
    Reachable (run quiet_bus power_on (hostWrite [0x08] 0 ++ hostWrite [0, 0] 0)).1 ∧
    (run quiet_bus power_on (hostWrite [0x08] 0 ++ hostWrite [0, 0] 0)).1.imp_period_ms = 0 ∧
    SysTick_Handler (run quiet_bus power_on (hostWrite [0x08] 0 ++ hostWrite [0, 0] 0)).1 =
      none :=
  ⟨((C23_zero_period quiet_bus power_on 0 rfl rfl).2.2.2.2 Reachable.init).1,
   (C23_zero_period quiet_bus power_on 0 rfl rfl).1,
   (C23_zero_period quiet_bus power_on 0 rfl rfl).2.1⟩

set_option maxRecDepth 1000000 in
/-- C24 on the code: with both chips absent, start-up leaves `ad5933_enabled`
and `max30205_enabled` false. The host writes `[0x0D]` (START_IMP_PER): both
flags are true. After the host has set the impedance period to 3 ms, the next
tick raises `do_imp`, and the main loop then never completes its iteration,
whatever the bound on the polling loops: the sweep waits for a status bit no
chip delivers. -/
theorem C24_absent_chip_enabled :
    absent_start.ad5933_enabled = false ∧ absent_start.max30205_enabled = false ∧
    absent_start.cmd_chr = 255 ∧
    (run dead_bus absent_start (hostWrite [0x0D] 0)).1.ad5933_enabled = true ∧
    (run dead_bus absent_start (hostWrite [0x0D] 0)).1.max30205_enabled = true ∧
    Reachable absent_run_started ∧
    (SysTick_Handler absent_run_started).map (fun t => (t.ad5933_enabled, t.do_imp)) =
      some (true, true) ∧
    (∀ t, SysTick_Handler absent_run_started = some t →
      ∀ fuel tries adc, main_loop_pass dead_bus max_absent fuel tries adc t = none) := by
  refine ⟨by decide, by decide, by decide, by decide, by decide, ?_, by decide, ?_⟩
  · exact reachable_run dead_bus _ _
      (Reachable.start_max max_absent _
        (Reachable.start_ad exact_code dead_bus _ (Reachable.seed _ Reachable.init)))
  · intro t ht fuel tries adc
    have h : (SysTick_Handler absent_run_started).map (fun t => t.do_imp) = some true := by
      decide
    rw [ht] at h
    exact main_loop_dead max_absent fuel tries adc t (Option.some.inj h)

/-- C25: for every sequence of bus events made of transactions, each of them
events in one direction of which the last and only the last is a stop, starting
with the byte index at 0 (its power-on value): every store the handler makes
into `rx_buffer` is at an index below `RX_BUFFER_LEN`, and the byte index is 0
after each transaction. A host write of any number of bytes and a host read of
any number of bytes are such transactions. The condition on the stop is needed:
when a read of two bytes is followed by a write without a stop in between, the
handler stores at index 2. -/
theorem C25_rx_index_bounded (bus : Bus) (s : State) (txs : List (List Irq))
    (hi : s.i2c_idx = 0) (ht : ∀ t ∈ txs, is_transaction t = true) :
    (∀ i ∈ rx_stores (run bus s txs.flatten).2, i < RX_BUFFER_LEN) ∧
    (∀ k, (run bus s (txs.take k).flatten).1.i2c_idx = 0) ∧
    (∀ bytes d, is_transaction (hostWrite bytes d) = true) ∧
    (∀ n, is_transaction (hostRead n) = true) ∧
    rx_stores (run bus power_on
      ([ev_amatch true, ev_tx, ev_tx] ++ [ev_amatch false, ev_rx 7, ev_stop false 0])).2 =
      [2, 3] := by
  refine ⟨(run_index_transactions bus txs s hi ht).2, ?_, hostWrite_transaction,
    hostRead_transaction, ?_⟩
  · intro k
    exact (run_index_transactions bus (txs.take k) s hi
      (fun t h => ht t (List.mem_of_mem_take h))).1
  · simp [run, I2C_SERCOM_IRQ_HANDLER, irq_drdy, irq_prec, ev_amatch, ev_tx, ev_rx, ev_stop,
      rx_stores, store_index, power_on, RX_BUFFER_LEN, set_i2c_idx]

/-- Witness of `C25_rx_index_bounded`: from power-on, a host write of no byte,
of one byte, of three bytes and a host read of 300 bytes. -/
theorem C25_rx_index_bounded_witness :
    (∀ i ∈ rx_stores (run quiet_bus power_on
      [hostWrite [] 0, hostWrite [5] 0, hostWrite [1, 2, 3] 2, hostRead 300].flatten).2,
        i < RX_BUFFER_LEN) ∧
    (∀ k, (run quiet_bus power_on
      ([hostWrite [] 0, hostWrite [5] 0, hostWrite [1, 2, 3] 2, hostRead 300].take k).flatten
        ).1.i2c_idx = 0) :=
  ⟨(C25_rx_index_bounded quiet_bus power_on
      [hostWrite [] 0, hostWrite [5] 0, hostWrite [1, 2, 3] 2, hostRead 300] rfl
      (by intro t h; simp only [List.mem_cons, List.mem_singleton, List.not_mem_nil,
            or_false] at h
          rcases h with rfl | rfl | rfl | rfl
          · exact hostWrite_transaction _ _
          · exact hostWrite_transaction _ _
          · exact hostWrite_transaction _ _
          · exact hostRead_transaction _)).1,
   (C25_rx_index_bounded quiet_bus power_on
      [hostWrite [] 0, hostWrite [5] 0, hostWrite [1, 2, 3] 2, hostRead 300] rfl
      (by intro t h; simp only [List.mem_cons, List.mem_singleton, List.not_mem_nil,
            or_false] at h
          rcases h with rfl | rfl | rfl | rfl
          · exact hostWrite_transaction _ _
          · exact hostWrite_transaction _ _
          · exact hostWrite_transaction _ _
          · exact hostRead_transaction _)).2.1⟩

/-- C26: on every bus `AD_set_control_mode (m)` returns `I2C_OK` after reading
the two control bytes `b0`, `b1` and writing back `(b0 & 0x0F) | m` and `b1`.
The modes the driver uses have an empty low nibble. On the register-file bus,
with the impedance chip addressed, every step of `AD_get_complex_data` (a
control mode with an empty low nibble, a read of any register) and the function
as a whole leave the low nibble of the first control byte (bit 3, the range
bits 2..1, the gain bit 0) and the second control byte as they were; after a
control mode the first control byte is the old low nibble with the mode. -/
theorem C26_control_mode_frame (mem0 : Nat → Nat) (k : Nat × Nat) (ad : AD)
    (h : on_chip_with mem0 k ad) :
    (∀ (bus : Bus) (a : AD) (m : Nat), ∃ a1, AD_set_control_mode bus a m = (0, a1) ∧
      a1.log = a.log ++ read_ops a.point_addr_buf.1 0x80 ++ read_ops a.point_addr_buf.1 0x81 ++
        [BusOp.write [0x80,
            (rd_byte bus (a.log ++ [BusOp.write [a.point_addr_buf.1, 0x80]]) &&& 0x0F) ||| m],
         BusOp.write [0x81,
            rd_byte bus (a.log ++ read_ops a.point_addr_buf.1 0x80 ++
              [BusOp.write [a.point_addr_buf.1, 0x81]])]]) ∧
    (∀ m ∈ [CTRL_STANDBY_MODE, CTRL_INIT_START_FREQ, CTRL_START_FREQ_SWEEP,
        CTRL_INCREMENT_FREQ], m &&& 0x0F = 0) ∧
    (∀ m, m &&& 0x0F = 0 →
      on_chip_with mem0 k (AD_set_control_mode (chip_bus mem0) ad m).2 ∧
      (chip_state mem0 (AD_set_control_mode (chip_bus mem0) ad m).2.log).mem 0x80 =
        (((chip_state mem0 ad.log).mem 0x80 % 256) &&& 0x0F) ||| m) ∧
    (∀ reg v, on_chip_with mem0 k (AD_get_bytes (chip_bus mem0) (AD_reg reg) ad v).2.1) ∧
    (∀ fuel real img res, AD_get_complex_data (chip_bus mem0) fuel ad real img = some res →
      on_chip_with mem0 k res.2.1) := by
  refine ⟨?_, by decide, fun m hm => chip_control_mode mem0 k ad m hm h,
    fun reg v => chip_get_bytes mem0 k reg ad v h, ?_⟩
  · intro bus a m
    obtain ⟨a1, e, hl, _⟩ := control_mode_spec bus a m
    refine ⟨a1, e, ?_⟩
    rw [hl]
    simp [mode_ops, List.append_assoc]
  · intro fuel real img res hres
    refine complex_data_invariant (driver (chip_bus mem0)) (on_chip_with mem0 k)
      (fun a r ha => ha) ?_ ?_ ?_ fuel ad real img h res hres
    · intro a ha
      rw [driver_power_mode, power_standby]
      exact (chip_control_mode mem0 k a _ (by decide) ha).1
    · intro a m hm ha
      rw [driver_control_mode]
      exact (chip_control_mode mem0 k a m (by rcases hm with rfl | rfl | rfl <;> decide) ha).1
    · intro reg a v _ ha
      rw [driver_get_bytes]
      exact chip_get_bytes mem0 k reg a v ha

set_option maxRecDepth 1000000 in
/-- Witness of `C26_control_mode_frame`: after start-up with both chips
present and the impedance chip selected, the control register holds `0xB7`,
`0x08`; a whole `AD_get_complex_data` keeps the low nibble 7 and the second
byte 8. -/
theorem C26_control_mode_frame_witness :
    on_chip_with reset_mem (7, 8) (set_slaveaddr range_run_start.ad AD5933_ADDR) ∧
    on_chip_with reset_mem (7, 8)
      ((AD_get_complex_data (chip_bus reset_mem) 1
        (set_slaveaddr range_run_start.ad AD5933_ADDR) [0, 0] [0, 0]).getD
          (0, power_on.ad, [], [])).2.1 :=
  ⟨⟨by decide, by decide, by decide⟩,
   (C26_control_mode_frame reset_mem (7, 8) (set_slaveaddr range_run_start.ad AD5933_ADDR)
      ⟨by decide, by decide, by decide⟩).2.2.2.2 1 [0, 0] [0, 0] _
      (some_getD _ _ (by decide))⟩

end SensorNode
